import Mathlib

/-!
# boost.context `continuation_v1.hpp`: a shallow embedding

The header `include/boost/context/continuation_v1.hpp` is embedded as state-passing
functions over a `World`:

* `World.trace` records, in program order, the effects one execution performs through the
  external collaborators (register-state switcher, stack allocator) and the record destructor;
* `World.replies` lists what the rest of the system answers when this execution is switched
  back to (a switch that is never answered leaves the execution `parked`);
* continuation objects, transfer frames and activation records live in three typed stores
  addressed by natural numbers; `0` is `nullptr`.

`BOOST_ASSERT` is embedded as a check whose failure ends the run with `Outcome.abort`.
-/

namespace boost.context

/-! ## Data model -/

/-- The opaque execution pointer `detail::fcontext_t`; `0` is `nullptr`. -/
abbrev fcontext_t := Nat

/-- A `void *` value: the one word carried by a switch. -/
abbrev Word := Nat

/-- Address of a `continuation` object. -/
abbrev Loc := Nat

/-- The null pointer. -/
def nullptr : Nat := 0

/-- Modelled from the spec: `detail::transfer_t` (declared in `detail/fcontext.hpp`, which is not
among the sources), the pair `{prev_exec_ptr, word}` a switch yields (spec 4.1). -/
structure transfer_t where
  fctx : fcontext_t
  data : Word
deriving DecidableEq, Repr

/-- Modelled from the spec: `stack_context` (declared in `stack_context.hpp`, which is not among
the sources), the stack descriptor `{base, size}` of spec 4.2; `sp` is the base (high end). -/
structure stack_context where
  size : Nat
  sp : Nat
deriving DecidableEq, Repr

/-- The handle `class continuation`: its only field is `fctx_`, default `nullptr`. -/
structure continuation where
  fctx_ : fcontext_t := nullptr
deriving DecidableEq, Repr

/-- Types that may be named in a template type list `Ret ...` / `Arg ...`. -/
inductive Ty where
  | void
  | int
  | str
  | ptr
deriving DecidableEq, Repr

/-- Values carried in transfer frames. -/
inductive Val where
  | int (i : Int)
  | str (s : String)
  | ptr (p : Nat)
deriving DecidableEq, Repr

/-- The static type of a value. -/
def Val.type : Val → Ty
  | .int _ => Ty.int
  | .str _ => Ty.str
  | .ptr _ => Ty.ptr

/-- An object a sender materialises on its stack and whose address it passes as the word.
Each constructor is one C++ type shape occurring in the header; a callable stored by value is
identified by a number. -/
inductive Frame where
  /-- `std::tuple< Arg ... >` -/
  | tuple (vs : List Val)
  /-- The local of `auto tpl{ std::forward< Arg >( arg) ... };`: an object list-initialised
  from the pack, of deduced type. -/
  | braced (vs : List Val)
  /-- Result of `std::make_tuple( fn, arg ...)`, a flat `std::tuple< Fn, Arg ... >` -/
  | fn_args (fn : Nat) (vs : List Val)
  /-- `std::tuple< Fn, std::tuple< Arg ... > >` -/
  | fn_tuple (fn : Nat) (vs : List Val)
deriving DecidableEq, Repr

/-- The two activation-record class templates. -/
inductive RecKind where
  | record
  | record_void
deriving DecidableEq, Repr

/-- The functions handed to `ontop_fcontext` as its hook argument. `context_ontop n` is an
instance `context_ontop< continuation, Fn, Arg ... >` with `sizeof ... (Arg) = n`. -/
inductive Hook where
  | context_unwind
  | context_exit (k : RecKind)
  | context_ontop (n : Nat)
  | context_ontop_void
deriving DecidableEq, Repr

/-- Exceptions. `forced_unwind` is modelled from the spec (`detail/exception.hpp` is not among
the sources): the distinguished signal carrying an execution pointer. `user` stands for any
other exception; it may own a continuation (as `my_exception` of the tests does). -/
inductive Exn where
  | forced_unwind (fctx : fcontext_t)
  | user (what : String) (c : continuation)
deriving DecidableEq, Repr

/-- The in-stack fields of `record` / `record_void`: the allocator (by value, identified by a
number) and the stack descriptor. The third field, `fn_`, is the `fn` argument of `run`. -/
structure record where
  salloc_ : Nat
  sctx_ : stack_context
deriving DecidableEq, Repr

/-- Observable effects, in program order. -/
inductive Event where
  /-- `jump_fcontext( to, vp)` -/
  | jump (to_ : fcontext_t) (vp : Word)
  /-- `ontop_fcontext( to, vp, fn)` -/
  | ontop (to_ : fcontext_t) (vp : Word) (fn : Hook)
  /-- `p->~record()` / `p->~record_void()` -/
  | record_dtor (p : Nat)
  /-- `salloc.deallocate( sctx)` -/
  | deallocate (salloc : Nat) (sctx : stack_context)
  /-- `salloc.allocate()` -/
  | allocate (salloc : Nat)
  /-- `make_fcontext( sp, size, & context_entry< Record >)` -/
  | make_fcontext (sp : Word) (size : Nat) (k : RecKind)
  /-- `var = v` for a global variable of the program -/
  | assign (var : String) (v : Val)
deriving DecidableEq, Repr

/-- How a pending switch of this execution is answered: some execution switches back with
transfer `t` (its own pointer and its word); `hook` is set when it did so with `ontop_fcontext`;
`frame` is the object it had materialised at the address `t.data`, if any. -/
structure Reply where
  t : transfer_t
  hook : Option Hook := none
  frame : Option Frame := none
deriving DecidableEq, Repr

/-- State seen by one execution. -/
structure World where
  /-- effects performed so far -/
  trace : List Event := []
  /-- answers to the switches still to come -/
  replies : List Reply := []
  /-- the `continuation` objects, by address -/
  handles : Loc → continuation := fun _ => {}
  /-- first address not yet used for a `continuation` object -/
  fresh : Loc := 0
  /-- transfer frames, by address -/
  frames : Word → Option Frame := fun _ => none
  /-- highest address used for a frame -/
  top : Word := 0
  /-- activation records, by address -/
  records : Nat → Option record := fun _ => none
  /-- answers of the stack provider to the calls of `allocate()` still to come: a descriptor,
  or `none` when the request cannot be fulfilled -/
  allocations : List (Option stack_context) := []
  /-- the execution pointer `make_fcontext( sp, size, entry)` returns -/
  made : Word → Nat → fcontext_t := fun sp _ => sp

/-- How a call ends. -/
inductive Outcome (α : Type) where
  /-- normal return -/
  | ret (a : α)
  /-- an exception leaves the function -/
  | raise (e : Exn)
  /-- a `BOOST_ASSERT` failed, or an exception met a `noexcept` boundary (`std::terminate`) -/
  | abort
  /-- the execution is suspended in a switch that is never answered -/
  | parked
  /-- no behaviour is defined (access through a pointer to no object of the expected type) -/
  | undefined

/-- Effectful computations of one execution. -/
def M (α : Type) : Type := World → Outcome α × World

/-- Sequencing: the continuation runs only after a normal return. -/
def M.bind {α β : Type} (m : M α) (f : α → M β) : M β := fun w =>
  match m w with
  | (.ret a, w1) => f a w1
  | (.raise e, w1) => (.raise e, w1)
  | (.abort, w1) => (.abort, w1)
  | (.parked, w1) => (.parked, w1)
  | (.undefined, w1) => (.undefined, w1)

instance : Monad M where
  pure a := fun w => (.ret a, w)
  bind := M.bind

/-- `throw e` -/
def throw_ {α : Type} (e : Exn) : M α := fun w => (.raise e, w)

/-- `BOOST_ASSERT( b)` -/
def BOOST_ASSERT (b : Bool) : M Unit := fun w =>
  if b then (.ret (), w) else (.abort, w)

/-- A `noexcept` boundary: an exception that reaches it ends the run (`std::terminate`). -/
def noexcept_ {α : Type} (m : M α) : M α := fun w =>
  match m w with
  | (.raise _, w1) => (.abort, w1)
  | r => r

/-- Stack unwinding: `cleanup` (the destructors of the locals in scope) runs when `m` is left by
an exception, which then continues to propagate. -/
def unwinding {α : Type} (m : M α) (cleanup : M Unit) : M α := fun w =>
  match m w with
  | (.raise e, w1) =>
    match cleanup w1 with
    | (.ret _, w2) => (.raise e, w2)
    | (.raise _, w2) => (.abort, w2)
    | (.abort, w2) => (.abort, w2)
    | (.parked, w2) => (.parked, w2)
    | (.undefined, w2) => (.undefined, w2)
  | r => r

/-- Append an event to the trace. -/
def emit (ev : Event) : M Unit := fun w =>
  (.ret (), { w with trace := w.trace ++ [ev] })

/-- User code reachable through a hook: what an instance of `context_ontop` /
`context_ontop_void` does for the callable it finds in its frame. -/
abbrev Env := Hook → transfer_t → M transfer_t

/-! ## Stores -/

/-- Storage for a new `continuation` object (a local or a temporary) holding `p`. -/
def new_continuation (p : fcontext_t) : M Loc := fun w =>
  (.ret w.fresh,
    { w with handles := Function.update w.handles w.fresh { fctx_ := p }, fresh := w.fresh + 1 })

/-- Read the field `fctx_` of the object at `c`. -/
def get_fctx (c : Loc) : M fcontext_t := fun w => (.ret (w.handles c).fctx_, w)

/-- Write the field `fctx_` of the object at `c`. -/
def set_fctx (c : Loc) (p : fcontext_t) : M Unit := fun w =>
  (.ret (), { w with handles := Function.update w.handles c { fctx_ := p } })

/-- Modelled from the spec: `detail::exchange( obj, new_value)` applied to a handle's field
(`detail/exchange.hpp` is not among the sources; the spec's "input handle becomes null" is its
effect): stores `new_value` in the field and returns the value the field held. -/
def exchange (c : Loc) (new_value : fcontext_t) : M fcontext_t := do
  let old ← get_fctx c
  set_fctx c new_value
  pure old

/-- A local object `f` is materialised on the stack; the result is its address `& tpl`,
which is never null. -/
def new_frame (f : Frame) : M Word := fun w =>
  (.ret (w.top + 1),
    { w with frames := Function.update w.frames (w.top + 1) (some f), top := w.top + 1 })

/-- The local at address `a` goes out of scope. -/
def end_frame (a : Word) : M Unit := fun w =>
  (.ret (), { w with frames := Function.update w.frames a none })

/-! ## Activation records: construction and destruction -/

/-- The constructor `record( sctx, salloc, fn)` (and likewise `record_void`), run by placement
new at address `p`: `salloc_( salloc), sctx_( sctx)`. -/
def record.ctor (p : Nat) (sctx : stack_context) (salloc : Nat) : M Unit := fun w =>
  (.ret (), { w with records := Function.update w.records p
                        (some { salloc_ := salloc, sctx_ := sctx }) })

/-- Read the fields of the record at `p`; undefined when no record lives there. -/
def record.read (p : Nat) : M record := fun w =>
  match w.records p with
  | some r => (.ret r, w)
  | none => (.undefined, w)

/-- `p->~record()` : the record at `p` ends its life. -/
def record.dtor (p : Nat) : M Unit := fun w =>
  (.ret (), { w with trace := w.trace ++ [Event.record_dtor p],
                     records := Function.update w.records p none })

/-- Modelled from the spec: `StackAlloc::deallocate( sctx)` of the stack provider (spec 4.2,
an external collaborator): the request is recorded. -/
def StackAlloc.deallocate (salloc : Nat) (sctx : stack_context) : M Unit :=
  emit (Event.deallocate salloc sctx)

/-- `record::destroy( record * p) noexcept` -/
def record.destroy (p : Nat) : M Unit := noexcept_ do
  let r ← record.read p
  let salloc := r.salloc_
  let sctx := r.sctx_
  -- deallocate record
  record.dtor p
  -- destroy stack with stack allocator
  StackAlloc.deallocate salloc sctx

/-- `record::deallocate() noexcept` -/
def record.deallocate (this : Nat) : M Unit := noexcept_ (record.destroy this)

/-- `record_void::destroy( record_void * p) noexcept` -/
def record_void.destroy (p : Nat) : M Unit := noexcept_ do
  let r ← record.read p
  let salloc := r.salloc_
  let sctx := r.sctx_
  -- deallocate record
  record.dtor p
  -- destroy stack with stack allocator
  StackAlloc.deallocate salloc sctx

/-- `record_void::deallocate() noexcept` -/
def record_void.deallocate (this : Nat) : M Unit := noexcept_ (record_void.destroy this)

/-- Member `deallocate` of the template parameter `Rec`. -/
def Rec.deallocate : RecKind → Nat → M Unit
  | .record => record.deallocate
  | .record_void => record_void.deallocate

/-! ## Hooks of the runtime -/

/-- `context_unwind( transfer_t t)` : `throw forced_unwind( t.fctx);` -/
def context_unwind (t : transfer_t) : M transfer_t :=
  throw_ (Exn.forced_unwind t.fctx)

/-- `context_exit< Rec >( transfer_t t) noexcept` -/
def context_exit (k : RecKind) (t : transfer_t) : M transfer_t := noexcept_ do
  let rec_ := t.data
  -- destroy context stack
  Rec.deallocate k rec_
  pure { fctx := nullptr, data := nullptr }

/-- The function a hook value designates: the two runtime hooks are defined above, the
instances of `context_ontop` / `context_ontop_void` are resolved by the environment. -/
def run_hook (E : Env) : Hook → transfer_t → M transfer_t
  | .context_unwind => context_unwind
  | .context_exit k => context_exit k
  | h => E h

/-! ## The register-state switcher -/

/-- Modelled from the spec: arrival of the answer to a pending switch (spec 4.1). The object the
other side materialised is visible at the word's address. A plain `jump` delivers the transfer;
with `ontop`, `hook` runs on this stack at the suspension site and what it returns replaces the
transfer delivered (and what it throws is thrown here). -/
def arrive (E : Env) (r : Reply) : M transfer_t := fun w =>
  let w1 : World :=
    match r.frame with
    | some f => { w with frames := Function.update w.frames r.t.data (some f) }
    | none => w
  match r.hook with
  | none => (.ret r.t, w1)
  | some h => run_hook E h r.t w1

/-- Modelled from the spec: leaving this execution by a switch (spec 4.1). The switch is
recorded; control comes back when the next reply arrives, if there is one. -/
def switch_ (E : Env) (ev : Event) : M transfer_t := fun w =>
  let w1 : World := { w with trace := w.trace ++ [ev] }
  match w1.replies with
  | [] => (.parked, w1)
  | r :: rs => arrive E r { w1 with replies := rs }

/-- Modelled from the spec: `detail::jump_fcontext( to, vp)` (spec 4.1 `jump`), declared in
`detail/fcontext.hpp`, which is not among the sources. -/
def jump_fcontext (E : Env) (to_ : fcontext_t) (vp : Word) : M transfer_t :=
  switch_ E (Event.jump to_ vp)

/-- Modelled from the spec: `detail::ontop_fcontext( to, vp, fn)` (spec 4.1 `ontop`), declared
in `detail/fcontext.hpp`, which is not among the sources. -/
def ontop_fcontext (E : Env) (to_ : fcontext_t) (vp : Word) (fn : Hook) : M transfer_t :=
  switch_ E (Event.ontop to_ vp fn)

/-! ## `class continuation` -/

/-- `continuation::~continuation()`, implicitly `noexcept`. -/
def continuation.dtor (E : Env) (this : Loc) : M Unit := noexcept_ do
  let p ← get_fctx this
  if nullptr ≠ p then
    let old ← exchange this nullptr
    let _ ← ontop_fcontext E old nullptr Hook.context_unwind
    pure ()
  else
    pure ()

/-- `continuation::continuation( continuation && other) noexcept`, constructing the object at
`this`. -/
def continuation.move_ctor (this other : Loc) : M Unit := do
  let p ← get_fctx other
  set_fctx this p
  set_fctx other nullptr

/-- The definition `continuation c2{ std::move( c1) };` : storage for the new object, then its
move constructor. The result is the address of the new object. -/
def continuation.move_construct (other : Loc) : M Loc := do
  let this ← new_continuation nullptr
  continuation.move_ctor this other
  pure this

/-- `continuation::swap( continuation & other) noexcept` -/
def continuation.swap (this other : Loc) : M Unit := do
  let a ← get_fctx this
  let b ← get_fctx other
  set_fctx this b
  set_fctx other a

/-- `continuation::operator=( continuation && other) noexcept`; the result is `* this`. -/
def continuation.move_assign (E : Env) (this other : Loc) : M Loc := noexcept_ do
  if this ≠ other then
    -- continuation tmp = std::move( other);
    let tmp ← continuation.move_construct other
    continuation.swap this tmp
    -- end of the block: tmp is destroyed
    continuation.dtor E tmp
  pure this

/-- `continuation::operator bool() const noexcept` -/
def continuation.operator_bool (this : Loc) : M Bool := do
  let p ← get_fctx this
  pure (decide (nullptr ≠ p))

/-! ## `result_type` -/

/-- A value of `typename result_type< Ctx, Ret ... >::type`: either `Ctx` alone (the
specialisation for `void`) or `std::tuple< Ctx, Arg ... >` (the primary template). -/
inductive Result where
  | ctx (c : continuation)
  | tuple (c : continuation) (vs : List Val)
deriving DecidableEq, Repr

/-- The continuation a result carries. -/
def Result.handle : Result → continuation
  | .ctx c => c
  | .tuple c _ => c

/-- The expression `* p` for `p = static_cast< std::tuple< Arg ... > * >( word)`: the tuple
stored at the address. The access is typed by convention: it is defined only when a
`std::tuple` of exactly the types `Arg ...` lives there. -/
def read_tuple (Arg : List Ty) (p : Word) : M (List Val) := fun w =>
  match w.frames p with
  | some (Frame.tuple vs) => if vs.map Val.type = Arg then (.ret vs, w) else (.undefined, w)
  | _ => (.undefined, w)

/-- `result_type< Ctx, Arg ... >::get( transfer_t t)`, the primary template. -/
def result_type.get (Arg : List Ty) (t : transfer_t) : M Result := do
  BOOST_ASSERT (decide (nullptr ≠ t.data))
  let p := t.data
  let vs ← read_tuple Arg p
  pure (Result.tuple { fctx_ := t.fctx } vs)

/-- `result_type< Ctx, void >::get( transfer_t t)`, the partial specialisation. -/
def result_type_void.get (t : transfer_t) : M Result := do
  BOOST_ASSERT (decide (nullptr = t.data))
  pure (Result.ctx { fctx_ := t.fctx })

/-- Selection of `result_type< continuation, Ret ... >`: the specialisation
`result_type< Ctx, void >` matches exactly the one-element list `void`; every other list,
the empty one included, instantiates the primary template with `Arg ... = Ret ...`. -/
def result_type_get (Ret : List Ty) (t : transfer_t) : M Result :=
  if Ret = [Ty.void] then result_type_void.get t else result_type.get Ret t

/-! ## `record::run`, `record_void::run` -/

/-- `record::run( transfer_t t)`. `fn` is the stored user function `fn_`: it receives a
reference to the local `from` and the values of the argument tuple, and returns a continuation
by value. -/
def record.run (E : Env) (fn : Loc → List Val → M continuation) (ArgTuple : List Ty)
    (t : transfer_t) : M transfer_t := do
  -- Ctx from{ t.fctx };
  let from_ ← new_continuation t.fctx
  -- ArgTuple args = std::move( * static_cast< ArgTuple * >( t.data) );
  let args ← read_tuple ArgTuple t.data
  -- invoke context-function; an exception destroys the locals on its way out
  let r ← unwinding (fn from_ args) (continuation.dtor E from_)
  -- Ctx cc = ...
  let cc ← new_continuation r.fctx_
  let q ← exchange cc nullptr
  -- the locals are destroyed in reverse order of construction
  continuation.dtor E cc
  continuation.dtor E from_
  pure { fctx := q, data := nullptr }

/-- `record_void::run( transfer_t t)`. -/
def record_void.run (E : Env) (fn : Loc → M continuation) (t : transfer_t) : M transfer_t := do
  -- Ctx from{ t.fctx };
  let from_ ← new_continuation t.fctx
  -- invoke context-function
  let r ← unwinding (fn from_) (continuation.dtor E from_)
  -- Ctx cc = ...
  let cc ← new_continuation r.fctx_
  let q ← exchange cc nullptr
  continuation.dtor E cc
  continuation.dtor E from_
  pure { fctx := q, data := nullptr }

/-! ## The trampoline -/

/-- What `context_entry< Rec >` uses of its template parameter: which class template it is
and the member `run` of the record the word points to. -/
structure Rec where
  kind : RecKind
  run : transfer_t → M transfer_t

/-- `try { body } catch ( forced_unwind const& e) { handler( e.fctx) }` -/
def try_catch_forced_unwind {α : Type} (body : M α) (handler : fcontext_t → M α) : M α :=
  fun w =>
    match body w with
    | (.raise (.forced_unwind p), w1) => handler p w1
    | r => r

/-- `context_entry< Rec >( transfer_t t_) noexcept` -/
def context_entry (E : Env) (R : Rec) (t_ : transfer_t) : M Unit := noexcept_ do
  -- transfer control structure to the context-stack
  let rec_ := t_.data
  BOOST_ASSERT (decide (nullptr ≠ rec_))
  let t ← try_catch_forced_unwind
    (do
      -- jump back to context_create()
      let t ← jump_fcontext E t_.fctx nullptr
      -- start executing
      R.run t)
    (fun p => pure { fctx := p, data := nullptr })
  BOOST_ASSERT (decide (nullptr ≠ t.fctx))
  -- destroy context-stack of this context on next context
  let _ ← ontop_fcontext E t.fctx rec_ (Hook.context_exit R.kind)
  -- BOOST_ASSERT_MSG( false, "context already terminated")
  BOOST_ASSERT false

/-! ## `callcc`: the four overloads that resume a continuation -/

/-- `callcc< Ret ... >( continuation && c, Arg ... arg)`, chosen by overload resolution when
at least one argument is passed. -/
def callcc_resume_arg (E : Env) (Ret : List Ty) (c : Loc) (arg : List Val) : M Result := do
  BOOST_ASSERT (← continuation.operator_bool c)
  -- auto tpl{ std::forward< Arg >( arg) ... };
  let tpl ← new_frame (Frame.braced arg)
  let r ← unwinding
    (do
      let p ← exchange c nullptr
      let t ← jump_fcontext E p tpl
      result_type_get Ret t)
    (end_frame tpl)
  end_frame tpl
  pure r

/-- `callcc< Ret ... >( continuation && c, exec_ontop_arg_t, Fn && fn, Arg ... arg)` -/
def callcc_ontop_arg (E : Env) (Ret : List Ty) (c : Loc) (fn : Nat) (arg : List Val) :
    M Result := do
  BOOST_ASSERT (← continuation.operator_bool c)
  -- auto tpl = std::make_tuple( std::forward< Fn >( fn), std::forward< Arg >( arg) ... );
  let tpl ← new_frame (Frame.fn_args fn arg)
  let r ← unwinding
    (do
      let p ← exchange c nullptr
      let t ← ontop_fcontext E p tpl (Hook.context_ontop arg.length)
      result_type_get Ret t)
    (end_frame tpl)
  end_frame tpl
  pure r

/-- `callcc< Ret ... >( continuation && c)` -/
def callcc_resume (E : Env) (Ret : List Ty) (c : Loc) : M Result := do
  BOOST_ASSERT (← continuation.operator_bool c)
  let p ← exchange c nullptr
  let t ← jump_fcontext E p nullptr
  result_type_get Ret t

/-- `callcc< Ret ... >( continuation && c, exec_ontop_arg_t, Fn && fn)` -/
def callcc_ontop (E : Env) (Ret : List Ty) (c : Loc) (fn : Nat) : M Result := do
  BOOST_ASSERT (← continuation.operator_bool c)
  -- auto tpl = std::make_tuple( std::forward< Fn >( fn) );
  let tpl ← new_frame (Frame.fn_args fn [])
  let r ← unwinding
    (do
      let p ← exchange c nullptr
      let t ← ontop_fcontext E p tpl Hook.context_ontop_void
      result_type_get Ret t)
    (end_frame tpl)
  end_frame tpl
  pure r

/-! ## `callcc`: the overloads that spawn -/

/-- The spawning overloads without arguments,
`callcc< Ret ... >( std::allocator_arg, [palloc,] salloc, fn)`:
`return callcc< Ret ... >( continuation{ detail::context_create< Record >( ...) } );`.
The call `detail::context_create< Record >( ...)` is the argument `create`; the temporary
handle built from its result lives until the call has returned. -/
def callcc_spawn (E : Env) (Ret : List Ty) (create : M fcontext_t) : M Result := do
  let fctx ← create
  let tmp ← new_continuation fctx
  let r ← unwinding (callcc_resume E Ret tmp) (continuation.dtor E tmp)
  continuation.dtor E tmp
  pure r

/-- The spawning overloads with arguments,
`callcc< Ret ... >( std::allocator_arg, [palloc,] salloc, fn, arg ...)`:
`return callcc< Ret ... >( continuation{ detail::context_create< Record >( ...) }, arg ...);` -/
def callcc_spawn_arg (E : Env) (Ret : List Ty) (create : M fcontext_t) (arg : List Val) :
    M Result := do
  let fctx ← create
  let tmp ← new_continuation fctx
  let r ← unwinding (callcc_resume_arg E Ret tmp arg) (continuation.dtor E tmp)
  continuation.dtor E tmp
  pure r

/-! ## Predicates used in the statements -/

/-- The world after `detail::exchange( c.fctx_, nullptr)`: the handle at `c` is empty. -/
def World.emptied (w : World) (c : Loc) : World :=
  { w with handles := Function.update w.handles c { fctx_ := nullptr } }

/-- The world after the local object `f` has been materialised (at address `w.top + 1`). -/
def World.with_frame (w : World) (f : Frame) : World := (new_frame f w).2

/-- The world in which the value returned by the user function has been materialised as the
local `cc` (at address `w.fresh`) and emptied by `exchange( cc.fctx_, nullptr)`. -/
def World.with_emptied_local (w : World) : World :=
  { w with handles := Function.update w.handles w.fresh { fctx_ := nullptr }, fresh := w.fresh + 1 }

/-- The user code reachable through hooks leaves the continuation object at `c` alone. -/
def Env.keeps (E : Env) (c : Loc) : Prop :=
  ∀ (h : Hook) (t : transfer_t) (w : World), (E h t w).2.handles c = w.handles c

/-- The user code reachable through hooks only adds to the trace. -/
def Env.appends (E : Env) : Prop :=
  ∀ (h : Hook) (t : transfer_t) (w : World), ∃ evs, (E h t w).2.trace = w.trace ++ evs

/-- An environment without user hooks: an instance of `context_ontop` is never reached. -/
def Env.none : Env := fun _ t w => (.ret t, w)

/-! ## Concrete worlds used as witnesses -/

/-- Two existing handles: the one at address 0 holds 5, the one at address 1 holds 7; no
switch is ever answered. -/
def ex_two_handles : World :=
  { handles := fun c => if c = 0 then { fctx_ := 5 } else if c = 1 then { fctx_ := 7 } else {},
    fresh := 2 }

/-- One handle at address 0 holding 5; the first switch is answered by a plain jump from
execution 9 carrying a null word. -/
def ex_resumable : World :=
  { handles := fun c => if c = 0 then { fctx_ := 5 } else {},
    fresh := 1,
    replies := [{ t := { fctx := 9, data := nullptr } }] }

/-- A user function like `fn7` of the tests: `return callcc< void >( std::move( c));` -/
def fn_return_callcc (c : Loc) : M continuation := do
  let r ← callcc_resume Env.none [Ty.void] c
  pure r.handle

/-- The record type of `fn_return_callcc`: a `record_void`. -/
def ex_rec : Rec :=
  { kind := RecKind.record_void, run := record_void.run Env.none fn_return_callcc }

/-- A freshly entered execution whose record is at address 100. Execution 5 (its spawner)
resumes it with a plain jump; its next switch is answered by execution 6 terminating: an
on-top switch with hook `context_exit` and the record of 6, at address 200, as word. -/
def ex_entry : World :=
  { replies := [{ t := { fctx := 5, data := nullptr } },
                { t := { fctx := 6, data := 200 }, hook := some (Hook.context_exit .record_void) }],
    records := fun a =>
      if a = 100 then some { salloc_ := 1, sctx_ := { size := 4096, sp := 1000 } }
      else if a = 200 then some { salloc_ := 1, sctx_ := { size := 4096, sp := 5000 } }
      else none }

/-- A freshly entered execution (record at address 100) whose spawner, execution 5, drops the
handle at once: the jump back is answered by an on-top switch with hook `context_unwind`. -/
def ex_unwound : World :=
  { replies := [{ t := { fctx := 5, data := nullptr }, hook := some Hook.context_unwind }],
    records := fun a =>
      if a = 100 then some { salloc_ := 1, sctx_ := { size := 4096, sp := 1000 } } else none }

/-- The world of `ex_unwound` when the forced unwind reaches the handler of `context_entry`. -/
def ex_unwound_caught : World :=
  { ex_unwound with trace := [Event.jump 5 nullptr], replies := [] }

/-- A user function `return std::move( c);` : it returns the continuation it received. -/
def fn_return_received (c : Loc) (_ : List Val) : M continuation := do
  let p ← exchange c nullptr
  pure { fctx_ := p }

/-- The same user function without further parameters. -/
def fn_return_received_void (c : Loc) : M continuation := do
  let p ← exchange c nullptr
  pure { fctx_ := p }

/-- A user function `return std::move( other);` where `other` is the handle at address 0:
it returns a different continuation than the one it received and leaves the latter alone. -/
def fn_chain (_ : Loc) : M continuation := do
  let p ← exchange 0 nullptr
  pure { fctx_ := p }

/-- The handle at address 0 holds 7 (a third execution); no switch is ever answered. -/
def ex_chain : World :=
  { handles := fun c => if c = 0 then { fctx_ := 7 } else {}, fresh := 1 }

/-- The tuple `(7)` lives at address 50; no handle exists yet and no switch is answered. -/
def ex_args : World :=
  { frames := fun a => if a = 50 then some (Frame.tuple [Val.int 7]) else none, top := 50 }

/-- The world of `ex_args` when `fn_return_received` returns from its call by `run`. -/
def ex_args_returned : World :=
  (fn_return_received 0 [Val.int 7] (new_continuation 5 ex_args).2).2

/-- A resumer (handle at address 0 holding 5) whose switch is answered by the termination of
execution 5: an on-top switch with hook `context_exit` and the record at address 100. -/
def ex_resumer : World :=
  { handles := fun c => if c = 0 then { fctx_ := 5 } else {},
    fresh := 1,
    replies := [{ t := { fctx := 5, data := 100 },
                  hook := some (Hook.context_exit .record_void) }],
    records := fun a =>
      if a = 100 then some { salloc_ := 1, sctx_ := { size := 4096, sp := 1000 } } else none }

/-- A resumer (handle at address 0 holding 5) whose switch is answered by execution 9 with the
address 50 of the tuple `(3, "abc")`. -/
def ex_receiver : World :=
  { handles := fun c => if c = 0 then { fctx_ := 5 } else {},
    fresh := 1,
    replies := [{ t := { fctx := 9, data := 50 },
                  frame := some (Frame.tuple [Val.int 3, Val.str "abc"]) }] }

/-- The empty tuple `std::tuple<>` lives at address 50. -/
def ex_empty_tuple : World :=
  { frames := fun a => if a = 50 then some (Frame.tuple []) else none, top := 50 }

/-! ## `class continuation`: comparison operators -/

/-- `continuation::operator==( continuation const& other) const noexcept` -/
def continuation.operator_eq (this other : continuation) : Bool :=
  decide (this.fctx_ = other.fctx_)

/-- `continuation::operator!=( continuation const& other) const noexcept` -/
def continuation.operator_ne (this other : continuation) : Bool :=
  decide (this.fctx_ ≠ other.fctx_)

/-- `continuation::operator<( continuation const& other) const noexcept` -/
def continuation.operator_lt (this other : continuation) : Bool :=
  decide (this.fctx_ < other.fctx_)

/-- `continuation::operator>( continuation const& other) const noexcept` -/
def continuation.operator_gt (this other : continuation) : Bool :=
  decide (other.fctx_ < this.fctx_)

/-- `continuation::operator<=( continuation const& other) const noexcept` -/
def continuation.operator_le (this other : continuation) : Bool :=
  ! (continuation.operator_gt this other)

/-- `continuation::operator>=( continuation const& other) const noexcept` -/
def continuation.operator_ge (this other : continuation) : Bool :=
  ! (continuation.operator_lt this other)

/-- The world `this = std::move( other)` reaches, for distinct objects, when the temporary
`tmp` (at address `w.fresh`) is about to be destroyed: `this` holds what `other` held, `other`
is empty and `tmp` holds what `this` held. -/
def World.move_assigned (w : World) (this other : Loc) : World :=
  { w with
    handles := Function.update (Function.update (Function.update w.handles w.fresh
      (w.handles this)) other { fctx_ := nullptr }) this (w.handles other),
    fresh := w.fresh + 1 }

/-! ## `context_create` -/

/-- Modelled from the spec: `preallocated` (declared in `preallocated.hpp`, which is not among
the sources), the caller-supplied slice `{sp, size, stack_ctx}` of spec 6. -/
structure preallocated where
  sp : Word
  size : Nat
  sctx : stack_context
deriving DecidableEq, Repr

/-- Number of values of a pointer and of `std::size_t`: arithmetic on them is modulo
`2 ^ 64`. -/
def word_size : Nat := 2 ^ 64

/-- Subtraction `a - b` on pointers and on `std::size_t`. -/
def wsub (a b : Nat) : Nat := (a + (word_size - b % word_size)) % word_size

/-- The function `std::align( alignment, size, ptr, space)` of the C++ standard library
(`<memory>`, not part of the sources), as libstdc++ computes it:
`aligned = (ptr - 1 + alignment) & -alignment`, `diff = aligned - ptr`, and the result is a
null pointer if `size + diff > space`, else `aligned`. So the result is the first address at or
after `ptr` that is a multiple of `alignment` (a power of two), provided `size` bytes at that
address fit into the `space` bytes that start at `ptr`. -/
def std_align (alignment size ptr space : Nat) : Word :=
  let aligned := (ptr + (alignment - 1)) % word_size / alignment * alignment
  let diff := wsub aligned ptr
  if (size + diff) % word_size > space then nullptr else aligned

/-- The exception by which a stack provider reports that it cannot fulfil a request. -/
def bad_alloc : Exn := Exn.user "std::bad_alloc" {}

/-- Modelled from the spec: `StackAlloc::allocate()` of the stack provider (spec 4.2, 7, an
external collaborator): the request is recorded and answered with a descriptor, or the
failure is surfaced to the caller as an exception. -/
def StackAlloc.allocate (salloc : Nat) : M stack_context := fun w =>
  let w1 : World := { w with trace := w.trace ++ [Event.allocate salloc] }
  match w1.allocations with
  | some sctx :: rest => (.ret sctx, { w1 with allocations := rest })
  | none :: rest => (.raise bad_alloc, { w1 with allocations := rest })
  | [] => (.raise bad_alloc, w1)

/-- Modelled from the spec: `make_fcontext( sp, size, entry)` (spec 4.1 `make`), declared in
`detail/fcontext.hpp`, which is not among the sources: the stack region is prepared so that
the first switch to the returned pointer enters `context_entry< Record >`. -/
def make_fcontext (sp : Word) (size : Nat) (k : RecKind) : M fcontext_t := fun w =>
  (.ret (w.made sp size), { w with trace := w.trace ++ [Event.make_fcontext sp size k] })

/-- `context_create< Record >( StackAlloc salloc, Fn && fn)`, the branch that uses
`std::align`. `k` tells which record template `Record` is and `sizeof_Record` is
`sizeof( Record)`; the function object is the `fn` argument of `run`. -/
def context_create (E : Env) (k : RecKind) (sizeof_Record : Nat) (salloc : Nat) :
    M fcontext_t := do
  let sctx ← StackAlloc.allocate salloc
  -- reserve space for control structure
  let func_alignment := 64
  let func_size := sizeof_Record
  -- reserve space on stack
  let sp0 := wsub (wsub sctx.sp func_size) func_alignment
  -- align sp pointer
  let space := (func_size + func_alignment) % word_size
  let sp := std_align func_alignment func_size sp0 space
  BOOST_ASSERT (decide (nullptr ≠ sp))
  -- calculate remaining size
  let size := wsub sctx.size (wsub sctx.sp sp)
  -- create fast-context
  let fctx ← make_fcontext sp size k
  BOOST_ASSERT (decide (nullptr ≠ fctx))
  -- placment new for control structure on context-stack
  record.ctor sp sctx salloc
  let rec_ := sp
  -- transfer control structure to context-stack
  let t ← jump_fcontext E fctx rec_
  pure t.fctx

/-- `context_create< Record >( preallocated palloc, StackAlloc salloc, Fn && fn)`, the branch
that uses `std::align`. -/
def context_create_prealloc (E : Env) (k : RecKind) (sizeof_Record : Nat)
    (palloc : preallocated) (salloc : Nat) : M fcontext_t := do
  -- reserve space for control structure
  let func_alignment := 64
  let func_size := sizeof_Record
  -- reserve space on stack
  let sp0 := wsub (wsub palloc.sp func_size) func_alignment
  -- align sp pointer
  let space := (func_size + func_alignment) % word_size
  let sp := std_align func_alignment func_size sp0 space
  BOOST_ASSERT (decide (nullptr ≠ sp))
  -- calculate remaining size
  let size := wsub palloc.size (wsub palloc.sp sp)
  -- create fast-context
  let fctx ← make_fcontext sp size k
  BOOST_ASSERT (decide (nullptr ≠ fctx))
  -- placment new for control structure on context-stack
  record.ctor sp palloc.sctx salloc
  let rec_ := sp
  -- transfer control structure to context-stack
  let t ← jump_fcontext E fctx rec_
  pure t.fctx

/-- `callcc< Ret ... >( std::allocator_arg, salloc, fn, arg ...)`: `Record` is
`detail::record< continuation, std::tuple< Arg ... >, StackAlloc, Fn >`. -/
def callcc_alloc_arg (E : Env) (Ret : List Ty) (sizeof_Record : Nat) (salloc : Nat)
    (arg : List Val) : M Result :=
  callcc_spawn_arg E Ret (context_create E RecKind.record sizeof_Record salloc) arg

/-- `callcc< Ret ... >( std::allocator_arg, palloc, salloc, fn, arg ...)` -/
def callcc_prealloc_arg (E : Env) (Ret : List Ty) (sizeof_Record : Nat)
    (palloc : preallocated) (salloc : Nat) (arg : List Val) : M Result :=
  callcc_spawn_arg E Ret
    (context_create_prealloc E RecKind.record sizeof_Record palloc salloc) arg

/-- `callcc< Ret ... >( std::allocator_arg, salloc, fn)`: `Record` is
`detail::record_void< continuation, StackAlloc, Fn >`. -/
def callcc_alloc (E : Env) (Ret : List Ty) (sizeof_Record : Nat) (salloc : Nat) : M Result :=
  callcc_spawn E Ret (context_create E RecKind.record_void sizeof_Record salloc)

/-- `callcc< Ret ... >( std::allocator_arg, palloc, salloc, fn)` -/
def callcc_prealloc (E : Env) (Ret : List Ty) (sizeof_Record : Nat)
    (palloc : preallocated) (salloc : Nat) : M Result :=
  callcc_spawn E Ret
    (context_create_prealloc E RecKind.record_void sizeof_Record palloc salloc)

/-- The stack allocator `fixedsize_stack()` that the overloads without allocator argument
construct. -/
def fixedsize_stack : Nat := 0

/-- `callcc< Ret ... >( fn, arg ...)` :
`return callcc< Ret ... >( std::allocator_arg, fixedsize_stack(), fn, arg ...);` -/
def callcc_fn_arg (E : Env) (Ret : List Ty) (sizeof_Record : Nat) (arg : List Val) :
    M Result :=
  callcc_alloc_arg E Ret sizeof_Record fixedsize_stack arg

/-- `callcc< Ret ... >( fn)` :
`return callcc< Ret ... >( std::allocator_arg, fixedsize_stack(), fn);` -/
def callcc_fn (E : Env) (Ret : List Ty) (sizeof_Record : Nat) : M Result :=
  callcc_alloc E Ret sizeof_Record fixedsize_stack

/-- A stack provider that cannot fulfil the next request; one handle (at address 0, holding
5) exists. -/
def ex_no_stack : World :=
  { handles := fun c => if c = 0 then { fctx_ := 5 } else {},
    fresh := 1,
    allocations := [none] }

/-- The stack provider answers the next request with a stack of 128 bytes whose base is the
address 128. -/
def ex_low_base : World :=
  { allocations := [some { size := 128, sp := 128 }] }

/-- The stack provider answers the next request with a stack of 64 bytes whose base is the
address 1048576. -/
def ex_small_stack : World :=
  { allocations := [some { size := 64, sp := 1048576 }] }

/-- The stack provider answers the next request with a stack of 4096 bytes whose base is the
address 100. -/
def ex_wrapped_base : World :=
  { allocations := [some { size := 4096, sp := 100 }] }

/-- The stack provider answers the next request with a stack of 4096 bytes whose base is the
address 8192. -/
def ex_stack : World :=
  { allocations := [some { size := 4096, sp := 8192 }] }

/-- A slice of the stack `{ size := 4096, sp := 8192 }` that keeps the 96 bytes below the base
for the caller, as `test_prealloc` does with its control structure. -/
def ex_palloc : preallocated :=
  { sp := 8096, size := 4000, sctx := { size := 4096, sp := 8192 } }

/-- A world whose `make_fcontext` always returns the execution pointer 77. -/
def ex_made : World :=
  { made := fun _ _ => 77 }

/-- A slice of the same stack whose top is the address 128. -/
def ex_palloc_low : preallocated :=
  { sp := 128, size := 128, sctx := { size := 4096, sp := 8192 } }

/-- A world whose `make_fcontext` returns a null pointer. -/
def ex_made_null : World :=
  { made := fun _ _ => nullptr }

/-- The spawner of `test_prealloc`: `make_fcontext` returns 77; the new execution, entered by
the first switch, jumps back from its trampoline as 78, and when it is resumed its user
function returns at once, so it terminates: an on-top switch with hook `context_exit` and its
record, which for the slice `ex_palloc` and a record of 100 bytes is at address 7936. -/
def ex_prealloc_spawn : World :=
  { made := fun _ _ => 77,
    replies := [{ t := { fctx := 78, data := nullptr } },
                { t := { fctx := 78, data := 7936 },
                  hook := some (Hook.context_exit RecKind.record) }] }

/-! ## On-top hooks: `context_ontop` and `context_ontop_void` -/

/-- An object a user hook returns: a value, or a `std::tuple` of objects. -/
inductive Obj where
  | val (v : Val)
  | tuple (xs : List Obj)

/-- The value an object converts to, if it is one. -/
def Obj.as_val : Obj → Option Val
  | .val v => some v
  | .tuple _ => none

/-- The values a list of objects converts to, if all of them are values. -/
def Obj.values : List Obj → Option (List Val)
  | [] => some []
  | x :: xs =>
    match x.as_val, Obj.values xs with
    | some v, some vs => some (v :: vs)
    | _, _ => none

/-- The values an object assigns to a `std::tuple< Arg ... >`, if it is a tuple of values. -/
def Obj.as_tuple : Obj → Option (List Val)
  | .tuple xs => Obj.values xs
  | .val _ => none

/-- `helper< N >::convert( T && t)`, the primary template:
`return std::forward< T >( t);` -/
def helper.convert (t : Obj) : Obj := t

/-- `helper< 1 >::convert( T && t)`, the specialisation:
`return std::make_tuple( std::forward< T >( t) );` -/
def helper_1.convert (t : Obj) : Obj := Obj.tuple [t]

/-- `detail::helper< N >::convert( t)`: the specialisation is selected for `N = 1`, the
primary template otherwise. -/
def helper_convert (N : Nat) (t : Obj) : Obj :=
  if N = 1 then helper_1.convert t else helper.convert t

/-- The user hooks of a program: the call `fn( c, args ...)` of the callable `fn` with a
reference to the continuation at `c`, with its effects; the result of a hook that returns
`void` is ignored. -/
abbrev UserHooks := Nat → Loc → List Val → M Obj

/-- The expression `* tpl` for
`tpl = static_cast< std::tuple< Fn, std::tuple< Arg ... > > * >( word)` with `n` types
`Arg ...`: defined only when a tuple of a callable and a tuple of `n` values lives there. -/
def read_fn_tuple (n : Nat) (tpl : Word) : M (Nat × List Val) := fun w =>
  match w.frames tpl with
  | some (Frame.fn_tuple fn vs) => if vs.length = n then (.ret (fn, vs), w) else (.undefined, w)
  | _ => (.undefined, w)

/-- The expression `std::get< 0 >( * tpl)` for `tpl = static_cast< std::tuple< Fn > * >( word)`:
defined only when a tuple of just a callable (`std::make_tuple( fn)`) lives there. -/
def read_fn (tpl : Word) : M Nat := fun w =>
  match w.frames tpl with
  | some (Frame.fn_args fn []) => (.ret fn, w)
  | _ => (.undefined, w)

/-- The address `& std::get< 1 >( * tpl)` of the second member of the tuple at `tpl`: a
sub-object, which the model keeps at the address after the one of the enclosing tuple. -/
def get_1_addr (tpl : Word) : Word := tpl + 1

/-- The assignment `std::get< 1 >( * tpl) = x` to the member of type `std::tuple< Arg ... >`
(`n` types) of the tuple at `tpl`, whose first member is `fn`: defined when `x` is a tuple of
`n` values (for other `x` the statement has no meaning). -/
def assign_get_1 (tpl : Word) (fn : Nat) (n : Nat) (x : Obj) : M Unit := fun w =>
  match x.as_tuple with
  | some vs =>
    if vs.length = n then
      (.ret (), { w with
        frames := Function.update (Function.update w.frames tpl (some (Frame.fn_tuple fn vs)))
                    (get_1_addr tpl) (some (Frame.tuple vs)) })
    else (.undefined, w)
  | none => (.undefined, w)

/-- `context_ontop< Ctx, Fn, Arg ... >( transfer_t t)` with `n = sizeof ... (Arg)`. The source
writes `std::get< 1 >( tpl)` in the line that builds `args` and concatenates `std::ref( c)`
itself; the embedding reads that line as it is commented, "pass continuation via reference":
`args` is the reference to `c` followed by the members of `std::get< 1 >( * tpl)`. The local
`c` is destroyed when the function is left, by return or by an exception. -/
def context_ontop (E : Env) (H : UserHooks) (n : Nat) (t : transfer_t) : M transfer_t := do
  let tpl := t.data
  BOOST_ASSERT (decide (nullptr ≠ tpl))
  let (fn, a) ← read_fn_tuple n tpl
  -- Ctx c{ t.fctx };
  let c ← new_continuation t.fctx
  let r ← unwinding
    (do
      -- execute function, pass continuation via reference
      let x ← H fn c a
      assign_get_1 tpl fn n (helper_convert n x)
      BOOST_ASSERT (decide (nullptr ≠ (← get_fctx c)))
      let p ← exchange c nullptr
      pure { fctx := p, data := get_1_addr tpl })
    (continuation.dtor E c)
  continuation.dtor E c
  pure r

/-- `context_ontop_void< Ctx, Fn >( transfer_t t)`. The local `c` is destroyed when the
function is left, by return or by an exception. -/
def context_ontop_void (E : Env) (H : UserHooks) (t : transfer_t) : M transfer_t := do
  let tpl := t.data
  BOOST_ASSERT (decide (nullptr ≠ tpl))
  let fn ← read_fn tpl
  -- Ctx c{ t.fctx };
  let c ← new_continuation t.fctx
  let r ← unwinding
    (do
      -- execute function, pass continuation via reference
      let _ ← H fn c []
      BOOST_ASSERT (decide (nullptr ≠ (← get_fctx c)))
      let p ← exchange c nullptr
      pure { fctx := p, data := nullptr })
    (continuation.dtor E c)
  continuation.dtor E c
  pure r

/-- The environment of a program with the user hooks `H`: the hook values
`context_ontop< continuation, Fn, Arg ... >` and `context_ontop_void< continuation, Fn >`
designate the two functions above; switches made inside them resolve their hooks by `E`. -/
def Env.ontop (H : UserHooks) (E : Env) : Env := fun h t =>
  match h with
  | .context_ontop n => context_ontop E H n t
  | .context_ontop_void => context_ontop_void E H t
  | _ => E h t

/-! ## User code of the on-top tests -/

/-- The hooks of `test_ontop` and `test_ontop_exception`, by number:
1 is `[]( continuation &, int x) { return x - 10; }`,
2 is `[]( continuation &, int x, int y) { return std::make_tuple( x - y, x + y); }`,
3 is `[what]( continuation & c) { throw my_exception( std::move( c), what); }` with
`what = "hello world"` (the constructor of `my_exception` moves `c` into the exception), and
4 is a hook that throws `my_exception` built from another, empty continuation, leaving `c`
alone. -/
def ex_hooks : UserHooks := fun fn c a =>
  match fn, a with
  | 1, [Val.int x] => pure (Obj.val (Val.int (x - 10)))
  | 2, [Val.int x, Val.int y] =>
    pure (Obj.tuple [Obj.val (Val.int (x - y)), Obj.val (Val.int (x + y))])
  | 3, [] => do
    let p ← exchange c nullptr
    throw_ (Exn.user "hello world" { fctx_ := p })
  | 4, [] => throw_ (Exn.user "hello world" {})
  | _, _ => pure (Obj.tuple [])

/-- The environment of the on-top tests. -/
def ex_env : Env := Env.ontop ex_hooks Env.none

/-- The frame `std::make_tuple( fn, 3)` for hook 1 lives at address 50. -/
def ex_flat : World :=
  { frames := fun a => if a = 50 then some (Frame.fn_args 1 [Val.int 3]) else none, top := 50 }

/-- The frame `std::make_tuple( fn)` for hook 3 lives at address 50. -/
def ex_flat_void : World :=
  { frames := fun a => if a = 50 then some (Frame.fn_args 3 []) else none, top := 50 }

/-- The target of `test_ontop` (handle at address 0 holding the resumer 5), suspended in
`callcc< int >( std::move( c), x * 10)`, when its switch is answered by an on-top switch with
hook `context_ontop< continuation, Fn, int >` for hook 1 and the frame the trampoline decodes:
the nested tuple of the hook and `(3)` at address 50. -/
def ex_target_nested : World :=
  { handles := fun c => if c = 0 then { fctx_ := 5 } else {},
    fresh := 1,
    replies := [{ t := { fctx := 5, data := 50 }, hook := some (Hook.context_ontop 1),
                  frame := some (Frame.fn_tuple 1 [Val.int 3]) }] }

/-- The same target when the frame is the one the sender builds,
`std::make_tuple( fn, 3)`. -/
def ex_target_flat : World :=
  { handles := fun c => if c = 0 then { fctx_ := 5 } else {},
    fresh := 1,
    replies := [{ t := { fctx := 5, data := 50 }, hook := some (Hook.context_ontop 1),
                  frame := some (Frame.fn_args 1 [Val.int 3]) }] }

/-- The echoing target `fn17` (handle at address 0 holding the resumer 5), suspended in
`callcc< int, int >( std::move( c), i, j)`, when its switch is answered by an on-top switch
with hook `context_ontop< continuation, Fn, int, int >` for hook 2 and the nested tuple of the
hook and `(3, 1)` at address 50. -/
def ex_echo_nested : World :=
  { handles := fun c => if c = 0 then { fctx_ := 5 } else {},
    fresh := 1,
    replies := [{ t := { fctx := 5, data := 50 }, hook := some (Hook.context_ontop 2),
                  frame := some (Frame.fn_tuple 2 [Val.int 3, Val.int 1]) }] }

/-- The same target when the frame is the one the sender builds,
`std::make_tuple( fn, 3, 1)`. -/
def ex_echo_flat : World :=
  { handles := fun c => if c = 0 then { fctx_ := 5 } else {},
    fresh := 1,
    replies := [{ t := { fctx := 5, data := 50 }, hook := some (Hook.context_ontop 2),
                  frame := some (Frame.fn_args 2 [Val.int 3, Val.int 1]) }] }

/-- The nested tuple of hook 1 and `(3)` lives at address 50. -/
def ex_nested : World :=
  { frames := fun a => if a = 50 then some (Frame.fn_tuple 1 [Val.int 3]) else none, top := 50 }

/-- The nested tuple of hook 2 and `(3, 1)` lives at address 50. -/
def ex_nested_pair : World :=
  { frames := fun a => if a = 50 then some (Frame.fn_tuple 2 [Val.int 3, Val.int 1]) else none,
    top := 50 }

/-- The world in which the hook of an on-top reply starts: the switch `ev` is recorded, the
reply is consumed and the frame `f` the other side materialised is visible at `a`. -/
def World.switched (w : World) (ev : Event) (rs : List Reply) (a : Word) (f : Frame) : World :=
  { w with
    trace := w.trace ++ [ev],
    replies := rs,
    frames := Function.update w.frames a (some f) }

/-- `try { body } catch ( my_exception & ex) { handler( ex.what(), ex.c) }` -/
def try_catch_my_exception {α : Type} (body : M α) (handler : String → continuation → M α) :
    M α := fun w =>
  match body w with
  | (.raise (.user what c), w1) => handler what c w1
  | r => r

/-- The target of `test_ontop_exception`, written for this header (`callcc< void >`):
`for (;;) { value1 = 3; try { c = callcc< void >( std::move( c) ); }
catch ( my_exception & ex) { value2 = ex.what(); return std::move( ex.c); } }`.
The first argument bounds the number of iterations the model follows. -/
def fn_ontop_exception (E : Env) : Nat → Loc → M continuation
  | 0, _ => fun w => (.parked, w)
  | fuel + 1, c => do
    emit (Event.assign "value1" (Val.int 3))
    let caught ← try_catch_my_exception
      (do
        let r ← callcc_resume E [Ty.void] c
        let tmp ← new_continuation r.handle.fctx_
        let _ ← continuation.move_assign E c tmp
        continuation.dtor E tmp
        pure none)
      (fun what exc => do
        emit (Event.assign "value2" (Val.str what))
        pure (some exc))
    match caught with
    | some k => pure k
    | none => fn_ontop_exception E fuel c

/-- The record type of `fn_ontop_exception`: a `record_void`. -/
def ex_rec_exception (fuel : Nat) : Rec :=
  { kind := RecKind.record_void, run := record_void.run ex_env (fn_ontop_exception ex_env fuel) }

/-- The target of `test_ontop_exception`, freshly entered with its record at address 100.
Execution 5 (the test) resumes it with a plain jump and then on top with hook 3, passing the
frame `std::make_tuple( fn)` at address 50. (The test resumes it once more in between, which
repeats the loop.) -/
def ex_exception_target : World :=
  { replies := [{ t := { fctx := 5, data := nullptr } },
                { t := { fctx := 5, data := 50 }, hook := some Hook.context_ontop_void,
                  frame := some (Frame.fn_args 3 []) }],
    records := fun a =>
      if a = 100 then some { salloc_ := 1, sctx_ := { size := 4096, sp := 1000 } } else none }

/-- The test (handle at address 0 holding the target 7) when the target answers its on-top
switch by terminating: an on-top switch with hook `context_exit` and the record at 100. -/
def ex_exception_resumer : World :=
  { handles := fun c => if c = 0 then { fctx_ := 7 } else {},
    fresh := 1,
    replies := [{ t := { fctx := 7, data := 100 },
                  hook := some (Hook.context_exit .record_void) }],
    records := fun a =>
      if a = 100 then some { salloc_ := 1, sctx_ := { size := 4096, sp := 1000 } } else none }

/-- A target (handle at address 0 holding the resumer 5) whose next switch is answered on top
with hook 3, which throws after moving its continuation into the exception. -/
def ex_thrown_moved : World :=
  { handles := fun c => if c = 0 then { fctx_ := 5 } else {},
    fresh := 1,
    replies := [{ t := { fctx := 5, data := 50 }, hook := some Hook.context_ontop_void,
                  frame := some (Frame.fn_args 3 []) }] }

/-- The same target when the hook is hook 4, which throws and leaves its continuation alone;
the forced unwind of the resumer is never answered. -/
def ex_thrown_kept : World :=
  { handles := fun c => if c = 0 then { fctx_ := 5 } else {},
    fresh := 1,
    replies := [{ t := { fctx := 5, data := 50 }, hook := some Hook.context_ontop_void,
                  frame := some (Frame.fn_args 4 []) }] }

end boost.context

/-! # Theorems -/

namespace boost.context

/-! ## Evaluation lemmas -/

@[simp] theorem pure_run {α : Type} (a : α) (w : World) : (pure a : M α) w = (.ret a, w) := rfl

@[simp] theorem bind_run {α β : Type} (m : M α) (f : α → M β) (w : World) :
    (m >>= f) w = M.bind m f w := rfl

theorem noexcept_world {α : Type} (m : M α) (w : World) :
    (noexcept_ m w).2 = (m w).2 := by
  unfold noexcept_
  split <;> simp_all

theorem record_destroy_eq (p : Nat) (w : World) :
    record.destroy p w =
      match w.records p with
      | some r => (.ret (), { w with
          trace := w.trace ++ [Event.record_dtor p, Event.deallocate r.salloc_ r.sctx_],
          records := Function.update w.records p none })
      | none => (.undefined, w) := by
  unfold record.destroy noexcept_
  simp only [bind_run, M.bind, record.read]
  cases h : w.records p <;> simp [record.dtor, StackAlloc.deallocate, emit]

theorem record_void_destroy_eq (p : Nat) (w : World) :
    record_void.destroy p w = record.destroy p w := rfl

theorem Rec_deallocate_eq (k : RecKind) (p : Nat) (w : World) :
    Rec.deallocate k p w = record.destroy p w := by
  cases k <;>
    simp only [Rec.deallocate, record.deallocate, record_void.deallocate, record_void_destroy_eq,
      record_destroy_eq, noexcept_] <;>
    cases h : w.records p <;> simp

theorem context_exit_eq (k : RecKind) (t : transfer_t) (w : World) :
    context_exit k t w =
      match w.records t.data with
      | some r => (.ret { fctx := nullptr, data := nullptr }, { w with
          trace := w.trace ++ [Event.record_dtor t.data, Event.deallocate r.salloc_ r.sctx_],
          records := Function.update w.records t.data none })
      | none => (.undefined, w) := by
  unfold context_exit noexcept_
  simp only [bind_run, M.bind, Rec_deallocate_eq, record_destroy_eq]
  cases h : w.records t.data <;> simp

theorem context_exit_handles (k : RecKind) (t : transfer_t) (w : World) :
    (context_exit k t w).2.handles = w.handles := by
  rw [context_exit_eq]
  cases h : w.records t.data <;> simp

theorem run_hook_handles (E : Env) (c : Loc) (hE : E.keeps c) (h : Hook) (t : transfer_t)
    (w : World) : (run_hook E h t w).2.handles c = w.handles c := by
  cases h with
  | context_unwind => simp [run_hook, context_unwind, throw_]
  | context_exit k => simp [run_hook, context_exit_handles]
  | context_ontop n => simpa [run_hook] using hE _ t w
  | context_ontop_void => simpa [run_hook] using hE _ t w

theorem arrive_handles (E : Env) (c : Loc) (hE : E.keeps c) (r : Reply) (w : World) :
    (arrive E r w).2.handles c = w.handles c := by
  unfold arrive
  cases hh : r.hook <;> cases hf : r.frame <;> simp [run_hook_handles E c hE]

theorem switch_handles (E : Env) (c : Loc) (hE : E.keeps c) (ev : Event) (w : World) :
    (switch_ E ev w).2.handles c = w.handles c := by
  unfold switch_
  cases hr : w.replies <;> simp [arrive_handles E c hE]


theorem dtor_null (E : Env) (this : Loc) (w : World) (h : (w.handles this).fctx_ = nullptr) :
    continuation.dtor E this w = (.ret (), w) := by
  simp [continuation.dtor, noexcept_, M.bind, get_fctx, h]

theorem dtor_nonnull (E : Env) (this : Loc) (w : World) (h : (w.handles this).fctx_ ≠ nullptr) :
    continuation.dtor E this w =
      noexcept_ (do
        let _ ← ontop_fcontext E (w.handles this).fctx_ nullptr Hook.context_unwind
        pure ())
        { w with handles := Function.update w.handles this { fctx_ := nullptr } } := by
  have h' : ¬ nullptr = (w.handles this).fctx_ := fun e => h e.symm
  simp only [continuation.dtor, noexcept_, bind_run, M.bind, get_fctx, exchange, set_fctx, pure_run,
    ne_eq, h', not_false_eq_true, if_true, ite_true]
  
theorem bind_pure_world {α β : Type} (m : M α) (g : α → β) (w : World) :
    (M.bind m (fun a => pure (g a)) w).2 = (m w).2 := by
  unfold M.bind
  split <;> simp_all

theorem dtor_handles_ne (E : Env) (d c : Loc) (hc : c ≠ d) (hE : E.keeps c) (w : World) :
    (continuation.dtor E d w).2.handles c = w.handles c := by
  by_cases h : (w.handles d).fctx_ = nullptr
  · rw [dtor_null E d w h]
  · rw [dtor_nonnull E d w h, noexcept_world, bind_run, bind_pure_world, ontop_fcontext,
      switch_handles E c hE]
    simp [Function.update_noteq hc]

theorem dtor_handles_self (E : Env) (d : Loc) (hE : E.keeps d) (w : World) :
    (continuation.dtor E d w).2.handles d = { fctx_ := nullptr } := by
  by_cases h : (w.handles d).fctx_ = nullptr
  · rw [dtor_null E d w h]
    cases hd : w.handles d
    simp_all
  · rw [dtor_nonnull E d w h, noexcept_world, bind_run, bind_pure_world, ontop_fcontext,
      switch_handles E d hE]
    simp

theorem move_construct_eq (other : Loc) (w : World) :
    continuation.move_construct other w =
      (.ret w.fresh, { w with
        handles := Function.update
          (Function.update (Function.update w.handles w.fresh { fctx_ := nullptr }) w.fresh
            { fctx_ := (Function.update w.handles w.fresh { fctx_ := nullptr } other).fctx_ })
          other { fctx_ := nullptr },
        fresh := w.fresh + 1 }) := by
  simp [continuation.move_construct, continuation.move_ctor, new_continuation, get_fctx, set_fctx,
    M.bind]


@[simp] theorem continuation_eta (c : continuation) : ({ fctx_ := c.fctx_ } : continuation) = c := rfl

/-- The world `continuation::operator=` reaches before the temporary is destroyed. -/
theorem move_swap_world (this other : Loc) (w : World) (h1 : other ≠ w.fresh)
    (h2 : this ≠ w.fresh) (hne : this ≠ other) :
    ((M.bind (continuation.move_construct other) (fun tmp => continuation.swap this tmp)) w).2 =
      { w with
        handles := Function.update (Function.update (Function.update w.handles w.fresh
          (w.handles this)) other { fctx_ := nullptr }) this (w.handles other),
        fresh := w.fresh + 1 } := by
  simp only [move_construct_eq, continuation.swap, bind_run, M.bind, get_fctx, set_fctx, pure_run]
  congr 1
  funext x
  have h1' := h1.symm
  have h2' := h2.symm
  have hne' := hne.symm
  simp only [Function.update_apply]
  split_ifs <;> simp_all

/-- Shape of `continuation::operator=` for distinct objects. -/
theorem move_assign_eq (E : Env) (this other : Loc) (hne : this ≠ other) (w : World) :
    continuation.move_assign E this other w =
      noexcept_ (M.bind (continuation.dtor E w.fresh) (fun _ => pure this))
        ((M.bind (continuation.move_construct other)
            (fun tmp => continuation.swap this tmp)) w).2 := by
  simp only [continuation.move_assign, bind_run, move_construct_eq, M.bind, noexcept_, hne, ne_eq,
    not_false_eq_true, if_true, ite_true]
  simp only [continuation.swap, bind_run, M.bind, get_fctx, set_fctx, pure_run]

/-! ## C1 -/

/-- C1. Moving a handle `c1` holding `p` into another handle leaves `c1` null and the target
holding exactly `p`: for move construction (the new object is at `w.fresh`) and for move
assignment `c2 = std::move( c1)` to a different object `c2`, whatever `c2` held and however
the destruction of the temporary ends. When `c2` was null the assignment returns `c2` and
performs no effect. Afterwards no execution is referred to by both handles. The handles are
existing objects (`c1, c2 < w.fresh`) that user hooks do not write to. -/
theorem C1_move_transfers_ownership (E : Env) (w : World) (c1 c2 : Loc)
    (h1 : c1 < w.fresh) (h2 : c2 < w.fresh) (hne : c2 ≠ c1)
    (hE1 : E.keeps c1) (hE2 : E.keeps c2) :
    ((continuation.move_construct c1 w).1 = Outcome.ret w.fresh ∧
      ((continuation.move_construct c1 w).2.handles c1).fctx_ = nullptr ∧
      (continuation.move_construct c1 w).2.handles w.fresh = w.handles c1) ∧
    (((continuation.move_assign E c2 c1 w).2.handles c1).fctx_ = nullptr ∧
      (continuation.move_assign E c2 c1 w).2.handles c2 = w.handles c1 ∧
      ((w.handles c2).fctx_ = nullptr →
        (continuation.move_assign E c2 c1 w).1 = Outcome.ret c2 ∧
        (continuation.move_assign E c2 c1 w).2.trace = w.trace)) ∧
    (∀ e : fcontext_t, e ≠ nullptr →
      ¬ (((continuation.move_assign E c2 c1 w).2.handles c1).fctx_ = e ∧
          ((continuation.move_assign E c2 c1 w).2.handles c2).fctx_ = e)) := by
  have n1 : c1 ≠ w.fresh := Nat.ne_of_lt h1
  have n2 : c2 ≠ w.fresh := Nat.ne_of_lt h2
  have hA : ((continuation.move_assign E c2 c1 w).2.handles c1).fctx_ = nullptr := by
    rw [move_assign_eq E c2 c1 hne, noexcept_world, bind_pure_world,
      dtor_handles_ne E w.fresh c1 n1 hE1, move_swap_world c2 c1 w n1 n2 hne]
    simp [Function.update_noteq hne.symm]
  have hB : (continuation.move_assign E c2 c1 w).2.handles c2 = w.handles c1 := by
    rw [move_assign_eq E c2 c1 hne, noexcept_world, bind_pure_world,
      dtor_handles_ne E w.fresh c2 n2 hE2, move_swap_world c2 c1 w n1 n2 hne]
    simp
  refine ⟨⟨?_, ?_, ?_⟩, ⟨hA, hB, ?_⟩, ?_⟩
  · simp [move_construct_eq]
  · simp [move_construct_eq]
  · simp [move_construct_eq, Function.update_noteq n1, Function.update_noteq n1.symm]
  · intro hnull
    rw [move_assign_eq E c2 c1 hne, move_swap_world c2 c1 w n1 n2 hne]
    rw [show noexcept_ (M.bind (continuation.dtor E w.fresh) (fun _ => pure c2)) = 
      fun w' => noexcept_ (M.bind (continuation.dtor E w.fresh) (fun _ => pure c2)) w' from rfl]
    simp only [noexcept_, M.bind]
    rw [dtor_null]
    · simp
    · simp [Function.update_noteq n1.symm, Function.update_noteq n2.symm, hnull]
  · intro e he hh
    exact he (hh.1.symm.trans hA)

theorem Env_none_keeps (c : Loc) : Env.none.keeps c := fun _ _ _ => rfl

/-- Witness for C1: with handles 0 ↦ 5 and 1 ↦ 7, the assignment `c2 = std::move( c1)` with
`c1` at 0 and `c2` at 1 leaves 0 null and 1 holding 5. -/
theorem C1_witness :
    ((continuation.move_assign Env.none 1 0 ex_two_handles).2.handles 0).fctx_ = nullptr ∧
    (continuation.move_assign Env.none 1 0 ex_two_handles).2.handles 1 = { fctx_ := 5 } :=
  ⟨(C1_move_transfers_ownership Env.none ex_two_handles 0 1 (by decide) (by decide) (by decide)
      (Env_none_keeps 0) (Env_none_keeps 1)).2.1.1,
   (C1_move_transfers_ownership Env.none ex_two_handles 0 1 (by decide) (by decide) (by decide)
      (Env_none_keeps 0) (Env_none_keeps 1)).2.1.2.1⟩

/-! ## Switches and `result_type` -/

theorem Env_none_appends : Env.none.appends := fun _ _ w => ⟨[], by simp [Env.none]⟩

theorem run_hook_trace (E : Env) (hE : E.appends) (h : Hook) (t : transfer_t) (w : World) :
    ∃ evs, (run_hook E h t w).2.trace = w.trace ++ evs := by
  cases h with
  | context_unwind => exact ⟨[], by simp [run_hook, context_unwind, throw_]⟩
  | context_exit k =>
    simp only [run_hook, context_exit_eq]
    cases h : w.records t.data
    · exact ⟨[], by simp⟩
    · exact ⟨_, rfl⟩
  | context_ontop n => simpa [run_hook] using hE _ t w
  | context_ontop_void => simpa [run_hook] using hE _ t w

theorem arrive_trace (E : Env) (hE : E.appends) (r : Reply) (w : World) :
    ∃ evs, (arrive E r w).2.trace = w.trace ++ evs := by
  unfold arrive
  cases hh : r.hook <;> cases hf : r.frame
  · exact ⟨[], by simp⟩
  · exact ⟨[], by simp⟩
  · simpa using run_hook_trace E hE _ r.t w
  · simpa using run_hook_trace E hE _ r.t _

theorem switch_trace (E : Env) (hE : E.appends) (ev : Event) (w : World) :
    ∃ evs, (switch_ E ev w).2.trace = w.trace ++ ev :: evs := by
  unfold switch_
  cases hr : w.replies with
  | nil => exact ⟨[], by simp⟩
  | cons r rs =>
    obtain ⟨evs, h⟩ := arrive_trace E hE r
      { w with trace := w.trace ++ [ev], replies := rs }
    exact ⟨evs, by simp [h]⟩

theorem bind_world_of_pres {α β : Type} (m : M α) (g : α → M β)
    (hg : ∀ a w, (g a w).2 = w) (w : World) : (M.bind m g w).2 = (m w).2 := by
  unfold M.bind
  split <;> simp_all

theorem bind_ret_inv {α β : Type} (m : M α) (g : α → M β) (w : World) (b : β)
    (h : (M.bind m g w).1 = Outcome.ret b) :
    ∃ a w1, m w = (Outcome.ret a, w1) ∧ (g a w1).1 = Outcome.ret b := by
  unfold M.bind at h
  rcases hm : m w with ⟨o, w1⟩
  rw [hm] at h
  cases o with
  | ret a => exact ⟨a, w1, rfl, h⟩
  | raise e => simp at h
  | abort => simp at h
  | parked => simp at h
  | undefined => simp at h

@[simp] theorem BOOST_ASSERT_true (w : World) : BOOST_ASSERT true w = (.ret (), w) := rfl

@[simp] theorem BOOST_ASSERT_false (w : World) : BOOST_ASSERT false w = (.abort, w) := rfl

theorem result_type_void_get_eq (t : transfer_t) (w : World) :
    result_type_void.get t w =
      if t.data = nullptr then (.ret (Result.ctx { fctx_ := t.fctx }), w) else (.abort, w) := by
  by_cases h : t.data = nullptr
  · simp [result_type_void.get, M.bind, h]
  · have h' : ¬ nullptr = t.data := fun e => h e.symm
    simp [result_type_void.get, M.bind, h, h']

theorem result_type_primary_get_eq (Arg : List Ty) (t : transfer_t) (w : World) :
    result_type.get Arg t w =
      if t.data = nullptr then (.abort, w)
      else match w.frames t.data with
        | some (Frame.tuple vs) =>
          if vs.map Val.type = Arg then (.ret (Result.tuple { fctx_ := t.fctx } vs), w)
          else (.undefined, w)
        | _ => (.undefined, w) := by
  by_cases h : t.data = nullptr
  · simp [result_type.get, M.bind, h]
  · have h' : ¬ nullptr = t.data := fun e => h e.symm
    simp only [result_type.get, bind_run, M.bind, h, h', ne_eq, not_false_eq_true, decide_True,
      BOOST_ASSERT_true, if_false, read_tuple]
    cases hf : w.frames t.data with
    | none => rfl
    | some f =>
      cases f with
      | tuple vs => by_cases hv : vs.map Val.type = Arg <;> simp [hv]
      | braced vs => rfl
      | fn_args fn vs => rfl
      | fn_tuple fn vs => rfl

theorem result_type_get_eq (Ret : List Ty) (t : transfer_t) (w : World) :
    result_type_get Ret t w =
      if Ret = [Ty.void] then
        (if t.data = nullptr then (.ret (Result.ctx { fctx_ := t.fctx }), w) else (.abort, w))
      else if t.data = nullptr then (.abort, w)
      else match w.frames t.data with
        | some (Frame.tuple vs) =>
          if vs.map Val.type = Ret then (.ret (Result.tuple { fctx_ := t.fctx } vs), w)
          else (.undefined, w)
        | _ => (.undefined, w) := by
  by_cases hR : Ret = [Ty.void]
  · simp only [result_type_get, hR, if_true, result_type_void_get_eq]
  · simp only [result_type_get, hR, if_false, result_type_primary_get_eq]

theorem result_type_get_world (Ret : List Ty) (t : transfer_t) (w : World) :
    (result_type_get Ret t w).2 = w := by
  rw [result_type_get_eq]
  repeat' split
  all_goals rfl

theorem result_type_get_handle (Ret : List Ty) (t : transfer_t) (w : World) (r : Result)
    (h : (result_type_get Ret t w).1 = Outcome.ret r) : r.handle = { fctx_ := t.fctx } := by
  rw [result_type_get_eq] at h
  repeat' split at h
  all_goals first
    | (simp at h; subst h; rfl)
    | simp at h


/-- A local frame's scope around a computation keeps outcome, trace and handles. -/
theorem scoped_frame {α : Type} (m : M α) (a : Word) (w : World) :
    (M.bind (unwinding m (end_frame a)) (fun r => M.bind (end_frame a) (fun _ => pure r)) w).1
        = (m w).1 ∧
    (M.bind (unwinding m (end_frame a)) (fun r => M.bind (end_frame a) (fun _ => pure r)) w).2.trace
        = (m w).2.trace ∧
    (M.bind (unwinding m (end_frame a)) (fun r => M.bind (end_frame a) (fun _ => pure r)) w).2.handles
        = (m w).2.handles := by
  rcases hm : m w with ⟨o, w1⟩
  cases o <;> simp [M.bind, unwinding, hm, end_frame]

theorem callcc_resume_eq (E : Env) (Ret : List Ty) (c : Loc) (w : World)
    (hn : (w.handles c).fctx_ ≠ nullptr) :
    callcc_resume E Ret c w =
      M.bind (jump_fcontext E (w.handles c).fctx_ nullptr) (result_type_get Ret) (w.emptied c) := by
  have h' : ¬ nullptr = (w.handles c).fctx_ := fun e => hn e.symm
  simp [callcc_resume, continuation.operator_bool, M.bind, get_fctx, exchange, set_fctx, h',
    World.emptied]

theorem callcc_resume_arg_eq (E : Env) (Ret : List Ty) (c : Loc) (arg : List Val) (w : World)
    (hn : (w.handles c).fctx_ ≠ nullptr) :
    callcc_resume_arg E Ret c arg w =
      M.bind (unwinding
          (M.bind (jump_fcontext E (w.handles c).fctx_ (w.top + 1)) (result_type_get Ret))
          (end_frame (w.top + 1)))
        (fun r => M.bind (end_frame (w.top + 1)) (fun _ => pure r))
        ((w.with_frame (Frame.braced arg)).emptied c) := by
  have h' : ¬ nullptr = (w.handles c).fctx_ := fun e => hn e.symm
  simp [callcc_resume_arg, continuation.operator_bool, M.bind, get_fctx, exchange, set_fctx, h',
    World.emptied, World.with_frame, new_frame, unwinding]

theorem callcc_ontop_arg_eq (E : Env) (Ret : List Ty) (c : Loc) (fn : Nat) (arg : List Val)
    (w : World) (hn : (w.handles c).fctx_ ≠ nullptr) :
    callcc_ontop_arg E Ret c fn arg w =
      M.bind (unwinding
          (M.bind (ontop_fcontext E (w.handles c).fctx_ (w.top + 1)
            (Hook.context_ontop arg.length)) (result_type_get Ret))
          (end_frame (w.top + 1)))
        (fun r => M.bind (end_frame (w.top + 1)) (fun _ => pure r))
        ((w.with_frame (Frame.fn_args fn arg)).emptied c) := by
  have h' : ¬ nullptr = (w.handles c).fctx_ := fun e => hn e.symm
  simp [callcc_ontop_arg, continuation.operator_bool, M.bind, get_fctx, exchange, set_fctx, h',
    World.emptied, World.with_frame, new_frame, unwinding]

theorem callcc_ontop_eq (E : Env) (Ret : List Ty) (c : Loc) (fn : Nat)
    (w : World) (hn : (w.handles c).fctx_ ≠ nullptr) :
    callcc_ontop E Ret c fn w =
      M.bind (unwinding
          (M.bind (ontop_fcontext E (w.handles c).fctx_ (w.top + 1) Hook.context_ontop_void)
            (result_type_get Ret))
          (end_frame (w.top + 1)))
        (fun r => M.bind (end_frame (w.top + 1)) (fun _ => pure r))
        ((w.with_frame (Frame.fn_args fn [])).emptied c) := by
  have h' : ¬ nullptr = (w.handles c).fctx_ := fun e => hn e.symm
  simp [callcc_ontop, continuation.operator_bool, M.bind, get_fctx, exchange, set_fctx, h',
    World.emptied, World.with_frame, new_frame, unwinding]

/-- A switch followed by `result_type::get`: the switch is the first effect, handles that user
hooks leave alone are unchanged, and a returned result carries the pointer the switch yielded. -/
theorem switch_get_facts (E : Env) (hA : E.appends) (c : Loc) (hE : E.keeps c) (ev : Event)
    (Ret : List Ty) (w0 : World) :
    (∃ evs, (M.bind (switch_ E ev) (result_type_get Ret) w0).2.trace = w0.trace ++ ev :: evs) ∧
    (M.bind (switch_ E ev) (result_type_get Ret) w0).2.handles c = w0.handles c ∧
    (∀ r, (M.bind (switch_ E ev) (result_type_get Ret) w0).1 = Outcome.ret r →
      ∃ t w1, switch_ E ev w0 = (Outcome.ret t, w1) ∧ r.handle = { fctx_ := t.fctx }) := by
  have hw := bind_world_of_pres (switch_ E ev) (result_type_get Ret)
    (fun t w => result_type_get_world Ret t w) w0
  refine ⟨?_, ?_, ?_⟩
  · rw [hw]; exact switch_trace E hA ev w0
  · rw [hw]; exact switch_handles E c hE ev w0
  · intro r hr
    obtain ⟨t, w1, h1, h2⟩ := bind_ret_inv _ _ _ _ hr
    exact ⟨t, w1, h1, result_type_get_handle Ret t w1 r h2⟩

/-! ## C2 -/

/-- C2. For a handle `c` holding a non-null pointer `p`, each of the four resume overloads
(arguments, no argument, on-top with arguments, on-top without) performs as its first effect a
switch whose target is exactly `p` (a `jump` resp. an `ontop` with the matching trampoline),
leaves `c` null in every outcome, in particular when the call returns, and a returned result
carries the handle built from the pointer `t.fctx` that this switch yielded. User hooks are
assumed to add to the trace only and not to write to `c`. -/
theorem C2_resume_consumes_handle (E : Env) (hA : E.appends) (w : World) (c : Loc)
    (p : fcontext_t) (hp : (w.handles c).fctx_ = p) (hn : p ≠ nullptr) (hE : E.keeps c)
    (Ret : List Ty) (arg : List Val) (fn : Nat) :
    ((∃ evs, (callcc_resume_arg E Ret c arg w).2.trace
          = w.trace ++ Event.jump p (w.top + 1) :: evs) ∧
      (callcc_resume_arg E Ret c arg w).2.handles c = { fctx_ := nullptr } ∧
      (∀ r, (callcc_resume_arg E Ret c arg w).1 = Outcome.ret r →
        ∃ t w1, jump_fcontext E p (w.top + 1) ((w.with_frame (Frame.braced arg)).emptied c)
            = (Outcome.ret t, w1) ∧ r.handle = { fctx_ := t.fctx })) ∧
    ((∃ evs, (callcc_resume E Ret c w).2.trace = w.trace ++ Event.jump p nullptr :: evs) ∧
      (callcc_resume E Ret c w).2.handles c = { fctx_ := nullptr } ∧
      (∀ r, (callcc_resume E Ret c w).1 = Outcome.ret r →
        ∃ t w1, jump_fcontext E p nullptr (w.emptied c) = (Outcome.ret t, w1) ∧
          r.handle = { fctx_ := t.fctx })) ∧
    ((∃ evs, (callcc_ontop_arg E Ret c fn arg w).2.trace
          = w.trace ++ Event.ontop p (w.top + 1) (Hook.context_ontop arg.length) :: evs) ∧
      (callcc_ontop_arg E Ret c fn arg w).2.handles c = { fctx_ := nullptr } ∧
      (∀ r, (callcc_ontop_arg E Ret c fn arg w).1 = Outcome.ret r →
        ∃ t w1, ontop_fcontext E p (w.top + 1) (Hook.context_ontop arg.length)
              ((w.with_frame (Frame.fn_args fn arg)).emptied c) = (Outcome.ret t, w1) ∧
          r.handle = { fctx_ := t.fctx })) ∧
    ((∃ evs, (callcc_ontop E Ret c fn w).2.trace
          = w.trace ++ Event.ontop p (w.top + 1) Hook.context_ontop_void :: evs) ∧
      (callcc_ontop E Ret c fn w).2.handles c = { fctx_ := nullptr } ∧
      (∀ r, (callcc_ontop E Ret c fn w).1 = Outcome.ret r →
        ∃ t w1, ontop_fcontext E p (w.top + 1) Hook.context_ontop_void
              ((w.with_frame (Frame.fn_args fn [])).emptied c) = (Outcome.ret t, w1) ∧
          r.handle = { fctx_ := t.fctx })) := by
  subst hp
  refine ⟨?_, ?_, ?_, ?_⟩
  · rw [callcc_resume_arg_eq E Ret c arg w hn]
    obtain ⟨s1, s2, s3⟩ := scoped_frame
      (M.bind (jump_fcontext E (w.handles c).fctx_ (w.top + 1)) (result_type_get Ret))
      (w.top + 1) ((w.with_frame (Frame.braced arg)).emptied c)
    obtain ⟨f1, f2, f3⟩ := switch_get_facts E hA c hE
      (Event.jump (w.handles c).fctx_ (w.top + 1)) Ret
      ((w.with_frame (Frame.braced arg)).emptied c)
    rw [s1, s2, s3]
    exact ⟨by simpa [World.emptied, World.with_frame, new_frame] using f1,
      by simpa [World.emptied, World.with_frame, new_frame] using f2, f3⟩
  · rw [callcc_resume_eq E Ret c w hn]
    obtain ⟨f1, f2, f3⟩ := switch_get_facts E hA c hE
      (Event.jump (w.handles c).fctx_ nullptr) Ret (w.emptied c)
    exact ⟨by simpa [World.emptied] using f1, by simpa [World.emptied] using f2, f3⟩
  · rw [callcc_ontop_arg_eq E Ret c fn arg w hn]
    obtain ⟨s1, s2, s3⟩ := scoped_frame
      (M.bind (ontop_fcontext E (w.handles c).fctx_ (w.top + 1) (Hook.context_ontop arg.length))
        (result_type_get Ret))
      (w.top + 1) ((w.with_frame (Frame.fn_args fn arg)).emptied c)
    obtain ⟨f1, f2, f3⟩ := switch_get_facts E hA c hE
      (Event.ontop (w.handles c).fctx_ (w.top + 1) (Hook.context_ontop arg.length)) Ret
      ((w.with_frame (Frame.fn_args fn arg)).emptied c)
    rw [s1, s2, s3]
    exact ⟨by simpa [World.emptied, World.with_frame, new_frame] using f1,
      by simpa [World.emptied, World.with_frame, new_frame] using f2, f3⟩
  · rw [callcc_ontop_eq E Ret c fn w hn]
    obtain ⟨s1, s2, s3⟩ := scoped_frame
      (M.bind (ontop_fcontext E (w.handles c).fctx_ (w.top + 1) Hook.context_ontop_void)
        (result_type_get Ret))
      (w.top + 1) ((w.with_frame (Frame.fn_args fn [])).emptied c)
    obtain ⟨f1, f2, f3⟩ := switch_get_facts E hA c hE
      (Event.ontop (w.handles c).fctx_ (w.top + 1) Hook.context_ontop_void) Ret
      ((w.with_frame (Frame.fn_args fn [])).emptied c)
    rw [s1, s2, s3]
    exact ⟨by simpa [World.emptied, World.with_frame, new_frame] using f1,
      by simpa [World.emptied, World.with_frame, new_frame] using f2, f3⟩

/-- Witness for C2: the handle at 0 holds 5 and the switch is answered by a plain jump from
execution 9 with a null word; `callcc< void >( std::move( c))` switches to 5, leaves `c` null
and returns the handle holding 9. -/
theorem C2_witness :
    (5 : Nat) ≠ nullptr ∧
    (∃ evs, (callcc_resume Env.none [Ty.void] 0 ex_resumable).2.trace
        = ex_resumable.trace ++ Event.jump 5 nullptr :: evs) ∧
    (callcc_resume Env.none [Ty.void] 0 ex_resumable).2.handles 0 = { fctx_ := nullptr } ∧
    (callcc_resume Env.none [Ty.void] 0 ex_resumable).1
        = Outcome.ret (Result.ctx { fctx_ := 9 }) :=
  ⟨by decide,
   (C2_resume_consumes_handle Env.none Env_none_appends ex_resumable 0 5 rfl (by decide)
      (Env_none_keeps 0) [Ty.void] [] 0).2.1.1,
   (C2_resume_consumes_handle Env.none Env_none_appends ex_resumable 0 5 rfl (by decide)
      (Env_none_keeps 0) [Ty.void] [] 0).2.1.2.1,
   rfl⟩

theorem switch_nil (E : Env) (ev : Event) (w : World) (h : w.replies = []) :
    switch_ E ev w = (.parked, { w with trace := w.trace ++ [ev] }) := by
  simp [switch_, h]

theorem switch_cons (E : Env) (ev : Event) (w : World) (r : Reply) (rs : List Reply)
    (h : w.replies = r :: rs) :
    switch_ E ev w = arrive E r { w with trace := w.trace ++ [ev], replies := rs } := by
  simp [switch_, h]

theorem dtor_world (E : Env) (d : Loc) (w : World) (h : (w.handles d).fctx_ ≠ nullptr) :
    (continuation.dtor E d w).2 =
      (ontop_fcontext E (w.handles d).fctx_ nullptr Hook.context_unwind (w.emptied d)).2 := by
  rw [dtor_nonnull E d w h, noexcept_world, bind_run, bind_pure_world]
  rfl

/-! ## C3 -/

/-- C3. Dropping a handle triggers forced unwind iff it is non-null. For a null handle the
destructor returns with the world unchanged: no switch at all. For a handle holding a non-null
`p` the field is set to null and the world the destructor leaves is the world left by one
`ontop_fcontext( p, nullptr, context_unwind)`: that switch is its first effect, it is its only
effect when the switch is never answered, and the handle is null in every outcome. The hook
`context_unwind`, run at the target on the transfer `{dropper, word}`, throws `forced_unwind`
carrying `dropper`, the pointer of the execution that dropped the handle. -/
theorem C3_drop_forces_unwind (E : Env) (w : World) (c : Loc) :
    ((w.handles c).fctx_ = nullptr → continuation.dtor E c w = (Outcome.ret (), w)) ∧
    ((w.handles c).fctx_ ≠ nullptr →
      (continuation.dtor E c w).2 =
        (ontop_fcontext E (w.handles c).fctx_ nullptr Hook.context_unwind (w.emptied c)).2 ∧
      (E.appends → ∃ evs, (continuation.dtor E c w).2.trace =
        w.trace ++ Event.ontop (w.handles c).fctx_ nullptr Hook.context_unwind :: evs) ∧
      (E.keeps c → (continuation.dtor E c w).2.handles c = { fctx_ := nullptr }) ∧
      (w.replies = [] →
        (continuation.dtor E c w).1 = Outcome.parked ∧
        (continuation.dtor E c w).2.trace =
          w.trace ++ [Event.ontop (w.handles c).fctx_ nullptr Hook.context_unwind] ∧
        (continuation.dtor E c w).2.handles c = { fctx_ := nullptr })) ∧
    (∀ (dropper : fcontext_t) (word : Word) (w1 : World),
      context_unwind { fctx := dropper, data := word } w1
        = (Outcome.raise (Exn.forced_unwind dropper), w1)) ∧
    (∀ (dropper : fcontext_t) (ev : Event) (rs : List Reply) (w1 : World),
      w1.replies = { t := { fctx := dropper, data := nullptr },
                     hook := some Hook.context_unwind } :: rs →
      (switch_ E ev w1).1 = Outcome.raise (Exn.forced_unwind dropper)) := by
  refine ⟨dtor_null E c w, fun hn => ⟨dtor_world E c w hn, ?_, ?_, ?_⟩, fun _ _ _ => rfl, ?_⟩
  · intro hA
    rw [dtor_world E c w hn]
    exact switch_trace E hA _ (w.emptied c)
  · intro hE
    exact dtor_handles_self E c hE w
  · intro hr
    have hs := switch_nil E (Event.ontop (w.handles c).fctx_ nullptr Hook.context_unwind)
      (w.emptied c) hr
    refine ⟨?_, ?_, ?_⟩
    · rw [dtor_nonnull E c w hn]
      simp only [noexcept_, bind_run, M.bind, ontop_fcontext]
      rw [show ({ w with handles := Function.update w.handles c { fctx_ := nullptr } } : World)
        = w.emptied c from rfl, hs]
    · rw [dtor_world E c w hn, ontop_fcontext, hs]
      rfl
    · rw [dtor_world E c w hn, ontop_fcontext, hs]
      simp [World.emptied]
  · intro dropper ev rs w1 hr
    rw [switch_cons E ev w1 _ rs hr]
    rfl

/-- Witness for C3: the handle at 1 holds 7 and nothing answers; dropping it performs exactly
the switch `ontop_fcontext( 7, nullptr, context_unwind)` and leaves the field null, while
dropping the null handle at 2 does nothing. -/
theorem C3_witness :
    (continuation.dtor Env.none 1 ex_two_handles).2.trace
        = [Event.ontop 7 nullptr Hook.context_unwind] ∧
    (continuation.dtor Env.none 1 ex_two_handles).2.handles 1 = { fctx_ := nullptr } ∧
    (continuation.dtor Env.none 2 ex_two_handles).2.trace = [] :=
  ⟨((C3_drop_forces_unwind Env.none ex_two_handles 1).2.1 (by decide)).2.2.2 rfl |>.2.1,
   ((C3_drop_forces_unwind Env.none ex_two_handles 1).2.1 (by decide)).2.2.2 rfl |>.2.2,
   by rw [(C3_drop_forces_unwind Env.none ex_two_handles 2).1 rfl]; rfl⟩

/-! ## C4 -/

/-- C4, counterexample to the claim as stated. The user function of `ex_rec` returns what its
own `callcc` returned; that handle is null because the execution it resumed terminated. So
`run` returns normally with the transfer `{nullptr, nullptr}`, the assertion
`nullptr != t.fctx` of `context_entry` fails, and the trampoline ends without any on-top
switch with the hook `context_exit` for its record at address 100. -/
theorem C4_counterexample :
    (M.bind (jump_fcontext Env.none 5 nullptr) ex_rec.run ex_entry).1
        = Outcome.ret { fctx := nullptr, data := nullptr } ∧
    (context_entry Env.none ex_rec { fctx := 5, data := 100 } ex_entry).1 = Outcome.abort ∧
    (context_entry Env.none ex_rec { fctx := 5, data := 100 } ex_entry).2.trace
        = [Event.jump 5 nullptr, Event.jump 5 nullptr, Event.record_dtor 200,
           Event.deallocate 1 { size := 4096, sp := 5000 }] := by
  refine ⟨?_, ?_, ?_⟩ <;> rfl

/-- The last two statements of `context_entry`: the terminating switch and the assertion
that control never comes back. -/
theorem context_entry_tail (E : Env) (R : Rec) (t_ : transfer_t) (w w1 : World)
    (q : fcontext_t) (hrec : t_.data ≠ nullptr) (hq : q ≠ nullptr)
    (hbody : M.bind (jump_fcontext E t_.fctx nullptr) R.run w
        = (Outcome.raise (Exn.forced_unwind q), w1) ∨
      ∃ t, M.bind (jump_fcontext E t_.fctx nullptr) R.run w = (Outcome.ret t, w1) ∧ t.fctx = q) :
    context_entry E R t_ w =
      noexcept_ (M.bind (ontop_fcontext E q t_.data (Hook.context_exit R.kind))
        (fun _ => BOOST_ASSERT false)) w1 := by
  have h1 : ¬ nullptr = t_.data := fun e => hrec e.symm
  have h2 : ¬ nullptr = q := fun e => hq e.symm
  rcases hbody with hb | ⟨t, hb, ht⟩
  · have hb' : (jump_fcontext E t_.fctx nullptr >>= fun t => R.run t) w
        = (Outcome.raise (Exn.forced_unwind q), w1) := hb
    simp only [context_entry, noexcept_, bind_run, M.bind, h1, ne_eq, not_false_eq_true,
      decide_True, BOOST_ASSERT_true, try_catch_forced_unwind, pure_run]
    simp only [bind_run, M.bind] at hb'
    simp [hb', h2]
  · subst ht
    have hb' : (jump_fcontext E t_.fctx nullptr >>= fun t => R.run t) w
        = (Outcome.ret t, w1) := hb
    have h2' : ¬ nullptr = t.fctx := h2
    simp only [context_entry, noexcept_, bind_run, M.bind, h1, ne_eq, not_false_eq_true,
      decide_True, BOOST_ASSERT_true, try_catch_forced_unwind, pure_run]
    simp only [bind_run, M.bind] at hb'
    simp [hb', h2']

/-- When nothing answers the terminating switch of `context_entry`, it is the only effect
added after the body. -/
theorem context_entry_parked (E : Env) (R : Rec) (t_ : transfer_t) (w w1 : World) (q : fcontext_t)
    (hrec : t_.data ≠ nullptr) (hq : q ≠ nullptr)
    (hbody : M.bind (jump_fcontext E t_.fctx nullptr) R.run w
        = (Outcome.raise (Exn.forced_unwind q), w1) ∨
      ∃ t, M.bind (jump_fcontext E t_.fctx nullptr) R.run w = (Outcome.ret t, w1) ∧ t.fctx = q) :
    w1.replies = [] →
      (context_entry E R t_ w).1 = Outcome.parked ∧
      (context_entry E R t_ w).2.trace
        = w1.trace ++ [Event.ontop q t_.data (Hook.context_exit R.kind)] ∧
      (context_entry E R t_ w).2.records = w1.records := by
  intro hr
  rw [context_entry_tail E R t_ w w1 q hrec hq hbody]
  have hs := switch_nil E (Event.ontop q t_.data (Hook.context_exit R.kind)) w1 hr
  have hw : (noexcept_ (M.bind (ontop_fcontext E q t_.data (Hook.context_exit R.kind))
        (fun _ => BOOST_ASSERT false)) w1).2
      = (ontop_fcontext E q t_.data (Hook.context_exit R.kind) w1).2 := by
    rw [noexcept_world]
    exact bind_world_of_pres _ _ (fun _ _ => rfl) w1
  refine ⟨?_, ?_, ?_⟩
  · simp only [noexcept_, M.bind, ontop_fcontext, hs]
  · rw [hw, ontop_fcontext, hs]
  · rw [hw, ontop_fcontext, hs]

/-- C4, amended. `context_entry` never lets an exception escape and never returns. When its
body (the jump back to the spawner followed by `run`) raises `forced_unwind` carrying a
non-null pointer `q`, or `run` returns a transfer with non-null `fctx = q`, the world
`context_entry` leaves is the world left by the one switch
`ontop_fcontext( q, rec, context_exit< Rec >)` made right after the body: that switch is the
first effect after the body and, when it is never answered, the only one; the record is still
alive on the dying stack, its destruction being left to the hook at the target. -/
theorem C4_trampoline_terminates_by_ontop (E : Env) (R : Rec) (t_ : transfer_t)
    (w w1 : World) (q : fcontext_t) (hrec : t_.data ≠ nullptr) (hq : q ≠ nullptr)
    (hbody : M.bind (jump_fcontext E t_.fctx nullptr) R.run w
        = (Outcome.raise (Exn.forced_unwind q), w1) ∨
      ∃ t, M.bind (jump_fcontext E t_.fctx nullptr) R.run w = (Outcome.ret t, w1) ∧ t.fctx = q) :
    (context_entry E R t_ w).2
        = (ontop_fcontext E q t_.data (Hook.context_exit R.kind) w1).2 ∧
    (E.appends → ∃ evs, (context_entry E R t_ w).2.trace
        = w1.trace ++ Event.ontop q t_.data (Hook.context_exit R.kind) :: evs) ∧
    (∀ e, (context_entry E R t_ w).1 ≠ Outcome.raise e) ∧
    (∀ u, (context_entry E R t_ w).1 ≠ Outcome.ret u) ∧
    (w1.replies = [] →
      (context_entry E R t_ w).1 = Outcome.parked ∧
      (context_entry E R t_ w).2.trace
        = w1.trace ++ [Event.ontop q t_.data (Hook.context_exit R.kind)] ∧
      (context_entry E R t_ w).2.records = w1.records) := by
  rw [context_entry_tail E R t_ w w1 q hrec hq hbody]
  have hw : (noexcept_ (M.bind (ontop_fcontext E q t_.data (Hook.context_exit R.kind))
        (fun _ => BOOST_ASSERT false)) w1).2
      = (ontop_fcontext E q t_.data (Hook.context_exit R.kind) w1).2 := by
    rw [noexcept_world]
    exact bind_world_of_pres _ _ (fun _ _ => rfl) w1
  refine ⟨hw, ?_, ?_, ?_, ?_⟩
  · intro hA
    rw [hw]
    exact switch_trace E hA _ w1
  · intro e
    unfold noexcept_
    split
    · simp
    · rename_i r hr
      intro h
      exact hr e _ (Prod.ext h rfl)
  · intro u
    simp only [noexcept_, M.bind]
    rcases hs : ontop_fcontext E q t_.data (Hook.context_exit R.kind) w1 with ⟨o, w2⟩
    cases o <;> simp
  · intro hr
    have hs := switch_nil E (Event.ontop q t_.data (Hook.context_exit R.kind)) w1 hr
    refine ⟨?_, ?_, ?_⟩
    · simp only [noexcept_, M.bind, ontop_fcontext, hs]
    · rw [hw, ontop_fcontext, hs]
    · rw [hw, ontop_fcontext, hs]


/-- Witness for C4: the spawner drops the handle at once, the jump back raises
`forced_unwind( 5)`, and the trampoline answers with `ontop_fcontext( 5, 100, context_exit)`. -/
theorem C4_witness :
    (context_entry Env.none ex_rec { fctx := 5, data := 100 } ex_unwound).1 = Outcome.parked ∧
    (context_entry Env.none ex_rec { fctx := 5, data := 100 } ex_unwound).2.trace
        = [Event.jump 5 nullptr, Event.ontop 5 100 (Hook.context_exit RecKind.record_void)] :=
  ⟨((C4_trampoline_terminates_by_ontop Env.none ex_rec { fctx := 5, data := 100 } ex_unwound
      ex_unwound_caught 5 (by decide) (by decide) (Or.inl rfl)).2.2.2.2 rfl).1,
   ((C4_trampoline_terminates_by_ontop Env.none ex_rec { fctx := 5, data := 100 } ex_unwound
      ex_unwound_caught 5 (by decide) (by decide) (Or.inl rfl)).2.2.2.2 rfl).2.1⟩

/-! ## C5 -/

theorem record_ctor_eq (p : Nat) (sctx : stack_context) (salloc : Nat) (w : World) :
    record.ctor p sctx salloc w =
      (.ret (), { w with
        records := Function.update w.records p (some { salloc_ := salloc, sctx_ := sctx }) }) :=
  rfl

/-- C5. Let a record be constructed at address `p` with descriptor `sctx` and allocator
`salloc`. Then `record::destroy` (and equally `record_void::destroy`) returns after exactly two
effects, in this order: the record's destructor, then `salloc.deallocate( sctx)` with the
allocator and the descriptor the record was constructed with, which were copied out while the
record was alive (reading them after the destructor is undefined). `context_exit` applied to a
transfer whose word is `p` performs exactly this, once, and the record is gone afterwards, so
that the stack is deallocated once. -/
theorem C5_destroy_order_and_once (w : World) (p : Nat) (sctx : stack_context) (salloc : Nat)
    (k : RecKind) (prev : fcontext_t) :
    record.destroy p (record.ctor p sctx salloc w).2
      = (Outcome.ret (), { w with
          trace := w.trace ++ [Event.record_dtor p, Event.deallocate salloc sctx],
          records := Function.update w.records p none }) ∧
    record_void.destroy p (record.ctor p sctx salloc w).2
      = (Outcome.ret (), { w with
          trace := w.trace ++ [Event.record_dtor p, Event.deallocate salloc sctx],
          records := Function.update w.records p none }) ∧
    (context_exit k { fctx := prev, data := p } (record.ctor p sctx salloc w).2).2.trace
      = w.trace ++ [Event.record_dtor p, Event.deallocate salloc sctx] ∧
    (context_exit k { fctx := prev, data := p } (record.ctor p sctx salloc w).2).2.records p
      = none ∧
    ((context_exit k { fctx := prev, data := p } (record.ctor p sctx salloc w).2).2.trace.drop
        w.trace.length).count (Event.deallocate salloc sctx) = 1 ∧
    (M.bind (record.dtor p) (fun _ => record.read p) (record.ctor p sctx salloc w).2).1
      = Outcome.undefined ∧
    (record.destroy p (record.destroy p (record.ctor p sctx salloc w).2).2).1
      = Outcome.undefined := by
  have hd : record.destroy p (record.ctor p sctx salloc w).2
      = (Outcome.ret (), { w with
          trace := w.trace ++ [Event.record_dtor p, Event.deallocate salloc sctx],
          records := Function.update w.records p none }) := by
    rw [record_destroy_eq, record_ctor_eq]
    simp
  have hx : context_exit k { fctx := prev, data := p } (record.ctor p sctx salloc w).2
      = (Outcome.ret { fctx := nullptr, data := nullptr }, { w with
          trace := w.trace ++ [Event.record_dtor p, Event.deallocate salloc sctx],
          records := Function.update w.records p none }) := by
    rw [context_exit_eq, record_ctor_eq]
    simp
  refine ⟨hd, ?_, ?_, ?_, ?_, ?_, ?_⟩
  · rw [record_void_destroy_eq, hd]
  · rw [hx]
  · rw [hx]; simp
  · rw [hx]; simp
  · simp [M.bind, record.dtor, record.read, record_ctor_eq]
  · rw [hd, record_destroy_eq]; simp


/-! ## `run` -/

theorem unwinding_of_ret {α : Type} (m : M α) (cl : M Unit) (w w1 : World) (a : α)
    (h : m w = (Outcome.ret a, w1)) : unwinding m cl w = (Outcome.ret a, w1) := by
  simp [unwinding, h]

/-- After the user function returned `cc`, `record_void::run` empties the local `cc`,
destroys `from` and returns `{cc.fctx_, nullptr}`. -/
theorem record_void_run_eq (E : Env) (fn : Loc → M continuation) (t : transfer_t)
    (w w2 : World) (cc : continuation)
    (hfn : fn w.fresh (new_continuation t.fctx w).2 = (Outcome.ret cc, w2)) :
    record_void.run E fn t w =
      M.bind (continuation.dtor E w.fresh)
        (fun _ => pure { fctx := cc.fctx_, data := nullptr }) w2.with_emptied_local := by
  have hc : continuation.dtor E w2.fresh w2.with_emptied_local
      = (Outcome.ret (), w2.with_emptied_local) :=
    dtor_null E _ _ (by simp [World.with_emptied_local])
  have hu := unwinding_of_ret (fn w.fresh) (continuation.dtor E w.fresh) _ _ _ hfn
  simp only [record_void.run, bind_run, M.bind, new_continuation] at hu ⊢
  simp only [hu, exchange, bind_run, M.bind, get_fctx, set_fctx, pure_run, new_continuation,
    Function.update_same, Function.update_idem]
  rw [show ({ w2 with
        handles := Function.update w2.handles w2.fresh { fctx_ := nullptr },
        fresh := w2.fresh + 1 } : World) = w2.with_emptied_local from rfl, hc]

theorem record_run_eq (E : Env) (fn : Loc → List Val → M continuation) (t : transfer_t)
    (w w2 : World) (vs : List Val) (cc : continuation)
    (hargs : w.frames t.data = some (Frame.tuple vs))
    (hfn : fn w.fresh vs (new_continuation t.fctx w).2 = (Outcome.ret cc, w2)) :
    record.run E fn (vs.map Val.type) t w =
      M.bind (continuation.dtor E w.fresh)
        (fun _ => pure { fctx := cc.fctx_, data := nullptr }) w2.with_emptied_local := by
  have hc : continuation.dtor E w2.fresh w2.with_emptied_local
      = (Outcome.ret (), w2.with_emptied_local) :=
    dtor_null E _ _ (by simp [World.with_emptied_local])
  have hu := unwinding_of_ret (fn w.fresh vs) (continuation.dtor E w.fresh) _ _ _ hfn
  simp only [record.run, bind_run, M.bind, new_continuation, read_tuple, hargs] at hu ⊢
  simp only [if_true, hu, exchange, bind_run, M.bind, get_fctx, set_fctx, pure_run,
    new_continuation, Function.update_same, Function.update_idem]
  rw [show ({ w2 with
        handles := Function.update w2.handles w2.fresh { fctx_ := nullptr },
        fresh := w2.fresh + 1 } : World) = w2.with_emptied_local from rfl, hc]

/-! ## C6 -/

/-- The answer a terminating execution gives: its `context_exit` runs on the stack of the
execution switched to, destroys the record and delivers `{nullptr, nullptr}`. -/
theorem switch_answered_by_exit (E : Env) (ev : Event) (w : World) (dying : fcontext_t)
    (rec_ : Nat) (r : record) (k : RecKind) (rs : List Reply)
    (hrec : w.records rec_ = some r)
    (hr : w.replies = { t := { fctx := dying, data := rec_ },
                        hook := some (Hook.context_exit k) } :: rs) :
    switch_ E ev w = (Outcome.ret { fctx := nullptr, data := nullptr },
      { w with
        trace := w.trace ++ [ev, Event.record_dtor rec_, Event.deallocate r.salloc_ r.sctx_],
        replies := rs,
        records := Function.update w.records rec_ none }) := by
  rw [switch_cons E ev w _ rs hr]
  simp [arrive, run_hook, context_exit_eq, hrec]

/-- A body that ends with `run` returning `{q, nullptr}` is followed by exactly the terminating
switch to `q`. -/
theorem entry_after_run (E : Env) (R : Rec) (t_ : transfer_t) (w0 w w3 : World)
    (t : transfer_t) (q : fcontext_t)
    (hj : jump_fcontext E t_.fctx nullptr w0 = (Outcome.ret t, w))
    (hrun : R.run t w = (Outcome.ret { fctx := q, data := nullptr }, w3))
    (hrec : t_.data ≠ nullptr) (hq : q ≠ nullptr) (hr : w3.replies = []) :
    (context_entry E R t_ w0).2.trace
      = w3.trace ++ [Event.ontop q t_.data (Hook.context_exit R.kind)] := by
  have hb : M.bind (jump_fcontext E t_.fctx nullptr) R.run w0
      = (Outcome.ret { fctx := q, data := nullptr }, w3) := by
    simp only [M.bind, hj]
    exact hrun
  exact (context_entry_parked E R t_ w0 w3 q hrec hq (Or.inr ⟨_, hb, rfl⟩) hr).2.1

/-- A resume without arguments answered by the termination of the target. -/
theorem callcc_resume_answered_by_exit (E : Env) (w : World) (c : Loc) (dying : fcontext_t)
    (rec_ : Nat) (r : record) (k : RecKind) (rs : List Reply)
    (hn : (w.handles c).fctx_ ≠ nullptr) (hrec : w.records rec_ = some r)
    (hr : w.replies = { t := { fctx := dying, data := rec_ },
                        hook := some (Hook.context_exit k) } :: rs) :
    callcc_resume E [Ty.void] c w = (Outcome.ret (Result.ctx { fctx_ := nullptr }),
      { w with
        trace := w.trace ++ [Event.jump (w.handles c).fctx_ nullptr, Event.record_dtor rec_,
          Event.deallocate r.salloc_ r.sctx_],
        replies := rs,
        handles := Function.update w.handles c { fctx_ := nullptr },
        records := Function.update w.records rec_ none }) := by
  have h1 := switch_answered_by_exit E (Event.jump (w.handles c).fctx_ nullptr) (w.emptied c)
    dying rec_ r k rs hrec hr
  rw [callcc_resume_eq E _ c w hn]
  simp only [M.bind, jump_fcontext, h1]
  simp [result_type_get_eq, World.emptied]

/-- A resume with arguments answered by the termination of the target. -/
theorem callcc_resume_arg_answered_by_exit (E : Env) (w : World) (c : Loc) (arg : List Val)
    (dying : fcontext_t) (rec_ : Nat) (r : record) (k : RecKind) (rs : List Reply)
    (hn : (w.handles c).fctx_ ≠ nullptr) (hrec : w.records rec_ = some r)
    (hr : w.replies = { t := { fctx := dying, data := rec_ },
                        hook := some (Hook.context_exit k) } :: rs) :
    callcc_resume_arg E [Ty.void] c arg w = (Outcome.ret (Result.ctx { fctx_ := nullptr }),
      { w with
        trace := w.trace ++ [Event.jump (w.handles c).fctx_ (w.top + 1), Event.record_dtor rec_,
          Event.deallocate r.salloc_ r.sctx_],
        replies := rs,
        handles := Function.update w.handles c { fctx_ := nullptr },
        frames := Function.update w.frames (w.top + 1) none,
        top := w.top + 1,
        records := Function.update w.records rec_ none }) := by
  have h2 := switch_answered_by_exit E (Event.jump (w.handles c).fctx_ (w.top + 1))
    ((w.with_frame (Frame.braced arg)).emptied c) dying rec_ r k rs hrec hr
  rw [callcc_resume_arg_eq E _ c arg w hn]
  simp only [M.bind, unwinding, jump_fcontext, h2]
  simp [result_type_get_eq, World.emptied, World.with_frame, new_frame, end_frame]

/-- What `result_type< continuation, Ret ... >::get` makes of the null transfer: the null
handle for `Ret ... = void`; for every other list, the empty one included, the primary
template fails its assertion `nullptr != t.data`. -/
theorem result_type_get_null (Ret : List Ty) (w : World) :
    result_type_get Ret { fctx := nullptr, data := nullptr } w =
      ((if Ret = [Ty.void] then Outcome.ret (Result.ctx { fctx_ := nullptr })
        else Outcome.abort), w) := by
  rw [result_type_get_eq]
  by_cases hR : Ret = [Ty.void] <;> simp [hR]

/-- A resume without arguments, for any `Ret ...`, answered by the termination of the
target. -/
theorem callcc_resume_exit (E : Env) (Ret : List Ty) (w : World) (c : Loc) (dying : fcontext_t)
    (rec_ : Nat) (r : record) (k : RecKind) (rs : List Reply)
    (hn : (w.handles c).fctx_ ≠ nullptr) (hrec : w.records rec_ = some r)
    (hr : w.replies = { t := { fctx := dying, data := rec_ },
                        hook := some (Hook.context_exit k) } :: rs) :
    callcc_resume E Ret c w =
      ((if Ret = [Ty.void] then Outcome.ret (Result.ctx { fctx_ := nullptr })
        else Outcome.abort),
      { w with
        trace := w.trace ++ [Event.jump (w.handles c).fctx_ nullptr, Event.record_dtor rec_,
          Event.deallocate r.salloc_ r.sctx_],
        replies := rs,
        handles := Function.update w.handles c { fctx_ := nullptr },
        records := Function.update w.records rec_ none }) := by
  have h1 := switch_answered_by_exit E (Event.jump (w.handles c).fctx_ nullptr) (w.emptied c)
    dying rec_ r k rs hrec hr
  rw [callcc_resume_eq E _ c w hn]
  simp only [M.bind, jump_fcontext, h1, result_type_get_null]
  simp [World.emptied]

/-- A resume with arguments, for any `Ret ...`, answered by the termination of the target. -/
theorem callcc_resume_arg_exit (E : Env) (Ret : List Ty) (w : World) (c : Loc) (arg : List Val)
    (dying : fcontext_t) (rec_ : Nat) (r : record) (k : RecKind) (rs : List Reply)
    (hn : (w.handles c).fctx_ ≠ nullptr) (hrec : w.records rec_ = some r)
    (hr : w.replies = { t := { fctx := dying, data := rec_ },
                        hook := some (Hook.context_exit k) } :: rs) :
    (callcc_resume_arg E Ret c arg w).1 =
      (if Ret = [Ty.void] then Outcome.ret (Result.ctx { fctx_ := nullptr })
        else Outcome.abort) ∧
    (callcc_resume_arg E Ret c arg w).2.trace = w.trace ++
      [Event.jump (w.handles c).fctx_ (w.top + 1), Event.record_dtor rec_,
       Event.deallocate r.salloc_ r.sctx_] ∧
    (callcc_resume_arg E Ret c arg w).2.handles
      = Function.update w.handles c { fctx_ := nullptr } ∧
    (callcc_resume_arg E Ret c arg w).2.allocations = w.allocations := by
  have h2 := switch_answered_by_exit E (Event.jump (w.handles c).fctx_ (w.top + 1))
    ((w.with_frame (Frame.braced arg)).emptied c) dying rec_ r k rs hrec hr
  rw [callcc_resume_arg_eq E _ c arg w hn]
  simp only [M.bind, unwinding, jump_fcontext, h2, result_type_get_null]
  by_cases hR : Ret = [Ty.void] <;>
    simp [hR, World.emptied, World.with_frame, new_frame, end_frame]

/-- The spawning overloads, for any `Ret ...`, when `context_create` returned `fctx` and the
first resume of the new execution is answered by its termination. -/
theorem callcc_spawn_exit (E : Env) (Ret : List Ty) (create : M fcontext_t) (arg : List Val)
    (w0 ws : World) (fctx dying : fcontext_t) (rec_ : Nat) (r : record) (k : RecKind)
    (rs : List Reply)
    (hc : create w0 = (Outcome.ret fctx, ws)) (hf : fctx ≠ nullptr)
    (hrec : ws.records rec_ = some r)
    (hr : ws.replies = { t := { fctx := dying, data := rec_ },
                         hook := some (Hook.context_exit k) } :: rs) :
    ((callcc_spawn E Ret create w0).1 =
        (if Ret = [Ty.void] then Outcome.ret (Result.ctx { fctx_ := nullptr })
          else Outcome.abort) ∧
      (callcc_spawn E Ret create w0).2.trace = ws.trace ++
        [Event.jump fctx nullptr, Event.record_dtor rec_, Event.deallocate r.salloc_ r.sctx_] ∧
      (callcc_spawn E Ret create w0).2.allocations = ws.allocations) ∧
    ((callcc_spawn_arg E Ret create arg w0).1 =
        (if Ret = [Ty.void] then Outcome.ret (Result.ctx { fctx_ := nullptr })
          else Outcome.abort) ∧
      (callcc_spawn_arg E Ret create arg w0).2.trace = ws.trace ++
        [Event.jump fctx (ws.top + 1), Event.record_dtor rec_,
         Event.deallocate r.salloc_ r.sctx_] ∧
      (callcc_spawn_arg E Ret create arg w0).2.allocations = ws.allocations) := by
  have hn : ((new_continuation fctx ws).2.handles ws.fresh).fctx_ ≠ nullptr := by
    simpa [new_continuation] using hf
  have d1 := callcc_resume_exit E Ret (new_continuation fctx ws).2 ws.fresh dying
    rec_ r k rs hn hrec hr
  obtain ⟨a1, a2, a3, a4⟩ := callcc_resume_arg_exit E Ret (new_continuation fctx ws).2 ws.fresh
    arg dying rec_ r k rs hn hrec hr
  constructor
  · simp only [callcc_spawn, bind_run, M.bind, hc, new_continuation, pure_run] at d1 ⊢
    simp only [unwinding, d1]
    by_cases hR : Ret = [Ty.void]
    · simp only [hR, if_true]
      rw [dtor_null E ws.fresh _ (by simp)]
      simp
    · simp [hR]
  · rcases hm : callcc_resume_arg E Ret ws.fresh arg (new_continuation fctx ws).2 with ⟨o, w3⟩
    rw [hm] at a1 a2 a3 a4
    simp only at a1 a2 a3 a4
    have hnull : (w3.handles ws.fresh).fctx_ = nullptr := by
      rw [a3]
      simp
    simp only [callcc_spawn_arg, bind_run, M.bind, hc, new_continuation, pure_run] at hm ⊢
    simp only [unwinding, hm]
    by_cases hR : Ret = [Ty.void]
    · simp only [hR, if_true] at a1
      subst a1
      simp only [hR, if_true]
      rw [dtor_null E ws.fresh w3 hnull]
      refine ⟨?_, ?_, ?_⟩
      · simp
      · simpa [new_continuation] using a2
      · simpa [new_continuation] using a4
    · simp only [hR, if_false] at a1
      subst a1
      simp only [hR, if_false]
      refine ⟨?_, ?_, ?_⟩
      · simp
      · simpa [new_continuation] using a2
      · simpa [new_continuation] using a4

/-- C6. When an execution terminates, the execution switched to receives a null continuation
and a null payload. Receiving side: the pending switch of a resumer (handle `c` holding the
non-null `p`) is answered by the terminating execution, i.e. by an on-top switch with hook
`context_exit` and that execution's record as word; `context_exit` destroys the record and
returns `{nullptr, nullptr}`, so the switch yields the null transfer and
`callcc< void >( std::move( c) [, args])` returns a null handle; so does the spawning
`callcc< void >` on the temporary handle it builds from `context_create`, and the destructor
that forced the unwind returns. Terminating side: a
user function that returns the continuation it received (and so has emptied it) makes its
trampoline end with exactly that on-top switch to the execution it received, the resumer.
The divergence: for every other list `Ret ...`, the default empty one included, the same
switch yields the same null transfer after the same destruction of the record, but the
resumer's and the spawner's `callcc< Ret ... >` do not return a null handle: the primary
template of `result_type` fails its assertion `nullptr != t.data`. -/
theorem C6_termination_delivers_null (E : Env) (w : World) (c : Loc) (p dying : fcontext_t)
    (rec_ : Nat) (r : record) (k : RecKind) (rs : List Reply) (arg : List Val) (Ret : List Ty)
    (hp : (w.handles c).fctx_ = p) (hn : p ≠ nullptr)
    (hrec : w.records rec_ = some r)
    (hr : w.replies = { t := { fctx := dying, data := rec_ },
                        hook := some (Hook.context_exit k) } :: rs) :
    (context_exit k { fctx := dying, data := rec_ } w).1
        = Outcome.ret { fctx := nullptr, data := nullptr } ∧
    (context_exit k { fctx := dying, data := rec_ } w).2.trace
        = w.trace ++ [Event.record_dtor rec_, Event.deallocate r.salloc_ r.sctx_] ∧
    (jump_fcontext E p nullptr (w.emptied c)).1
        = Outcome.ret { fctx := nullptr, data := nullptr } ∧
    (callcc_resume E [Ty.void] c w).1 = Outcome.ret (Result.ctx { fctx_ := nullptr }) ∧
    (callcc_resume E [Ty.void] c w).2.trace = w.trace ++
        [Event.jump p nullptr, Event.record_dtor rec_, Event.deallocate r.salloc_ r.sctx_] ∧
    (callcc_resume_arg E [Ty.void] c arg w).1 = Outcome.ret (Result.ctx { fctx_ := nullptr }) ∧
    (callcc_resume_arg E [Ty.void] c arg w).2.trace = w.trace ++
        [Event.jump p (w.top + 1), Event.record_dtor rec_,
         Event.deallocate r.salloc_ r.sctx_] ∧
    (continuation.dtor E c w).1 = Outcome.ret () ∧
    (continuation.dtor E c w).2.trace = w.trace ++
        [Event.ontop p nullptr Hook.context_unwind, Event.record_dtor rec_,
         Event.deallocate r.salloc_ r.sctx_] ∧
    (∀ (create : M fcontext_t) (w0 ws : World) (fctx : fcontext_t),
      create w0 = (Outcome.ret fctx, ws) → fctx ≠ nullptr → ws.records rec_ = some r →
      ws.replies = { t := { fctx := dying, data := rec_ },
                     hook := some (Hook.context_exit k) } :: rs →
      ((callcc_spawn E [Ty.void] create w0).1 = Outcome.ret (Result.ctx { fctx_ := nullptr }) ∧
        (callcc_spawn E [Ty.void] create w0).2.trace = ws.trace ++
          [Event.jump fctx nullptr, Event.record_dtor rec_,
           Event.deallocate r.salloc_ r.sctx_]) ∧
      ((callcc_spawn_arg E [Ty.void] create arg w0).1
          = Outcome.ret (Result.ctx { fctx_ := nullptr }) ∧
        (callcc_spawn_arg E [Ty.void] create arg w0).2.trace = ws.trace ++
          [Event.jump fctx (ws.top + 1), Event.record_dtor rec_,
           Event.deallocate r.salloc_ r.sctx_])) ∧
    (∀ (fnv : Loc → M continuation) (kd : RecKind) (t t_ : transfer_t) (w0 wd wd2 : World),
      t_.data ≠ nullptr → t.fctx ≠ nullptr →
      jump_fcontext E t_.fctx nullptr w0 = (Outcome.ret t, wd) →
      fnv wd.fresh (new_continuation t.fctx wd).2 = (Outcome.ret { fctx_ := t.fctx }, wd2) →
      (wd2.handles wd.fresh).fctx_ = nullptr → wd.fresh < wd2.fresh → wd2.replies = [] →
      (context_entry E { kind := kd, run := record_void.run E fnv } t_ w0).2.trace
        = wd2.trace ++ [Event.ontop t.fctx t_.data (Hook.context_exit kd)]) ∧
    (Ret ≠ [Ty.void] →
      (callcc_resume E Ret c w).1 = Outcome.abort ∧
      (callcc_resume E Ret c w).2.trace = w.trace ++
        [Event.jump p nullptr, Event.record_dtor rec_, Event.deallocate r.salloc_ r.sctx_] ∧
      (callcc_resume_arg E Ret c arg w).1 = Outcome.abort ∧
      (callcc_resume_arg E Ret c arg w).2.trace = w.trace ++
        [Event.jump p (w.top + 1), Event.record_dtor rec_,
         Event.deallocate r.salloc_ r.sctx_] ∧
      ∀ (create : M fcontext_t) (w0 ws : World) (fctx : fcontext_t),
        create w0 = (Outcome.ret fctx, ws) → fctx ≠ nullptr → ws.records rec_ = some r →
        ws.replies = { t := { fctx := dying, data := rec_ },
                       hook := some (Hook.context_exit k) } :: rs →
        ((callcc_spawn E Ret create w0).1 = Outcome.abort ∧
          (callcc_spawn E Ret create w0).2.trace = ws.trace ++
            [Event.jump fctx nullptr, Event.record_dtor rec_,
             Event.deallocate r.salloc_ r.sctx_]) ∧
        ((callcc_spawn_arg E Ret create arg w0).1 = Outcome.abort ∧
          (callcc_spawn_arg E Ret create arg w0).2.trace = ws.trace ++
            [Event.jump fctx (ws.top + 1), Event.record_dtor rec_,
             Event.deallocate r.salloc_ r.sctx_])) := by
  subst hp
  have hx := context_exit_eq k { fctx := dying, data := rec_ } w
  simp only [hrec] at hx
  have h1 := switch_answered_by_exit E (Event.jump (w.handles c).fctx_ nullptr) (w.emptied c)
    dying rec_ r k rs hrec hr
  have c1 := callcc_resume_answered_by_exit E w c dying rec_ r k rs hn hrec hr
  have c2 := callcc_resume_arg_answered_by_exit E w c arg dying rec_ r k rs hn hrec hr
  have h3 := switch_answered_by_exit E
    (Event.ontop (w.handles c).fctx_ nullptr Hook.context_unwind) (w.emptied c)
    dying rec_ r k rs hrec hr
  have c3 : continuation.dtor E c w = (Outcome.ret (), (switch_ E
      (Event.ontop (w.handles c).fctx_ nullptr Hook.context_unwind) (w.emptied c)).2) := by
    rw [dtor_nonnull E c w hn]
    simp only [noexcept_, bind_run, M.bind, ontop_fcontext]
    rw [show ({ w with handles := Function.update w.handles c { fctx_ := nullptr } } : World)
      = w.emptied c from rfl, h3]
  refine ⟨by simp [hx], by simp [hx], by simp [jump_fcontext, h1], by rw [c1], by rw [c1],
    by rw [c2], by rw [c2], by rw [c3], by rw [c3, h3]; rfl, ?_, ?_, ?_⟩
  · intro create w0 ws fctx hc hf hrec' hr'
    have hn' : ((new_continuation fctx ws).2.handles ws.fresh).fctx_ ≠ nullptr := by
      simpa [new_continuation] using hf
    have d1 := callcc_resume_answered_by_exit E (new_continuation fctx ws).2 ws.fresh dying
      rec_ r k rs hn' hrec' hr'
    have d2 := callcc_resume_arg_answered_by_exit E (new_continuation fctx ws).2 ws.fresh arg
      dying rec_ r k rs hn' hrec' hr'
    constructor
    · simp only [callcc_spawn, bind_run, M.bind, hc, new_continuation, pure_run] at d1 ⊢
      simp only [unwinding, d1]
      rw [dtor_null E ws.fresh _ (by simp)]
      simp
    · simp only [callcc_spawn_arg, bind_run, M.bind, hc, new_continuation, pure_run] at d2 ⊢
      simp only [unwinding, d2]
      rw [dtor_null E ws.fresh _ (by simp)]
      simp
  · intro fnv kd t t_ w0 wd wd2 hrec' hq hj hfn hnull hlive hr'
    have hne : wd.fresh ≠ wd2.fresh := Nat.ne_of_lt hlive
    have hrun : record_void.run E fnv t wd
        = (Outcome.ret { fctx := t.fctx, data := nullptr }, wd2.with_emptied_local) := by
      rw [record_void_run_eq E fnv t wd wd2 _ hfn]
      have hd : continuation.dtor E wd.fresh wd2.with_emptied_local
          = (Outcome.ret (), wd2.with_emptied_local) :=
        dtor_null E _ _ (by simp [World.with_emptied_local, Function.update_noteq hne, hnull])
      simp [M.bind, hd]
    exact entry_after_run E { kind := kd, run := record_void.run E fnv } t_ w0 wd
      wd2.with_emptied_local t t.fctx hj hrun hrec' hq hr'
  · intro hR
    have e1 := callcc_resume_exit E Ret w c dying rec_ r k rs hn hrec hr
    obtain ⟨b1, b2, -, -⟩ := callcc_resume_arg_exit E Ret w c arg dying rec_ r k rs hn hrec hr
    simp only [hR, if_false] at e1 b1
    refine ⟨by rw [e1], by rw [e1], b1, b2, ?_⟩
    intro create w0 ws fctx hc hf hrec' hr'
    obtain ⟨⟨s1, s2, -⟩, ⟨s3, s4, -⟩⟩ := callcc_spawn_exit E Ret create arg w0 ws fctx dying
      rec_ r k rs hc hf hrec' hr'
    simp only [hR, if_false] at s1 s3
    exact ⟨⟨s1, s2⟩, ⟨s3, s4⟩⟩

/-- Witness for C6: the resumer of `ex_resumer` gets a null handle back from
`callcc< void >`, after the record of the terminated execution was destroyed and its stack
deallocated on the resumer's stack; with the default, empty `Ret ...` the same call fails the
assertion after the same effects. -/
theorem C6_witness :
    (callcc_resume Env.none [Ty.void] 0 ex_resumer).1
        = Outcome.ret (Result.ctx { fctx_ := nullptr }) ∧
    (callcc_resume Env.none [Ty.void] 0 ex_resumer).2.trace
        = [Event.jump 5 nullptr, Event.record_dtor 100,
           Event.deallocate 1 { size := 4096, sp := 1000 }] ∧
    (callcc_resume Env.none [] 0 ex_resumer).1 = Outcome.abort ∧
    (callcc_resume Env.none [] 0 ex_resumer).2.trace
        = [Event.jump 5 nullptr, Event.record_dtor 100,
           Event.deallocate 1 { size := 4096, sp := 1000 }] :=
  ⟨(C6_termination_delivers_null Env.none ex_resumer 0 5 5 100
      { salloc_ := 1, sctx_ := { size := 4096, sp := 1000 } } RecKind.record_void [] [] []
      rfl (by decide) rfl rfl).2.2.2.1,
   (C6_termination_delivers_null Env.none ex_resumer 0 5 5 100
      { salloc_ := 1, sctx_ := { size := 4096, sp := 1000 } } RecKind.record_void [] [] []
      rfl (by decide) rfl rfl).2.2.2.2.1,
   ((C6_termination_delivers_null Env.none ex_resumer 0 5 5 100
      { salloc_ := 1, sctx_ := { size := 4096, sp := 1000 } } RecKind.record_void [] [] []
      rfl (by decide) rfl rfl).2.2.2.2.2.2.2.2.2.2.2 (by decide)).1,
   ((C6_termination_delivers_null Env.none ex_resumer 0 5 5 100
      { salloc_ := 1, sctx_ := { size := 4096, sp := 1000 } } RecKind.record_void [] [] []
      rfl (by decide) rfl rfl).2.2.2.2.2.2.2.2.2.2.2 (by decide)).2.1⟩

/-! ## C7 -/

/-- C7, counterexample to the last sentence of the claim as stated. `fn_chain` returns a
different continuation (holding 7) than the one it received (holding 5) and leaves the
received one alone. The next switch is then not to execution 7: when `run` destroys its local
`from`, still holding 5, execution 5 is force-unwound first, and here that switch is never
answered. -/
theorem C7_counterexample :
    (fn_chain 1 (new_continuation 5 ex_chain).2).1 = Outcome.ret { fctx_ := 7 } ∧
    (record_void.run Env.none fn_chain { fctx := 5, data := nullptr } ex_chain).1
        = Outcome.parked ∧
    (record_void.run Env.none fn_chain { fctx := 5, data := nullptr } ex_chain).2.trace
        = [Event.ontop 5 nullptr Hook.context_unwind] := by
  refine ⟨?_, ?_, ?_⟩ <;> rfl

/-- C7, amended. Let the word of `t` point to a tuple `vs` and let the user function, called
once with a reference to a continuation holding `t.fctx` followed by `vs` (for `record_void`:
with the continuation only), return the continuation `cc`. Then `run` empties the local `cc`
(so `cc.fctx_` is not unwound), destroys its local `from`, and whenever it returns it returns
`{cc.fctx_, nullptr}`. If the user function emptied the continuation it received, no switch is
made at all and the trampoline's next switch goes to `cc.fctx_`, also when that is a third
execution; if it left it non-null, the first effect after the call is the forced unwind of the
execution it was received from. -/
theorem C7_run_returns_user_continuation (E : Env) (fn : Loc → List Val → M continuation)
    (fnv : Loc → M continuation) (t : transfer_t) (w w2 : World) (vs : List Val)
    (cc : continuation)
    (hargs : w.frames t.data = some (Frame.tuple vs))
    (hfn : fn w.fresh vs (new_continuation t.fctx w).2 = (Outcome.ret cc, w2))
    (hfnv : fnv w.fresh (new_continuation t.fctx w).2 = (Outcome.ret cc, w2))
    (hlive : w.fresh < w2.fresh) :
    (new_continuation t.fctx w).2.handles w.fresh = { fctx_ := t.fctx } ∧
    record.run E fn (vs.map Val.type) t w =
      M.bind (continuation.dtor E w.fresh)
        (fun _ => pure { fctx := cc.fctx_, data := nullptr }) w2.with_emptied_local ∧
    record_void.run E fnv t w =
      M.bind (continuation.dtor E w.fresh)
        (fun _ => pure { fctx := cc.fctx_, data := nullptr }) w2.with_emptied_local ∧
    (∀ x, (record.run E fn (vs.map Val.type) t w).1 = Outcome.ret x →
      x = { fctx := cc.fctx_, data := nullptr }) ∧
    (∀ x, (record_void.run E fnv t w).1 = Outcome.ret x →
      x = { fctx := cc.fctx_, data := nullptr }) ∧
    ((w2.handles w.fresh).fctx_ = nullptr →
      record.run E fn (vs.map Val.type) t w
        = (Outcome.ret { fctx := cc.fctx_, data := nullptr }, w2.with_emptied_local) ∧
      record_void.run E fnv t w
        = (Outcome.ret { fctx := cc.fctx_, data := nullptr }, w2.with_emptied_local) ∧
      w2.with_emptied_local.trace = w2.trace ∧
      (∀ (k : RecKind) (t_ : transfer_t) (w0 : World), t_.data ≠ nullptr →
        jump_fcontext E t_.fctx nullptr w0 = (Outcome.ret t, w) → cc.fctx_ ≠ nullptr →
        w2.replies = [] →
        (context_entry E { kind := k, run := record.run E fn (vs.map Val.type) } t_ w0).2.trace
          = w2.trace ++ [Event.ontop cc.fctx_ t_.data (Hook.context_exit k)])) ∧
    ((w2.handles w.fresh).fctx_ ≠ nullptr → E.appends →
      (∃ evs, (record.run E fn (vs.map Val.type) t w).2.trace = w2.trace ++
        Event.ontop (w2.handles w.fresh).fctx_ nullptr Hook.context_unwind :: evs) ∧
      (∃ evs, (record_void.run E fnv t w).2.trace = w2.trace ++
        Event.ontop (w2.handles w.fresh).fctx_ nullptr Hook.context_unwind :: evs)) := by
  have hne : w.fresh ≠ w2.fresh := Nat.ne_of_lt hlive
  have hh : (w2.with_emptied_local.handles w.fresh) = w2.handles w.fresh := by
    simp [World.with_emptied_local, Function.update_noteq hne]
  have e1 := record_run_eq E fn t w w2 vs cc hargs hfn
  have e2 := record_void_run_eq E fnv t w w2 cc hfnv
  have hret : ∀ x, (M.bind (continuation.dtor E w.fresh)
      (fun _ => (pure (transfer_t.mk cc.fctx_ nullptr) : M transfer_t)) w2.with_emptied_local).1
        = Outcome.ret x → x = { fctx := cc.fctx_, data := nullptr } := by
    intro x hx
    obtain ⟨_, w3, _, h3⟩ := bind_ret_inv _ _ _ _ hx
    simp at h3
    exact h3.symm
  refine ⟨by simp [new_continuation], e1, e2, ?_, ?_, ?_, ?_⟩
  · rw [e1]; exact hret
  · rw [e2]; exact hret
  · intro hnull
    have hd : continuation.dtor E w.fresh w2.with_emptied_local
        = (Outcome.ret (), w2.with_emptied_local) :=
      dtor_null E _ _ (by rw [hh]; exact hnull)
    have e3 : M.bind (continuation.dtor E w.fresh)
        (fun _ => (pure (transfer_t.mk cc.fctx_ nullptr) : M transfer_t)) w2.with_emptied_local
          = (Outcome.ret { fctx := cc.fctx_, data := nullptr }, w2.with_emptied_local) := by
      simp [M.bind, hd]
    refine ⟨e1.trans e3, e2.trans e3, rfl, ?_⟩
    intro k t_ w0 hrec hj hq hr
    have hb : M.bind (jump_fcontext E t_.fctx nullptr)
        (record.run E fn (vs.map Val.type)) w0
          = (Outcome.ret { fctx := cc.fctx_, data := nullptr }, w2.with_emptied_local) := by
      simp only [M.bind, hj]
      exact e1.trans e3
    have h4 := context_entry_parked E { kind := k, run := record.run E fn (vs.map Val.type) } t_ w0
      w2.with_emptied_local cc.fctx_ hrec hq (Or.inr ⟨_, hb, rfl⟩)
    exact (h4 hr).2.1
  · intro hnn hA
    have hw : (M.bind (continuation.dtor E w.fresh)
        (fun _ => (pure (transfer_t.mk cc.fctx_ nullptr) : M transfer_t)) w2.with_emptied_local).2
          = (continuation.dtor E w.fresh w2.with_emptied_local).2 :=
      bind_world_of_pres _ _ (fun _ _ => rfl) _
    have hd := dtor_world E w.fresh w2.with_emptied_local (by rw [hh]; exact hnn)
    obtain ⟨evs, he⟩ := switch_trace E hA
      (Event.ontop (w2.with_emptied_local.handles w.fresh).fctx_ nullptr Hook.context_unwind)
      (w2.with_emptied_local.emptied w.fresh)
    rw [hh] at he hd
    have : (M.bind (continuation.dtor E w.fresh)
        (fun _ => (pure (transfer_t.mk cc.fctx_ nullptr) : M transfer_t)) w2.with_emptied_local).2.trace
          = w2.trace ++ Event.ontop (w2.handles w.fresh).fctx_ nullptr Hook.context_unwind
              :: evs := by
      rw [hw, hd]
      exact he
    exact ⟨⟨evs, by rw [e1]; exact this⟩, ⟨evs, by rw [e2]; exact this⟩⟩

/-- Witness for C7: `fn_return_received` is run on the tuple `(7)` received from execution 5;
`run` returns `{5, nullptr}` without any effect. -/
theorem C7_witness :
    record.run Env.none fn_return_received [Ty.int] { fctx := 5, data := 50 } ex_args
        = (Outcome.ret { fctx := 5, data := nullptr }, ex_args_returned.with_emptied_local) ∧
    ex_args_returned.with_emptied_local.trace = [] :=
  ⟨((C7_run_returns_user_continuation Env.none fn_return_received fn_return_received_void
      { fctx := 5, data := 50 } ex_args ex_args_returned [Val.int 7] { fctx_ := 5 }
      rfl rfl rfl (by decide)).2.2.2.2.2.1 rfl).1,
   rfl⟩


/-! ## C8 -/

/-- C8, the code evaluated. With `Ret ...` = `void` the specialisation is used: the result is
the continuation alone, built from `t.fctx`, and a non-null word fails the assertion. With
`Ret ...` empty the primary template is used: a null word fails the assertion
`nullptr != t.data`, and for a non-null word the result is a tuple. So
`callcc( std::move( c))` without `Ret`, answered with a null word, ends in the failed
assertion, where `callcc< void >( std::move( c))` returns the handle. -/
theorem C8_empty_ret_instantiates_primary_template :
    (∀ (q : fcontext_t) (w : World),
      result_type_get [Ty.void] { fctx := q, data := nullptr } w
        = (Outcome.ret (Result.ctx { fctx_ := q }), w)) ∧
    (∀ (q : fcontext_t) (a : Word) (w : World),
      (result_type_get [Ty.void] { fctx := q, data := a + 1 } w).1 = Outcome.abort) ∧
    (∀ (q : fcontext_t) (w : World),
      result_type_get [] { fctx := q, data := nullptr } w = (Outcome.abort, w)) ∧
    (result_type_get [] { fctx := 9, data := 50 } ex_empty_tuple).1
        = Outcome.ret (Result.tuple { fctx_ := 9 } []) ∧
    (callcc_resume Env.none [] 0 ex_resumable).1 = Outcome.abort ∧
    (callcc_resume Env.none [Ty.void] 0 ex_resumable).1
        = Outcome.ret (Result.ctx { fctx_ := 9 }) := by
  refine ⟨?_, ?_, ?_, rfl, rfl, rfl⟩
  · intro q w
    simp [result_type_get_eq]
  · intro q a w
    simp [result_type_get_eq, nullptr]
  · intro q w
    simp [result_type_get_eq]

/-! ## C9 -/

theorem types_ne_void (vs : List Val) : vs.map Val.type ≠ [Ty.void] := by
  intro h
  cases vs with
  | nil => simp at h
  | cons v tl =>
    simp only [List.map_cons, List.cons.injEq] at h
    cases v <;> simp [Val.type] at h

/-- C9. Round trip of a value payload. A sender places the tuple `vs` in a frame (its address
`w.top + 1` is the word); `result_type< continuation, T ... >::get` for the types `T ...` of
`vs`, applied to the transfer `{sender, word}`, returns the pair of the continuation holding
`sender` and `vs`, component by component and in order. A null word fails the assertion. The
same through a switch: a resumer whose pending switch is answered by `sender` with the
address of the tuple `vs` gets `(continuation holding sender, vs)` from `callcc< T ... >`. -/
theorem C9_payload_round_trip (E : Env) (w w1 : World) (vs : List Val) (sender : fcontext_t)
    (c : Loc) (a : Word) (rs : List Reply)
    (hc : (w1.handles c).fctx_ ≠ nullptr) (ha : a ≠ nullptr)
    (hr : w1.replies
      = { t := { fctx := sender, data := a }, frame := some (Frame.tuple vs) } :: rs) :
    result_type.get (vs.map Val.type) { fctx := sender, data := w.top + 1 }
        (w.with_frame (Frame.tuple vs))
      = (Outcome.ret (Result.tuple { fctx_ := sender } vs), w.with_frame (Frame.tuple vs)) ∧
    result_type_get (vs.map Val.type) { fctx := sender, data := w.top + 1 }
        (w.with_frame (Frame.tuple vs))
      = (Outcome.ret (Result.tuple { fctx_ := sender } vs), w.with_frame (Frame.tuple vs)) ∧
    (∀ (Arg : List Ty) (w2 : World),
      result_type.get Arg { fctx := sender, data := nullptr } w2 = (Outcome.abort, w2)) ∧
    (callcc_resume E (vs.map Val.type) c w1).1
      = Outcome.ret (Result.tuple { fctx_ := sender } vs) := by
  have h1 : result_type.get (vs.map Val.type) { fctx := sender, data := w.top + 1 }
        (w.with_frame (Frame.tuple vs))
      = (Outcome.ret (Result.tuple { fctx_ := sender } vs), w.with_frame (Frame.tuple vs)) := by
    rw [result_type_primary_get_eq]
    simp [World.with_frame, new_frame, nullptr]
  refine ⟨h1, ?_, ?_, ?_⟩
  · simp only [result_type_get, types_ne_void vs, if_false]
    exact h1
  · intro Arg w2
    rw [result_type_primary_get_eq]
    simp
  · rw [callcc_resume_eq E _ c w1 hc]
    have hs := switch_cons E (Event.jump (w1.handles c).fctx_ nullptr) (w1.emptied c) _ rs hr
    simp only [M.bind, jump_fcontext, hs, arrive]
    simp [result_type_get_eq, types_ne_void vs, ha]

/-- Witness for C9: execution 9 answers with the address 50 of the tuple `(3, "abc")`;
`callcc< int, std::string >( std::move( c))` returns the handle holding 9 and `(3, "abc")`. -/
theorem C9_witness :
    (callcc_resume Env.none [Ty.int, Ty.str] 0 ex_receiver).1
      = Outcome.ret (Result.tuple { fctx_ := 9 } [Val.int 3, Val.str "abc"]) :=
  (C9_payload_round_trip Env.none ex_receiver ex_receiver [Val.int 3, Val.str "abc"] 9 0 50 []
    (by decide) (by decide) rfl).2.2.2

/-! ## C10 -/

/-- C10, the code evaluated. `callcc( std::move( c), 7)` from the handle at address 0 (holding
5) passes a non-null word, the address of the local `tpl`; but `tpl` is declared
`auto tpl{ ... }`, an object list-initialised from the arguments, not a
`std::tuple< Arg ... >`, so a receiver that reads the word as `std::tuple< int > *` (as
`result_type::get` and `record::run` do) has no defined result. This holds for every argument
list and every type list the receiver may use. With no argument the word is null. -/
theorem C10_resume_frame_is_not_a_tuple :
    (callcc_resume_arg Env.none [Ty.void] 0 [Val.int 7] ex_two_handles).2.trace
        = [Event.jump 5 1] ∧
    (callcc_resume_arg Env.none [Ty.void] 0 [Val.int 7] ex_two_handles).2.frames 1
        = some (Frame.braced [Val.int 7]) ∧
    (result_type.get [Ty.int] { fctx := 9, data := 1 }
        (callcc_resume_arg Env.none [Ty.void] 0 [Val.int 7] ex_two_handles).2).1
        = Outcome.undefined ∧
    (∀ (w : World) (arg : List Val) (Arg : List Ty) (s : fcontext_t),
      (w.with_frame (Frame.braced arg)).frames (w.top + 1) = some (Frame.braced arg) ∧
      (w.top + 1 ≠ nullptr) ∧
      (result_type.get Arg { fctx := s, data := w.top + 1 }
        (w.with_frame (Frame.braced arg))).1 = Outcome.undefined) ∧
    (callcc_resume Env.none [Ty.void] 0 ex_two_handles).2.trace
        = [Event.jump 5 nullptr] := by
  refine ⟨rfl, rfl, rfl, ?_, rfl⟩
  intro w arg Arg s
  refine ⟨by simp [World.with_frame, new_frame], by simp [nullptr], ?_⟩
  rw [result_type_primary_get_eq]
  simp [World.with_frame, new_frame, nullptr]

/-! ## C16 -/

/-- C16. The comparison operators of `continuation` are those of the pointer values:
`a == b` iff the pointers are equal, `a != b` is its negation, `a < b` iff the pointer of `a`
is below that of `b`, `a > b` is `b < a`, `a <= b` is `! (a > b)`, `a >= b` is `! (a < b)`.
Hence exactly one of `a < b`, `a == b`, `a > b` holds, `<` is irreflexive and transitive, and
two non-null handles compare equal iff they hold the same execution pointer (and then are
equal as handles). -/
theorem C16_comparison_is_pointer_order (a b c : continuation) :
    (continuation.operator_eq a b = true ↔ a.fctx_ = b.fctx_) ∧
    (continuation.operator_ne a b = ! continuation.operator_eq a b) ∧
    (continuation.operator_lt a b = true ↔ a.fctx_ < b.fctx_) ∧
    (continuation.operator_gt a b = continuation.operator_lt b a) ∧
    (continuation.operator_le a b = ! continuation.operator_gt a b) ∧
    (continuation.operator_ge a b = ! continuation.operator_lt a b) ∧
    (continuation.operator_le a b = true ↔ a.fctx_ ≤ b.fctx_) ∧
    (continuation.operator_ge a b = true ↔ b.fctx_ ≤ a.fctx_) ∧
    ((continuation.operator_lt a b = true ∧ continuation.operator_eq a b = false ∧
        continuation.operator_gt a b = false) ∨
      (continuation.operator_lt a b = false ∧ continuation.operator_eq a b = true ∧
        continuation.operator_gt a b = false) ∨
      (continuation.operator_lt a b = false ∧ continuation.operator_eq a b = false ∧
        continuation.operator_gt a b = true)) ∧
    continuation.operator_lt a a = false ∧
    (continuation.operator_lt a b = true → continuation.operator_lt b c = true →
      continuation.operator_lt a c = true) ∧
    (a.fctx_ ≠ nullptr → b.fctx_ ≠ nullptr →
      (continuation.operator_eq a b = true ↔ a.fctx_ = b.fctx_)) ∧
    (continuation.operator_eq a b = true ↔ a = b) := by
  obtain ⟨p⟩ := a
  obtain ⟨q⟩ := b
  obtain ⟨r⟩ := c
  refine ⟨?_, ?_, ?_, ?_, ?_, ?_, ?_, ?_, ?_, ?_, ?_, ?_, ?_⟩
  · simp [continuation.operator_eq]
  · by_cases h : p = q <;> simp [continuation.operator_eq, continuation.operator_ne, h]
  · simp [continuation.operator_lt]
  · rfl
  · rfl
  · rfl
  · simp [continuation.operator_le, continuation.operator_gt]
  · simp [continuation.operator_ge, continuation.operator_lt]
  · simp only [continuation.operator_eq, continuation.operator_lt, continuation.operator_gt,
      decide_eq_true_eq, decide_eq_false_iff_not]
    have tri : ∀ x y : Nat, (x < y ∧ ¬ x = y ∧ ¬ y < x) ∨ (¬ x < y ∧ x = y ∧ ¬ y < x) ∨
        (¬ x < y ∧ ¬ x = y ∧ y < x) := by
      intro x y
      omega
    exact tri p q
  · simp [continuation.operator_lt]
  · simp only [continuation.operator_lt, decide_eq_true_eq]
    exact fun h1 h2 => Nat.lt_trans h1 h2
  · intro _ _
    simp [continuation.operator_eq]
  · simp [continuation.operator_eq]

/-- Witness for C16: the handles holding 3, 5 and 9 are ordered as their pointers are. -/
theorem C16_witness :
    continuation.operator_lt { fctx_ := 3 } { fctx_ := 9 } = true :=
  (C16_comparison_is_pointer_order { fctx_ := 3 } { fctx_ := 5 } { fctx_ := 9 }).2.2.2.2.2.2.2.2.2.2.1
    (by decide) (by decide)

/-! ## C18 -/

/-- C18. Move assignment drops what it overwrites. For distinct existing handles `a` (holding
`p`) and `b` (holding `q`), `a = std::move( b)`: if `p` is null it returns with no effect at
all; if `p` is non-null the world it leaves is the world left by the one switch
`ontop_fcontext( p, nullptr, context_unwind)` made by the destructor of the temporary that
received `p` (that switch is the first effect, and the only one when it is never answered).
The pointer `q` is never the argument of a switch made by the assignment: it ends up held by
`a`. Self assignment `a = std::move( a)` returns with the world unchanged. -/
theorem C18_move_assign_drops_overwritten (E : Env) (w : World) (a b : Loc)
    (ha : a < w.fresh) (hb : b < w.fresh) (hab : a ≠ b) :
    continuation.move_assign E a a w = (Outcome.ret a, w) ∧
    ((w.handles a).fctx_ = nullptr →
      (continuation.move_assign E a b w).1 = Outcome.ret a ∧
      (continuation.move_assign E a b w).2.trace = w.trace ∧
      (continuation.move_assign E a b w).2.handles a = w.handles b) ∧
    ((w.handles a).fctx_ ≠ nullptr →
      (continuation.move_assign E a b w).2
        = (ontop_fcontext E (w.handles a).fctx_ nullptr Hook.context_unwind
            ((w.move_assigned a b).emptied w.fresh)).2 ∧
      (E.appends → ∃ evs, (continuation.move_assign E a b w).2.trace
        = w.trace ++ Event.ontop (w.handles a).fctx_ nullptr Hook.context_unwind :: evs) ∧
      (w.replies = [] →
        (continuation.move_assign E a b w).2.trace
          = w.trace ++ [Event.ontop (w.handles a).fctx_ nullptr Hook.context_unwind] ∧
        (continuation.move_assign E a b w).2.handles a = w.handles b ∧
        (continuation.move_assign E a b w).2.handles b = { fctx_ := nullptr })) ∧
    (E.keeps a → (continuation.move_assign E a b w).2.handles a = w.handles b) := by
  have n1 : b ≠ w.fresh := Nat.ne_of_lt hb
  have n2 : a ≠ w.fresh := Nat.ne_of_lt ha
  have hsw : ((M.bind (continuation.move_construct b)
      (fun tmp => continuation.swap a tmp)) w).2 = w.move_assigned a b :=
    move_swap_world a b w n1 n2 hab
  have htmp : ((w.move_assigned a b).handles w.fresh) = w.handles a := by
    simp [World.move_assigned, Function.update_noteq n1.symm, Function.update_noteq n2.symm]
  have hA : (w.move_assigned a b).handles a = w.handles b := by
    simp [World.move_assigned]
  have hB : (w.move_assigned a b).handles b = { fctx_ := nullptr } := by
    simp [World.move_assigned, Function.update_noteq hab.symm]
  have heq := move_assign_eq E a b hab w
  rw [hsw] at heq
  have hworld : (continuation.move_assign E a b w).2
      = (continuation.dtor E w.fresh (w.move_assigned a b)).2 := by
    rw [heq, noexcept_world, bind_pure_world]
  refine ⟨?_, ?_, ?_, ?_⟩
  · simp [continuation.move_assign, noexcept_, M.bind]
  · intro hnull
    have hd := dtor_null E w.fresh (w.move_assigned a b) (by rw [htmp]; exact hnull)
    refine ⟨?_, ?_, ?_⟩
    · rw [heq]
      simp [noexcept_, M.bind, hd]
    · rw [hworld, hd]
      rfl
    · rw [hworld, hd]
      exact hA
  · intro hnn
    have hd := dtor_world E w.fresh (w.move_assigned a b) (by rw [htmp]; exact hnn)
    rw [htmp] at hd
    refine ⟨hworld.trans hd, ?_, ?_⟩
    · intro hE
      rw [hworld, hd]
      exact switch_trace E hE _ _
    · intro hr
      have hs := switch_nil E (Event.ontop (w.handles a).fctx_ nullptr Hook.context_unwind)
        ((w.move_assigned a b).emptied w.fresh) hr
      rw [hworld, hd, ontop_fcontext, hs]
      refine ⟨rfl, ?_, ?_⟩
      · simpa [World.emptied, Function.update_noteq n2] using hA
      · simpa [World.emptied, Function.update_noteq n1] using hB
  · intro hE
    rw [hworld, dtor_handles_ne E w.fresh a n2 hE]
    exact hA

/-- Witness for C18: with handles 0 ↦ 5 and 1 ↦ 7, `c1 = std::move( c0)` for the handle `c1`
at address 1 unwinds exactly execution 7, and the handle at 1 then holds 5. -/
theorem C18_witness :
    (continuation.move_assign Env.none 1 0 ex_two_handles).2.trace
        = [Event.ontop 7 nullptr Hook.context_unwind] ∧
    (continuation.move_assign Env.none 1 0 ex_two_handles).2.handles 1 = { fctx_ := 5 } :=
  ⟨(((C18_move_assign_drops_overwritten Env.none ex_two_handles 1 0 (by decide) (by decide)
      (by decide)).2.2.1 (by decide)).2.2 rfl).1,
   (((C18_move_assign_drops_overwritten Env.none ex_two_handles 1 0 (by decide) (by decide)
      (by decide)).2.2.1 (by decide)).2.2 rfl).2.1⟩

/-! ## `std::align` -/

theorem word_size_eq : word_size = 18446744073709551616 := by
  norm_num [word_size]

/-- The arithmetic of the placement: below a base `B` that leaves room for the record and the
alignment, `std::align` succeeds at a multiple of 64 inside `[B - s - 64, B - s]`. -/
theorem std_align_carve (B s : Nat) (h1 : s + 64 < B) (h2 : B < word_size) :
    wsub (wsub B s) 64 = B - s - 64 ∧
    64 ∣ std_align 64 s (wsub (wsub B s) 64) ((s + 64) % word_size) ∧
    B - s - 64 ≤ std_align 64 s (wsub (wsub B s) 64) ((s + 64) % word_size) ∧
    std_align 64 s (wsub (wsub B s) 64) ((s + 64) % word_size) + s ≤ B ∧
    std_align 64 s (wsub (wsub B s) 64) ((s + 64) % word_size) ≠ nullptr := by
  rw [word_size_eq] at h2
  have e0 : wsub (wsub B s) 64 = B - s - 64 := by
    simp only [wsub, word_size_eq]
    omega
  rw [e0]
  have hs : (s + 64) % word_size = s + 64 := by
    rw [word_size_eq]
    omega
  rw [hs]
  have ha : (B - s - 64 + (64 - 1)) % word_size / 64 * 64 = (B - s - 1) / 64 * 64 := by
    rw [word_size_eq]
    have : (B - s - 64 + (64 - 1)) % 18446744073709551616 = B - s - 1 := by omega
    rw [this]
  have hlo : B - s - 64 ≤ (B - s - 1) / 64 * 64 := by omega
  have hhi : (B - s - 1) / 64 * 64 ≤ B - s - 1 := by omega
  have hd : wsub ((B - s - 1) / 64 * 64) (B - s - 64) = (B - s - 1) / 64 * 64 - (B - s - 64) := by
    simp only [wsub, word_size_eq]
    omega
  have hfit : ¬ ((s + ((B - s - 1) / 64 * 64 - (B - s - 64))) % word_size > s + 64) := by
    rw [word_size_eq]
    omega
  have hval : std_align 64 s (B - s - 64) (s + 64) = (B - s - 1) / 64 * 64 := by
    simp only [std_align, ha, hd, hfit, if_false]
  rw [hval]
  clear ha hd hfit hval hs e0
  have key : ∀ x : Nat, B - s - 64 ≤ x → x ≤ B - s - 1 → x + s ≤ B ∧ x ≠ 0 := by
    intro x hx1 hx2
    omega
  exact ⟨rfl, Dvd.intro_left _ rfl, hlo, (key _ hlo hhi).1, (key _ hlo hhi).2⟩

/-! ## `context_create` -/

theorem StackAlloc_allocate_some (salloc : Nat) (w : World) (sctx : stack_context)
    (rest : List (Option stack_context)) (h : w.allocations = some sctx :: rest) :
    StackAlloc.allocate salloc w =
      (.ret sctx, { w with trace := w.trace ++ [Event.allocate salloc], allocations := rest }) := by
  simp [StackAlloc.allocate, h]

theorem StackAlloc_allocate_fails (salloc : Nat) (w : World)
    (h : ∀ sctx rest, w.allocations ≠ some sctx :: rest) :
    StackAlloc.allocate salloc w =
      (.raise bad_alloc, { w with trace := w.trace ++ [Event.allocate salloc],
                                  allocations := w.allocations.tail }) := by
  obtain ⟨tr, rp, hd, fr, fm, tp, rc, al, md⟩ := w
  cases al with
  | nil => simp [StackAlloc.allocate]
  | cons a rest =>
    cases a with
    | none => simp [StackAlloc.allocate]
    | some sctx => exact absurd rfl (h sctx rest)

/-- What `context_create` does once `allocate()` has returned the descriptor `(B, S)` with
`s + 64 < B < 2 ^ 64`: the placement succeeds and the rest of the function runs with the
placement address and the remaining size. -/
theorem context_create_eq (E : Env) (k : RecKind) (s salloc : Nat) (w : World) (B S : Nat)
    (rest : List (Option stack_context))
    (hw : w.allocations = some { size := S, sp := B } :: rest)
    (h1 : s + 64 < B) (h2 : B < word_size) :
    context_create E k s salloc w =
      (do
        let fctx ← make_fcontext (std_align 64 s (wsub (wsub B s) 64) ((s + 64) % word_size))
          (wsub S (wsub B (std_align 64 s (wsub (wsub B s) 64) ((s + 64) % word_size)))) k
        BOOST_ASSERT (decide (nullptr ≠ fctx))
        record.ctor (std_align 64 s (wsub (wsub B s) 64) ((s + 64) % word_size))
          { size := S, sp := B } salloc
        let t ← jump_fcontext E fctx
          (std_align 64 s (wsub (wsub B s) 64) ((s + 64) % word_size))
        pure t.fctx)
      { w with trace := w.trace ++ [Event.allocate salloc], allocations := rest } := by
  have hne := (std_align_carve B s h1 h2).2.2.2.2
  have hd : decide (nullptr ≠ std_align 64 s (wsub (wsub B s) 64) ((s + 64) % word_size))
      = true := by
    simpa using fun e => hne e.symm
  simp only [context_create, bind_run, M.bind, StackAlloc_allocate_some salloc w _ rest hw, hd,
    BOOST_ASSERT_true]

/-- The preallocated form when its two assertions hold: `make_fcontext` is called with the
placement `sp` and the remaining `size`, the record is constructed at `sp` with the descriptor
`palloc.sctx`, and the first switch is made. -/
theorem context_create_prealloc_eq (E : Env) (k : RecKind) (s : Nat) (palloc : preallocated)
    (salloc : Nat) (w : World) (sp size : Nat)
    (hsp : sp = std_align 64 s (wsub (wsub palloc.sp s) 64) ((s + 64) % word_size))
    (hsize : size = wsub palloc.size (wsub palloc.sp sp))
    (hne : sp ≠ nullptr) (hf : w.made sp size ≠ nullptr) :
    context_create_prealloc E k s palloc salloc w =
      M.bind (jump_fcontext E (w.made sp size) sp) (fun t => pure t.fctx)
        { w with
          trace := w.trace ++ [Event.make_fcontext sp size k],
          records := Function.update w.records sp
            (some { salloc_ := salloc, sctx_ := palloc.sctx }) } := by
  have hd : decide (nullptr ≠ sp) = true := by
    simpa using fun e => hne e.symm
  have hd2 : decide (nullptr ≠ w.made sp size) = true := by
    simpa using fun e => hf e.symm
  simp only [context_create_prealloc, bind_run, M.bind, ← hsp, hd, BOOST_ASSERT_true,
    make_fcontext, ← hsize, hd2, record_ctor_eq]

/-- The preallocated form when the placement is null: the first assertion fails and nothing
has happened. -/
theorem context_create_prealloc_null (E : Env) (k : RecKind) (s : Nat) (palloc : preallocated)
    (salloc : Nat) (w : World) (sp : Nat)
    (hsp : sp = std_align 64 s (wsub (wsub palloc.sp s) 64) ((s + 64) % word_size))
    (h0 : sp = nullptr) :
    context_create_prealloc E k s palloc salloc w = (.abort, w) := by
  have hd : decide (nullptr ≠ sp) = false := by
    simp [h0]
  simp only [context_create_prealloc, bind_run, M.bind, ← hsp, hd, BOOST_ASSERT_false]

/-- The preallocated form when `make_fcontext` returns null: the second assertion fails
before the record is constructed. -/
theorem context_create_prealloc_fnull (E : Env) (k : RecKind) (s : Nat) (palloc : preallocated)
    (salloc : Nat) (w : World) (sp size : Nat)
    (hsp : sp = std_align 64 s (wsub (wsub palloc.sp s) 64) ((s + 64) % word_size))
    (hsize : size = wsub palloc.size (wsub palloc.sp sp))
    (hne : sp ≠ nullptr) (hf : w.made sp size = nullptr) :
    context_create_prealloc E k s palloc salloc w =
      (.abort, { w with trace := w.trace ++ [Event.make_fcontext sp size k] }) := by
  have hd : decide (nullptr ≠ sp) = true := by
    simpa using fun e => hne e.symm
  have hd2 : decide (nullptr ≠ w.made sp size) = false := by
    simp [hf]
  simp only [context_create_prealloc, bind_run, M.bind, ← hsp, hd, BOOST_ASSERT_true,
    make_fcontext, ← hsize, hd2, BOOST_ASSERT_false]

theorem bind_abort_run {α β : Type} (m : M α) (f : α → M β) (w w1 : World)
    (h : m w = (Outcome.abort, w1)) : M.bind m f w = (Outcome.abort, w1) := by
  unfold M.bind
  rw [h]

/-- The spawning overloads end where `context_create` fails an assertion. -/
theorem callcc_spawn_abort (E : Env) (Ret : List Ty) (create : M fcontext_t)
    (arg : List Val) (w w1 : World) (h : create w = (Outcome.abort, w1)) :
    callcc_spawn E Ret create w = (Outcome.abort, w1) ∧
    callcc_spawn_arg E Ret create arg w = (Outcome.abort, w1) :=
  ⟨bind_abort_run create _ w w1 h, bind_abort_run create _ w w1 h⟩

/-- A plain jump back answers a switch with its transfer. -/
theorem switch_plain_reply (E : Env) (ev : Event) (w : World) (t : transfer_t)
    (rs : List Reply) (hr : w.replies = { t := t } :: rs) :
    switch_ E ev w = (.ret t, { w with trace := w.trace ++ [ev], replies := rs }) := by
  rw [switch_cons E ev w _ rs hr]
  rfl

/-- The remaining size `S - (B - sp)` in the arithmetic of `std::size_t`, for a placement
`sp ≤ B`: it is the difference when `B - sp ≤ S`, and wraps around otherwise. -/
theorem remaining_size (B S sp : Nat) (h2 : B < word_size) (hS : S < word_size) (hsp : sp ≤ B) :
    (B - sp ≤ S → wsub S (wsub B sp) = S - (B - sp)) ∧
    (S < B - sp → wsub S (wsub B sp) = S + word_size - (B - sp)) := by
  rw [word_size_eq] at h2 hS
  simp only [wsub, word_size_eq]
  constructor <;> intro h <;> omega

/-! ## C14 -/

/-- C14. Let the stack provider fail the next `allocate()`. Then `context_create`, and with it
each spawning `callcc` (with or without arguments, with an explicit allocator or with
`fixedsize_stack()`), ends by the provider's exception reaching the caller, so no continuation
is returned; and the only thing that has happened is the request itself: the trace has grown by
the one event `allocate`, so `make_fcontext` was not called and no switch was performed, and
the records, handles, frames and pending replies of the world are those of before. -/
theorem C14_allocate_failure_aborts_spawn (E : Env) (k : RecKind) (Ret : List Ty)
    (s salloc : Nat) (arg : List Val) (w : World)
    (hfail : ∀ sctx rest, w.allocations ≠ some sctx :: rest) :
    context_create E k s salloc w =
      (.raise bad_alloc, { w with trace := w.trace ++ [Event.allocate salloc],
                                  allocations := w.allocations.tail }) ∧
    callcc_alloc E Ret s salloc w =
      (.raise bad_alloc, { w with trace := w.trace ++ [Event.allocate salloc],
                                  allocations := w.allocations.tail }) ∧
    callcc_alloc_arg E Ret s salloc arg w =
      (.raise bad_alloc, { w with trace := w.trace ++ [Event.allocate salloc],
                                  allocations := w.allocations.tail }) ∧
    callcc_fn E Ret s w =
      (.raise bad_alloc, { w with trace := w.trace ++ [Event.allocate fixedsize_stack],
                                  allocations := w.allocations.tail }) ∧
    callcc_fn_arg E Ret s arg w =
      (.raise bad_alloc, { w with trace := w.trace ++ [Event.allocate fixedsize_stack],
                                  allocations := w.allocations.tail }) := by
  have hc : ∀ (k : RecKind) (salloc : Nat), context_create E k s salloc w =
      (.raise bad_alloc, { w with trace := w.trace ++ [Event.allocate salloc],
                                  allocations := w.allocations.tail }) := by
    intro k salloc
    simp only [context_create, bind_run, M.bind, StackAlloc_allocate_fails salloc w hfail]
  refine ⟨hc k salloc, ?_, ?_, ?_, ?_⟩
  · simp only [callcc_alloc, callcc_spawn, bind_run, M.bind, hc]
  · simp only [callcc_alloc_arg, callcc_spawn_arg, bind_run, M.bind, hc]
  · simp only [callcc_fn, callcc_alloc, callcc_spawn, bind_run, M.bind, hc]
  · simp only [callcc_fn_arg, callcc_alloc_arg, callcc_spawn_arg, bind_run, M.bind, hc]

/-- Witness for C14: in `ex_no_stack` the provider fails; the spawn with allocator 1 raises
and leaves the trace `[allocate 1]`. -/
theorem C14_witness :
    (∀ sctx rest, ex_no_stack.allocations ≠ some sctx :: rest) ∧
    (callcc_alloc_arg Env.none [Ty.void] 64 1 [Val.int 3] ex_no_stack).1
        = Outcome.raise bad_alloc ∧
    (callcc_alloc_arg Env.none [Ty.void] 64 1 [Val.int 3] ex_no_stack).2.trace
        = [Event.allocate 1] :=
  ⟨(by intro sctx rest h; cases h),
   congrArg Prod.fst (C14_allocate_failure_aborts_spawn Env.none RecKind.record [Ty.void] 64 1
      [Val.int 3] ex_no_stack (by intro sctx rest h; cases h)).2.2.1,
   congrArg (fun r => r.2.trace) (C14_allocate_failure_aborts_spawn Env.none RecKind.record
      [Ty.void] 64 1 [Val.int 3] ex_no_stack (by intro sctx rest h; cases h)).2.2.1⟩

/-! ## C17 -/

/-- C17, counterexample to the claim as stated ("for every stack descriptor"). For the
descriptor `(B, S) = (128, 128)` and a record of 64 bytes the placement address is
`B - s - 64 = 0`, the null pointer: the assertion `nullptr != sp` fails right after
`allocate()`. For the descriptor `(100, 4096)` and a record of 100 bytes, `B - s - 64` is below
zero and the placement address is the wrapped-around `2 ^ 64 - 64`, so `sp + s ≤ B` fails. For
the descriptor `(1048576, 64)` and a record of 128 bytes the placement address is `1048384`, so
`B - sp = 192` exceeds `S = 64`, and the size passed to `make_fcontext` is not `S - (B - sp)`
but the wrapped-around `2 ^ 64 - 128`. -/
theorem C17_counterexample :
    (context_create Env.none RecKind.record_void 64 1 ex_low_base).1 = Outcome.abort ∧
    (context_create Env.none RecKind.record_void 64 1 ex_low_base).2.trace
        = [Event.allocate 1] ∧
    (context_create Env.none RecKind.record_void 100 1 ex_wrapped_base).2.trace
        = [Event.allocate 1,
           Event.make_fcontext 18446744073709551552 3932 RecKind.record_void,
           Event.jump 18446744073709551552 18446744073709551552] ∧
    (context_create Env.none RecKind.record_void 128 1 ex_small_stack).2.trace
        = [Event.allocate 1,
           Event.make_fcontext 1048384 18446744073709551488 RecKind.record_void,
           Event.jump 1048384 1048384] := by
  refine ⟨?_, ?_, ?_, ?_⟩ <;> rfl

/-- C17, amended. Let `allocate()` return the descriptor `(B, S)`, both 64-bit values, and
let the record size `s` satisfy `s + 64 < B`. Then `context_create` computes a placement
address `sp` that is a multiple of 64 with `B - s - 64 ≤ sp` and `sp + s ≤ B` and is not null,
so `std::align` succeeds and the assertion `nullptr != sp` holds; it goes on with
`make_fcontext( sp, size, …)`, the construction of the record at `sp` and the first switch;
the size passed is `S - (B - sp)` exactly when `B - sp ≤ S`, and then the low end of the
usable region, `sp - size`, is the low end `B - S` of the allocated stack. -/
theorem C17_record_carved_aligned (E : Env) (k : RecKind) (s salloc : Nat) (w : World)
    (B S : Nat) (rest : List (Option stack_context))
    (hw : w.allocations = some { size := S, sp := B } :: rest)
    (h1 : s + 64 < B) (h2 : B < word_size) (hS : S < word_size) :
    ∃ sp size : Nat,
      64 ∣ sp ∧ B - s - 64 ≤ sp ∧ sp + s ≤ B ∧ sp ≠ nullptr ∧
      context_create E k s salloc w =
        (do
          let fctx ← make_fcontext sp size k
          BOOST_ASSERT (decide (nullptr ≠ fctx))
          record.ctor sp { size := S, sp := B } salloc
          let t ← jump_fcontext E fctx sp
          pure t.fctx)
        { w with trace := w.trace ++ [Event.allocate salloc], allocations := rest } ∧
      ((size : Int) = (S : Int) - ((B : Int) - (sp : Int)) ↔ B - sp ≤ S) ∧
      (B - sp ≤ S → (sp : Int) - (size : Int) = (B : Int) - (S : Int)) := by
  obtain ⟨-, hdvd, hlo, hhi, hne⟩ := std_align_carve B s h1 h2
  have key : ∀ x y : Nat, x + s ≤ B →
      (B - x ≤ S → y = S - (B - x)) → (S < B - x → y = S + word_size - (B - x)) →
      ((y : Int) = (S : Int) - ((B : Int) - (x : Int)) ↔ B - x ≤ S) ∧
      (B - x ≤ S → (x : Int) - (y : Int) = (B : Int) - (S : Int)) := by
    intro x y hx ha hb
    rw [word_size_eq] at hb
    by_cases hc : B - x ≤ S
    · have hy := ha hc
      constructor
      · constructor
        · intro _
          exact hc
        · intro _
          omega
      · intro _
        omega
    · have hy := hb (by omega)
      constructor
      · constructor
        · intro he
          omega
        · intro h
          exact absurd h hc
      · intro h
        exact absurd h hc
  have hle : std_align 64 s (wsub (wsub B s) 64) ((s + 64) % word_size) ≤ B :=
    le_trans (Nat.le_add_right _ s) hhi
  obtain ⟨r1, r2⟩ := remaining_size B S _ h2 hS hle
  obtain ⟨k1, k2⟩ := key _ _ hhi r1 r2
  exact ⟨_, _, hdvd, hlo, hhi, hne, context_create_eq E k s salloc w B S rest hw h1 h2, k1, k2⟩

/-- Witness for C17: the descriptor `(8192, 4096)` and a record of 100 bytes. -/
theorem C17_witness :
    ex_stack.allocations = some { size := 4096, sp := 8192 } :: [] ∧
    100 + 64 < 8192 ∧ 8192 < word_size ∧ 4096 < word_size ∧
    ∃ sp size : Nat,
      64 ∣ sp ∧ 8192 - 100 - 64 ≤ sp ∧ sp + 100 ≤ 8192 ∧ sp ≠ nullptr ∧
      context_create Env.none RecKind.record 100 1 ex_stack =
        (do
          let fctx ← make_fcontext sp size RecKind.record
          BOOST_ASSERT (decide (nullptr ≠ fctx))
          record.ctor sp { size := 4096, sp := 8192 } 1
          let t ← jump_fcontext Env.none fctx sp
          pure t.fctx)
        { ex_stack with trace := ex_stack.trace ++ [Event.allocate 1], allocations := [] } ∧
      ((size : Int) = (4096 : Int) - ((8192 : Int) - (sp : Int)) ↔ 8192 - sp ≤ 4096) ∧
      (8192 - sp ≤ 4096 → (sp : Int) - (size : Int) = (8192 : Int) - (4096 : Int)) :=
  ⟨rfl, by decide, by decide, by decide,
   C17_record_carved_aligned Env.none RecKind.record 100 1 ex_stack 8192 4096 [] rfl
     (by decide) (by decide) (by decide)⟩

theorem bind_congr_run {α β : Type} (m m1 : M α) (f : α → M β) (w w1 : World)
    (h : m w = m1 w1) : M.bind m f w = M.bind m1 f w1 := by
  unfold M.bind
  rw [h]

/-- The spawning overloads depend on `context_create` only through what it does in the
world of the call. -/
theorem callcc_spawn_congr (E : Env) (Ret : List Ty) (create create1 : M fcontext_t)
    (arg : List Val) (w w1 : World) (h : create w = create1 w1) :
    callcc_spawn E Ret create w = callcc_spawn E Ret create1 w1 ∧
    callcc_spawn_arg E Ret create arg w = callcc_spawn_arg E Ret create1 arg w1 :=
  ⟨bind_congr_run create create1 _ w w1 h, bind_congr_run create create1 _ w w1 h⟩

/-! ## C15 -/

/-- With the frame `context_ontop` expects at the word (the nested tuple of a callable and a
tuple of `n` values), the function runs the hook with a reference to a new local `c` (at
address `w.fresh`) holding `t.fctx`, inside the scope of `c`. -/
theorem context_ontop_eq (E : Env) (H : UserHooks) (n : Nat) (t : transfer_t) (w : World)
    (fn : Nat) (vs : List Val) (ht : t.data ≠ nullptr)
    (hf : w.frames t.data = some (Frame.fn_tuple fn vs)) (hn : vs.length = n) :
    context_ontop E H n t w =
      M.bind (unwinding
          (do
            let x ← H fn w.fresh vs
            assign_get_1 t.data fn n (helper_convert n x)
            BOOST_ASSERT (decide (nullptr ≠ (← get_fctx w.fresh)))
            let p ← exchange w.fresh nullptr
            pure { fctx := p, data := get_1_addr t.data })
          (continuation.dtor E w.fresh))
        (fun r => M.bind (continuation.dtor E w.fresh) (fun _ => pure r))
        (new_continuation t.fctx w).2 := by
  have h' : ¬ nullptr = t.data := fun e => ht e.symm
  simp [context_ontop, M.bind, read_fn_tuple, hf, hn, h', new_continuation]

/-- The frame of a different shape at the word (in particular the flat tuple
`std::make_tuple( fn, arg ...)`) gives `context_ontop` no defined behaviour. -/
theorem context_ontop_flat (E : Env) (H : UserHooks) (n : Nat) (t : transfer_t) (w : World)
    (fn : Nat) (vs : List Val) (ht : t.data ≠ nullptr)
    (hf : w.frames t.data = some (Frame.fn_args fn vs)) :
    context_ontop E H n t w = (.undefined, w) := by
  have h' : ¬ nullptr = t.data := fun e => ht e.symm
  simp [context_ontop, M.bind, read_fn_tuple, hf, h']

/-- With the frame `std::make_tuple( fn)` at the word, `context_ontop_void` runs the hook with
a reference to a new local `c` (at address `w.fresh`) holding `t.fctx`. -/
theorem context_ontop_void_eq (E : Env) (H : UserHooks) (t : transfer_t) (w : World)
    (fn : Nat) (ht : t.data ≠ nullptr)
    (hf : w.frames t.data = some (Frame.fn_args fn [])) :
    context_ontop_void E H t w =
      M.bind (unwinding
          (do
            let _ ← H fn w.fresh []
            BOOST_ASSERT (decide (nullptr ≠ (← get_fctx w.fresh)))
            let p ← exchange w.fresh nullptr
            pure { fctx := p, data := nullptr })
          (continuation.dtor E w.fresh))
        (fun r => M.bind (continuation.dtor E w.fresh) (fun _ => pure r))
        (new_continuation t.fctx w).2 := by
  have h' : ¬ nullptr = t.data := fun e => ht e.symm
  simp [context_ontop_void, M.bind, read_fn, hf, h', new_continuation]

/-- A hook that returns: `context_ontop` stores the converted result in the member
`std::get< 1 >( * tpl)`, empties `c` without unwinding it and returns what `c` held together
with the address of the member. -/
theorem context_ontop_returns (E : Env) (H : UserHooks) (n : Nat) (t : transfer_t) (w w2 : World)
    (fn : Nat) (vs vs1 : List Val) (x : Obj) (ht : t.data ≠ nullptr)
    (hf : w.frames t.data = some (Frame.fn_tuple fn vs)) (hn : vs.length = n)
    (hH : H fn w.fresh vs (new_continuation t.fctx w).2 = (.ret x, w2))
    (hx : (helper_convert n x).as_tuple = some vs1) (hlen : vs1.length = n)
    (hc : (w2.handles w.fresh).fctx_ ≠ nullptr) :
    context_ontop E H n t w =
      (.ret { fctx := (w2.handles w.fresh).fctx_, data := get_1_addr t.data },
       { w2 with
         frames := Function.update (Function.update w2.frames t.data (some (Frame.fn_tuple fn vs1)))
                     (get_1_addr t.data) (some (Frame.tuple vs1)),
         handles := Function.update w2.handles w.fresh { fctx_ := nullptr } }) := by
  have hc' : ¬ nullptr = (w2.handles w.fresh).fctx_ := fun e => hc e.symm
  rw [context_ontop_eq E H n t w fn vs ht hf hn]
  simp [M.bind, unwinding, hH, assign_get_1, hx, hlen, get_fctx, hc', exchange, set_fctx,
    continuation.dtor, noexcept_]

/-- A hook that returns having emptied the continuation it was passed: the assertion
`nullptr != c.fctx_` fails. -/
theorem context_ontop_emptied (E : Env) (H : UserHooks) (n : Nat) (t : transfer_t) (w w2 : World)
    (fn : Nat) (vs vs1 : List Val) (x : Obj) (ht : t.data ≠ nullptr)
    (hf : w.frames t.data = some (Frame.fn_tuple fn vs)) (hn : vs.length = n)
    (hH : H fn w.fresh vs (new_continuation t.fctx w).2 = (.ret x, w2))
    (hx : (helper_convert n x).as_tuple = some vs1) (hlen : vs1.length = n)
    (hc : (w2.handles w.fresh).fctx_ = nullptr) :
    (context_ontop E H n t w).1 = Outcome.abort := by
  rw [context_ontop_eq E H n t w fn vs ht hf hn]
  simp [M.bind, unwinding, hH, assign_get_1, hx, hlen, get_fctx, hc]

/-! ## C19 -/

/-- C19, the divergence. The sender `callcc( continuation &&, exec_ontop_arg_t, Fn &&, Arg ...)`
switches with the hook `context_ontop< continuation, Fn, Arg ... >` and, as word, the address
of the flat tuple `std::make_tuple( fn, arg ...)`. `context_ontop` decodes the word as a
pointer to the nested `std::tuple< Fn, std::tuple< Arg ... > >`: on the sender's frame it has no
defined behaviour, the hook is called only when the nested tuple lives at the word. The void
form agrees: the sender passes `std::make_tuple( fn)` with the hook `context_ontop_void`, which
decodes exactly that and calls `fn` with the fresh continuation. -/
theorem C19_sender_frame_is_not_decoded (E : Env) (H : UserHooks) (Ret : List Ty) (c : Loc)
    (fn : Nat) (arg : List Val) (w w1 : World) (t : transfer_t)
    (hc : (w.handles c).fctx_ ≠ nullptr) (ht : t.data ≠ nullptr) :
    -- the sender with arguments
    (callcc_ontop_arg E Ret c fn arg w =
      M.bind (unwinding
          (M.bind (ontop_fcontext E (w.handles c).fctx_ (w.top + 1)
            (Hook.context_ontop arg.length)) (result_type_get Ret))
          (end_frame (w.top + 1)))
        (fun r => M.bind (end_frame (w.top + 1)) (fun _ => pure r))
        ((w.with_frame (Frame.fn_args fn arg)).emptied c) ∧
     ((w.with_frame (Frame.fn_args fn arg)).emptied c).frames (w.top + 1)
        = some (Frame.fn_args fn arg)) ∧
    -- its receiver
    (w1.frames t.data = some (Frame.fn_args fn arg) →
      Env.ontop H E (Hook.context_ontop arg.length) t w1 = (.undefined, w1)) ∧
    (w1.frames t.data = some (Frame.fn_tuple fn arg) →
      Env.ontop H E (Hook.context_ontop arg.length) t w1 =
        M.bind (unwinding
            (do
              let x ← H fn w1.fresh arg
              assign_get_1 t.data fn arg.length (helper_convert arg.length x)
              BOOST_ASSERT (decide (nullptr ≠ (← get_fctx w1.fresh)))
              let p ← exchange w1.fresh nullptr
              pure { fctx := p, data := get_1_addr t.data })
            (continuation.dtor E w1.fresh))
          (fun r => M.bind (continuation.dtor E w1.fresh) (fun _ => pure r))
          (new_continuation t.fctx w1).2) ∧
    -- the sender without arguments
    (callcc_ontop E Ret c fn w =
      M.bind (unwinding
          (M.bind (ontop_fcontext E (w.handles c).fctx_ (w.top + 1) Hook.context_ontop_void)
            (result_type_get Ret))
          (end_frame (w.top + 1)))
        (fun r => M.bind (end_frame (w.top + 1)) (fun _ => pure r))
        ((w.with_frame (Frame.fn_args fn [])).emptied c) ∧
     ((w.with_frame (Frame.fn_args fn [])).emptied c).frames (w.top + 1)
        = some (Frame.fn_args fn [])) ∧
    -- its receiver
    (w1.frames t.data = some (Frame.fn_args fn []) →
      Env.ontop H E Hook.context_ontop_void t w1 =
        M.bind (unwinding
            (do
              let _ ← H fn w1.fresh []
              BOOST_ASSERT (decide (nullptr ≠ (← get_fctx w1.fresh)))
              let p ← exchange w1.fresh nullptr
              pure { fctx := p, data := nullptr })
            (continuation.dtor E w1.fresh))
          (fun r => M.bind (continuation.dtor E w1.fresh) (fun _ => pure r))
          (new_continuation t.fctx w1).2) := by
  refine ⟨⟨callcc_ontop_arg_eq E Ret c fn arg w hc, ?_⟩, ?_, ?_,
    ⟨callcc_ontop_eq E Ret c fn w hc, ?_⟩, ?_⟩
  · simp [World.emptied, World.with_frame, new_frame]
  · intro hf
    exact context_ontop_flat E H arg.length t w1 fn arg ht hf
  · intro hf
    exact context_ontop_eq E H arg.length t w1 fn arg ht hf rfl
  · simp [World.emptied, World.with_frame, new_frame]
  · intro hf
    exact context_ontop_void_eq E H t w1 fn ht hf

/-- Witness for C19: the frame `std::make_tuple( fn, 3)` at address 50, as the sender with
arguments builds it, is not decoded by `context_ontop< continuation, Fn, int >`. -/
theorem C19_witness :
    (ex_two_handles.handles 0).fctx_ ≠ nullptr ∧
    ({ fctx := 9, data := 50 } : transfer_t).data ≠ nullptr ∧
    ex_flat.frames 50 = some (Frame.fn_args 1 [Val.int 3]) ∧
    Env.ontop ex_hooks Env.none (Hook.context_ontop 1) { fctx := 9, data := 50 } ex_flat
      = (.undefined, ex_flat) :=
  ⟨by decide, by decide, rfl,
   (C19_sender_frame_is_not_decoded Env.none ex_hooks [Ty.int] 0 1 [Val.int 3] ex_two_handles
      ex_flat { fctx := 9, data := 50 } (by decide) (by decide)).2.1 rfl⟩

theorem as_tuple_map_val (vs : List Val) : (Obj.tuple (vs.map Obj.val)).as_tuple = some vs := by
  simp only [Obj.as_tuple]
  induction vs with
  | nil => rfl
  | cons v vs ih => simp [Obj.values, Obj.as_val, ih]

/-! ## C11 -/

/-- C11. The part about `context_ontop` itself: let the word of `t` point to the frame
`context_ontop` decodes (the nested tuple of the callable `fn` and the `n` arguments `vs`), and
let the hook, called once with a reference to the new continuation `c` holding `t.fctx` (the
resumer's pointer) followed by `vs`, return `x`, a result assignable to the argument member.
If `c` is still non-null, `context_ontop` has stored the converted result in the member
`std::get< 1 >( * tpl)`, emptied `c` without any switch, and returns the pointer `c` held (the
resumer's, when the hook left `c` alone) with the address of that member; if the hook emptied
`c`, the assertion `nullptr != c.fctx_` fails. The scenario of the test: when the target's
switch is answered with that nested frame for the hook `x -> x - 10` and the argument 3, the
target's `callcc< int >` yields `-7` (which it then sends back times 10); but with the frame
that the sender `callcc( std::move( c), exec_ontop_arg, hook, 3)` builds, the flat
`std::make_tuple( fn, 3)`, the target's behaviour is undefined, so `-70` is not delivered. -/
theorem C11_ontop_hook_result_replaces_payload (E : Env) (H : UserHooks) (n : Nat)
    (t : transfer_t) (w w2 : World) (fn : Nat) (vs vs1 : List Val) (x : Obj)
    (ht : t.data ≠ nullptr)
    (hf : w.frames t.data = some (Frame.fn_tuple fn vs)) (hn : vs.length = n)
    (hH : H fn w.fresh vs (new_continuation t.fctx w).2 = (.ret x, w2))
    (hx : (helper_convert n x).as_tuple = some vs1) (hlen : vs1.length = n) :
    ((w2.handles w.fresh).fctx_ ≠ nullptr →
      context_ontop E H n t w =
        (.ret { fctx := (w2.handles w.fresh).fctx_, data := get_1_addr t.data },
         { w2 with
           frames := Function.update
                       (Function.update w2.frames t.data (some (Frame.fn_tuple fn vs1)))
                       (get_1_addr t.data) (some (Frame.tuple vs1)),
           handles := Function.update w2.handles w.fresh { fctx_ := nullptr } })) ∧
    ((w2.handles w.fresh).fctx_ = nullptr → (context_ontop E H n t w).1 = Outcome.abort) ∧
    (callcc_resume_arg ex_env [Ty.int] 0 [Val.int 30] ex_target_nested).1
        = Outcome.ret (Result.tuple { fctx_ := 5 } [Val.int (-7)]) ∧
    (callcc_resume_arg ex_env [Ty.int] 0 [Val.int 30] ex_target_flat).1 = Outcome.undefined ∧
    (callcc_resume_arg ex_env [Ty.int] 0 [Val.int 30] ex_target_flat).2.trace
        = [Event.jump 5 1] :=
  ⟨context_ontop_returns E H n t w w2 fn vs vs1 x ht hf hn hH hx hlen,
   context_ontop_emptied E H n t w w2 fn vs vs1 x ht hf hn hH hx hlen, rfl, rfl, rfl⟩

/-- Witness for C11: the nested tuple of hook 1 (`x -> x - 10`) and `(3)` at address 50 and the
transfer `{9, 50}`: `context_ontop` returns `{9, 51}` and the member at 51 holds `(-7)`. -/
theorem C11_witness :
    ex_nested.frames 50 = some (Frame.fn_tuple 1 [Val.int 3]) ∧
    ex_hooks 1 0 [Val.int 3] (new_continuation 9 ex_nested).2
      = (.ret (Obj.val (Val.int (-7))), (new_continuation 9 ex_nested).2) ∧
    (context_ontop Env.none ex_hooks 1 { fctx := 9, data := 50 } ex_nested).1
      = Outcome.ret { fctx := 9, data := 51 } ∧
    (context_ontop Env.none ex_hooks 1 { fctx := 9, data := 50 } ex_nested).2.frames 51
      = some (Frame.tuple [Val.int (-7)]) :=
  ⟨rfl, rfl,
   congrArg Prod.fst ((C11_ontop_hook_result_replaces_payload Env.none ex_hooks 1
      { fctx := 9, data := 50 } ex_nested (new_continuation 9 ex_nested).2 1 [Val.int 3]
      [Val.int (-7)] (Obj.val (Val.int (-7))) (by decide) rfl rfl (by rfl) rfl rfl).1 (by decide)),
   congrArg (fun r => r.2.frames 51) ((C11_ontop_hook_result_replaces_payload Env.none ex_hooks 1
      { fctx := 9, data := 50 } ex_nested (new_continuation 9 ex_nested).2 1 [Val.int 3]
      [Val.int (-7)] (Obj.val (Val.int (-7))) (by decide) rfl rfl (by rfl) rfl rfl).1 (by decide))⟩

/-! ## C12 -/

/-- C12. The part about `helper` and `context_ontop`: `helper< 1 >::convert( x)` is the
one-tuple `(x)` and `helper< N >::convert` is the identity for `N ≠ 1`. So when the word points
to the frame `context_ontop` decodes and the hook returns leaving its continuation non-null,
the member the returned transfer points to holds the one-tuple `(v)` if there is one argument
and the hook returned the single value `v`, and holds the returned tuple `vs1` unchanged if
there are `n ≠ 1` arguments. The scenario of the test: when the switch of the echoing target
`fn17` is answered with the nested frame for the hook `(x, y) -> (x - y, x + y)` and the
arguments `(3, 1)`, its `callcc< int, int >` yields `(2, 4)`, which it echoes; but with the
frame that the sender `callcc( std::move( c), exec_ontop_arg, hook, 3, 1)` builds, the flat
`std::make_tuple( fn, 3, 1)`, the target's behaviour is undefined. -/
theorem C12_single_value_is_wrapped (E : Env) (H : UserHooks) (n : Nat)
    (t : transfer_t) (w w2 : World) (fn : Nat) (vs vs1 : List Val) (x : Obj) (v : Val)
    (ht : t.data ≠ nullptr)
    (hf : w.frames t.data = some (Frame.fn_tuple fn vs)) (hn : vs.length = n)
    (hH : H fn w.fresh vs (new_continuation t.fctx w).2 = (.ret x, w2))
    (hc : (w2.handles w.fresh).fctx_ ≠ nullptr) :
    helper_1.convert x = Obj.tuple [x] ∧
    helper_convert 1 x = Obj.tuple [x] ∧
    (n ≠ 1 → helper_convert n x = x) ∧
    (n = 1 → x = Obj.val v →
      context_ontop E H n t w =
        (.ret { fctx := (w2.handles w.fresh).fctx_, data := get_1_addr t.data },
         { w2 with
           frames := Function.update
                       (Function.update w2.frames t.data (some (Frame.fn_tuple fn [v])))
                       (get_1_addr t.data) (some (Frame.tuple [v])),
           handles := Function.update w2.handles w.fresh { fctx_ := nullptr } })) ∧
    (n ≠ 1 → x = Obj.tuple (vs1.map Obj.val) → vs1.length = n →
      context_ontop E H n t w =
        (.ret { fctx := (w2.handles w.fresh).fctx_, data := get_1_addr t.data },
         { w2 with
           frames := Function.update
                       (Function.update w2.frames t.data (some (Frame.fn_tuple fn vs1)))
                       (get_1_addr t.data) (some (Frame.tuple vs1)),
           handles := Function.update w2.handles w.fresh { fctx_ := nullptr } })) ∧
    (callcc_resume_arg ex_env [Ty.int, Ty.int] 0 [Val.int 3, Val.int 1] ex_echo_nested).1
        = Outcome.ret (Result.tuple { fctx_ := 5 } [Val.int 2, Val.int 4]) ∧
    (callcc_resume_arg ex_env [Ty.int, Ty.int] 0 [Val.int 3, Val.int 1] ex_echo_flat).1
        = Outcome.undefined ∧
    (callcc_resume_arg ex_env [Ty.int, Ty.int] 0 [Val.int 3, Val.int 1] ex_echo_flat).2.trace
        = [Event.jump 5 1] := by
  refine ⟨rfl, rfl, ?_, ?_, ?_, rfl, rfl, rfl⟩
  · intro h1
    simp [helper_convert, h1, helper.convert]
  · intro h1 hv
    refine context_ontop_returns E H n t w w2 fn vs [v] x ht hf hn hH ?_ ?_ hc
    · subst h1 hv
      rfl
    · simp [h1]
  · intro h1 hv hlen
    refine context_ontop_returns E H n t w w2 fn vs vs1 x ht hf hn hH ?_ hlen hc
    rw [hv]
    simp only [helper_convert, h1, if_false, helper.convert]
    exact as_tuple_map_val vs1

/-- Witness for C12: the nested tuple of hook 2 and `(3, 1)` at address 50 and the transfer
`{9, 50}`: `context_ontop` returns `{9, 51}` and the member at 51 holds `(2, 4)`. -/
theorem C12_witness :
    ex_nested_pair.frames 50 = some (Frame.fn_tuple 2 [Val.int 3, Val.int 1]) ∧
    ex_hooks 2 0 [Val.int 3, Val.int 1] (new_continuation 9 ex_nested_pair).2
      = (.ret (Obj.tuple [Obj.val (Val.int 2), Obj.val (Val.int 4)]),
         (new_continuation 9 ex_nested_pair).2) ∧
    (context_ontop Env.none ex_hooks 2 { fctx := 9, data := 50 } ex_nested_pair).1
      = Outcome.ret { fctx := 9, data := 51 } ∧
    (context_ontop Env.none ex_hooks 2 { fctx := 9, data := 50 } ex_nested_pair).2.frames 51
      = some (Frame.tuple [Val.int 2, Val.int 4]) :=
  ⟨rfl, rfl,
   congrArg Prod.fst ((C12_single_value_is_wrapped Env.none ex_hooks 2
      { fctx := 9, data := 50 } ex_nested_pair (new_continuation 9 ex_nested_pair).2 2
      [Val.int 3, Val.int 1] [Val.int 2, Val.int 4]
      (Obj.tuple [Obj.val (Val.int 2), Obj.val (Val.int 4)]) (Val.int 0)
      (by decide) rfl rfl (by rfl) (by decide)).2.2.2.2.1 (by decide) rfl rfl),
   congrArg (fun r => r.2.frames 51) ((C12_single_value_is_wrapped Env.none ex_hooks 2
      { fctx := 9, data := 50 } ex_nested_pair (new_continuation 9 ex_nested_pair).2 2
      [Val.int 3, Val.int 1] [Val.int 2, Val.int 4]
      (Obj.tuple [Obj.val (Val.int 2), Obj.val (Val.int 4)]) (Val.int 0)
      (by decide) rfl rfl (by rfl) (by decide)).2.2.2.2.1 (by decide) rfl rfl)⟩

/-! ## C13 -/

/-- A hook that throws: `context_ontop` is left by the exception, its local `c` being
destroyed on the way. -/
theorem context_ontop_throws (E : Env) (H : UserHooks) (n : Nat) (t : transfer_t) (w w2 : World)
    (fn : Nat) (vs : List Val) (e : Exn) (ht : t.data ≠ nullptr)
    (hf : w.frames t.data = some (Frame.fn_tuple fn vs)) (hn : vs.length = n)
    (hH : H fn w.fresh vs (new_continuation t.fctx w).2 = (.raise e, w2)) :
    context_ontop E H n t w = unwinding (throw_ e) (continuation.dtor E w.fresh) w2 := by
  rw [context_ontop_eq E H n t w fn vs ht hf hn]
  simp only [M.bind, unwinding, bind_run, hH, throw_]
  rcases hd : continuation.dtor E w.fresh w2 with ⟨o, w3⟩
  cases o <;> rfl

theorem context_ontop_void_throws (E : Env) (H : UserHooks) (t : transfer_t) (w w2 : World)
    (fn : Nat) (e : Exn) (ht : t.data ≠ nullptr)
    (hf : w.frames t.data = some (Frame.fn_args fn []))
    (hH : H fn w.fresh [] (new_continuation t.fctx w).2 = (.raise e, w2)) :
    context_ontop_void E H t w = unwinding (throw_ e) (continuation.dtor E w.fresh) w2 := by
  rw [context_ontop_void_eq E H t w fn ht hf]
  simp only [M.bind, unwinding, bind_run, hH, throw_]
  rcases hd : continuation.dtor E w.fresh w2 with ⟨o, w3⟩
  cases o <;> rfl

theorem unwinding_throw_null {α : Type} (E : Env) (c : Loc) (e : Exn) (w : World)
    (h : (w.handles c).fctx_ = nullptr) :
    unwinding (throw_ e : M α) (continuation.dtor E c) w = (.raise e, w) := by
  simp [unwinding, throw_, dtor_null E c w h]

theorem unwinding_throw_world {α : Type} (E : Env) (c : Loc) (e : Exn) (w : World)
    (h : (w.handles c).fctx_ ≠ nullptr) :
    (unwinding (throw_ e : M α) (continuation.dtor E c) w).2 =
      (ontop_fcontext E (w.handles c).fctx_ nullptr Hook.context_unwind (w.emptied c)).2 := by
  rw [← dtor_world E c w h]
  simp only [unwinding, throw_]
  rcases hd : continuation.dtor E c w with ⟨o, w3⟩
  cases o <;> rfl

theorem switch_ontop_reply (E : Env) (ev : Event) (w : World) (t : transfer_t) (h : Hook)
    (f : Frame) (rs : List Reply)
    (hr : w.replies = { t := t, hook := some h, frame := some f } :: rs) :
    switch_ E ev w = run_hook E h t (w.switched ev rs t.data f) := by
  rw [switch_cons E ev w _ rs hr]
  rfl

/-- C13, counterexample to the claim as stated ("for every hook that throws"). Hook 4 throws
and leaves the continuation it was passed alone. Before the exception can leave
`context_ontop_void`, stack unwinding destroys the local `c`, which still holds the resumer 5:
the resumer is force-unwound by an on-top switch with `context_unwind`. Here that switch is
never answered, so the exception is not delivered to the target's suspension site at all. -/
theorem C13_counterexample :
    ex_hooks 4 1 [] (new_continuation 5
        ((ex_thrown_kept.emptied 0).switched (Event.jump 5 nullptr) [] 50 (Frame.fn_args 4 []))).2
      = (.raise (Exn.user "hello world" {}), (new_continuation 5
        ((ex_thrown_kept.emptied 0).switched (Event.jump 5 nullptr) [] 50
          (Frame.fn_args 4 []))).2) ∧
    (callcc_resume ex_env [Ty.void] 0 ex_thrown_kept).1 = Outcome.parked ∧
    (callcc_resume ex_env [Ty.void] 0 ex_thrown_kept).2.trace
      = [Event.jump 5 nullptr, Event.ontop 5 nullptr Hook.context_unwind] := by
  refine ⟨?_, ?_, ?_⟩ <;> rfl

/-- C13, amended. Let a pending switch of the target be answered on top with the hook
`context_ontop_void` (frame `std::make_tuple( fn)`) or `context_ontop` (the nested frame it
decodes), and let the user hook throw `e`. If the hook has emptied the continuation it was
passed (as `my_exception( std::move( c), …)` does), `e` leaves `context_ontop_void` /
`context_ontop` unchanged and with no further effect, and is thrown by the target's switch, at
its suspension site. If the hook left the continuation non-null, the world the switch leaves is
that of the forced unwind of the execution the continuation holds, which comes first. The
scenario of the test (with `callcc< void >`): the target, resumed and then resumed on top with
the hook throwing `my_exception( std::move( c), "hello world")`, catches the exception, records
the message and returns the carried continuation, so that its trampoline ends with the on-top
switch to the resumer with `context_exit`; answered so, the resumer's `callcc< void >` returns a
null handle. -/
theorem C13_hook_exception_reaches_target (E : Env) (H : UserHooks) (ev : Event)
    (w0 w2 : World) (rs : List Reply) (t : transfer_t) (fn : Nat) (vs : List Val) (e : Exn)
    (ht : t.data ≠ nullptr) :
    (w0.replies = { t := t, hook := some Hook.context_ontop_void,
                    frame := some (Frame.fn_args fn []) } :: rs →
     H fn w0.fresh [] (new_continuation t.fctx
        (w0.switched ev rs t.data (Frame.fn_args fn []))).2 = (.raise e, w2) →
      ((w2.handles w0.fresh).fctx_ = nullptr →
        context_ontop_void E H t (w0.switched ev rs t.data (Frame.fn_args fn []))
          = (.raise e, w2) ∧
        switch_ (Env.ontop H E) ev w0 = (.raise e, w2)) ∧
      ((w2.handles w0.fresh).fctx_ ≠ nullptr →
        (switch_ (Env.ontop H E) ev w0).2 =
          (ontop_fcontext E (w2.handles w0.fresh).fctx_ nullptr Hook.context_unwind
            (w2.emptied w0.fresh)).2)) ∧
    (w0.replies = { t := t, hook := some (Hook.context_ontop vs.length),
                    frame := some (Frame.fn_tuple fn vs) } :: rs →
     H fn w0.fresh vs (new_continuation t.fctx
        (w0.switched ev rs t.data (Frame.fn_tuple fn vs))).2 = (.raise e, w2) →
      ((w2.handles w0.fresh).fctx_ = nullptr →
        context_ontop E H vs.length t (w0.switched ev rs t.data (Frame.fn_tuple fn vs))
          = (.raise e, w2) ∧
        switch_ (Env.ontop H E) ev w0 = (.raise e, w2)) ∧
      ((w2.handles w0.fresh).fctx_ ≠ nullptr →
        (switch_ (Env.ontop H E) ev w0).2 =
          (ontop_fcontext E (w2.handles w0.fresh).fctx_ nullptr Hook.context_unwind
            (w2.emptied w0.fresh)).2)) ∧
    (∀ fuel, (context_entry ex_env (ex_rec_exception (fuel + 1)) { fctx := 5, data := 100 }
        ex_exception_target).2.trace
      = [Event.jump 5 nullptr,
         Event.assign "value1" (Val.int 3), Event.jump 5 nullptr,
         Event.assign "value2" (Val.str "hello world"),
         Event.ontop 5 100 (Hook.context_exit RecKind.record_void)]) ∧
    (callcc_ontop ex_env [Ty.void] 0 3 ex_exception_resumer).1
      = Outcome.ret (Result.ctx { fctx_ := nullptr }) ∧
    (callcc_ontop ex_env [Ty.void] 0 3 ex_exception_resumer).2.trace
      = [Event.ontop 7 1 Hook.context_ontop_void, Event.record_dtor 100,
         Event.deallocate 1 { size := 4096, sp := 1000 }] := by
  refine ⟨?_, ?_, fun _ => rfl, rfl, rfl⟩
  · intro hr hH
    have hsw : switch_ (Env.ontop H E) ev w0
        = context_ontop_void E H t (w0.switched ev rs t.data (Frame.fn_args fn [])) :=
      switch_ontop_reply (Env.ontop H E) ev w0 t _ _ rs hr
    have hf : (w0.switched ev rs t.data (Frame.fn_args fn [])).frames t.data
        = some (Frame.fn_args fn []) := by
      simp [World.switched]
    have hth := context_ontop_void_throws E H t _ w2 fn e ht hf hH
    refine ⟨fun hnull => ?_, fun hnn => ?_⟩
    · have h1 : context_ontop_void E H t (w0.switched ev rs t.data (Frame.fn_args fn []))
          = (.raise e, w2) := by
        rw [hth]
        exact unwinding_throw_null E w0.fresh e w2 hnull
      exact ⟨h1, hsw.trans h1⟩
    · rw [hsw, hth]
      exact unwinding_throw_world E w0.fresh e w2 hnn
  · intro hr hH
    have hsw : switch_ (Env.ontop H E) ev w0
        = context_ontop E H vs.length t (w0.switched ev rs t.data (Frame.fn_tuple fn vs)) :=
      switch_ontop_reply (Env.ontop H E) ev w0 t _ _ rs hr
    have hf : (w0.switched ev rs t.data (Frame.fn_tuple fn vs)).frames t.data
        = some (Frame.fn_tuple fn vs) := by
      simp [World.switched]
    have hth := context_ontop_throws E H vs.length t _ w2 fn vs e ht hf rfl hH
    refine ⟨fun hnull => ?_, fun hnn => ?_⟩
    · have h1 : context_ontop E H vs.length t (w0.switched ev rs t.data (Frame.fn_tuple fn vs))
          = (.raise e, w2) := by
        rw [hth]
        exact unwinding_throw_null E w0.fresh e w2 hnull
      exact ⟨h1, hsw.trans h1⟩
    · rw [hsw, hth]
      exact unwinding_throw_world E w0.fresh e w2 hnn

/-- Witness for C13: the target of `ex_thrown_moved`, suspended in the switch of
`callcc< void >( std::move( c))`, is resumed on top with hook 3: the exception
`my_exception( c, "hello world")` carrying the resumer 5 is thrown by its switch. -/
theorem C13_witness :
    (ex_thrown_moved.emptied 0).replies
      = [{ t := { fctx := 5, data := 50 }, hook := some Hook.context_ontop_void,
           frame := some (Frame.fn_args 3 []) }] ∧
    (switch_ ex_env (Event.jump 5 nullptr) (ex_thrown_moved.emptied 0)).1
      = Outcome.raise (Exn.user "hello world" { fctx_ := 5 }) ∧
    (switch_ ex_env (Event.jump 5 nullptr) (ex_thrown_moved.emptied 0)).2.trace
      = [Event.jump 5 nullptr] :=
  ⟨rfl,
   congrArg Prod.fst (((C13_hook_exception_reaches_target Env.none ex_hooks
      (Event.jump 5 nullptr) (ex_thrown_moved.emptied 0)
      (ex_hooks 3 1 [] (new_continuation 5 ((ex_thrown_moved.emptied 0).switched
        (Event.jump 5 nullptr) [] 50 (Frame.fn_args 3 []))).2).2
      [] { fctx := 5, data := 50 } 3 [] (Exn.user "hello world" { fctx_ := 5 })
      (by decide)).1 rfl (by rfl)).1 (by decide)).2,
   congrArg (fun r => r.2.trace) (((C13_hook_exception_reaches_target Env.none ex_hooks
      (Event.jump 5 nullptr) (ex_thrown_moved.emptied 0)
      (ex_hooks 3 1 [] (new_continuation 5 ((ex_thrown_moved.emptied 0).switched
        (Event.jump 5 nullptr) [] 50 (Frame.fn_args 3 []))).2).2
      [] { fctx := 5, data := 50 } 3 [] (Exn.user "hello world" { fctx_ := 5 })
      (by decide)).1 rfl (by rfl)).1 (by decide)).2⟩

end boost.context
